import Mathlib

/-!
Zippies lighthouse decoder: embedding of `LighthouseSensor.cpp`.

The per-sensor signal decoder (`loop`, `processSyncSignal`, `processSweepHit`),
the OOTX telemetry decoder (`processOOTXBit`), the capture handlers
(`TCC0_Handler`, `TCC1_Handler`), `float16ToFloat32`, `recalculatePosition`,
`estimatePosition`, `recalculateVelocity`, `Lighthouse::recalculate` and the
helper `tickCountToAngle` of `src/ZippiesTinyScreen/LighthouseSensor.cpp`, as
pure functions on explicit state records.

Conventions.
* `unsigned int` and `unsigned long` are 32 bits wide on the SAMD21; values are
  `Nat` and every arithmetic result is reduced `% 2^32`.
* An array access outside its bounds is undefined behaviour in the source; the
  functions return `none` there.
* `LighthouseSensor.h` is not among the sources.  The members of
  `SensorCycleData`, `LighthouseSensorInput` and `LighthouseSensor` are the ones
  the `.cpp` file uses, and `BASE_STATION_INFO_BLOCK_SIZE` is a parameter
  (`N`) of every function that reads it.
* A `float` is its binary32 pattern; arithmetic on `float` and `double` is the
  exact rational result rounded to the format, ties to even.
* The geometry of the pose resolver is stated in exact arithmetic, over an
  arbitrary field `K`; the `KVector2` operations that `KVector.h` declares
  without code are parameters (`KVector2Ops`), and so is the tangent of the C
  library (`tan`), which the theorems over the reals instantiate with
  `Real.tan`.
-/

namespace Zippies

/-! ## Constants (lines 17-31) -/

def SWEEP_START_TICKS : Nat := 66667
def SWEEP_DURATION_TICKS : Nat := 266667
def SYNC_PULSE_J0_MIN : Nat := 2950
def SYNC_PULSE_K0_MIN : Nat := 3450
def SYNC_PULSE_J1_MIN : Nat := 3950
def SYNC_PULSE_K1_MIN : Nat := 4450
def NONSYNC_PULSE_J2_MIN : Nat := 4950

/-- Modulus of `unsigned int` / `unsigned long` arithmetic on the 32-bit target. -/
def UINT_MOD : Nat := 2 ^ 32

/-! ## `calculateDeltaTicks` (lines 566-573) -/

/-- Wraparound delta of two readings of the 24-bit counter; both branches are
`unsigned int` expressions, `0x01000000 - startTicks` included. -/
def calculateDeltaTicks (startTicks endTicks : Nat) : Nat :=
  if startTicks > endTicks then
    ((0x01000000 + UINT_MOD - startTicks) % UINT_MOD + endTicks) % UINT_MOD
  else
    (endTicks - startTicks) % UINT_MOD

/-! ## Sync pulse classification (lines 635, 658, 719) -/

/-- Line 658: `((deltaTicks - SYNC_PULSE_J0_MIN) / 500) & 0x1`, an `unsigned int`
expression converted to `int`. -/
def foundCycle (deltaTicks : Nat) : Nat :=
  (((deltaTicks + UINT_MOD - SYNC_PULSE_J0_MIN) % UINT_MOD) / 500) &&& 0x1

/-- Line 719: `bool value = syncDelta >= SYNC_PULSE_J1_MIN`. -/
def ootxBitValue (syncDelta : Nat) : Bool :=
  decide (syncDelta ≥ SYNC_PULSE_J1_MIN)

/-! ## Decoder state -/

/-- The value of `pendingCycleEdge`: the edge the decoder waits for. -/
inductive CycleEdge where
  | SyncRising
  | SyncFalling
  | SweepRising
  | SweepFalling
  deriving DecidableEq, Repr

/-- One axis's `SensorCycleData`, with the members the source file reads and
writes. -/
structure SensorCycleData where
  pendingSyncTickCount : Nat
  syncTickCount : Nat
  sweepTickCount : Nat
  sweepHitTimeStamp : Nat
  deriving DecidableEq, Repr

/-- The result of `memset(&cycleData[i], 0, sizeof(SensorCycleData))`. -/
def SensorCycleData.zero : SensorCycleData :=
  { pendingSyncTickCount := 0, syncTickCount := 0, sweepTickCount := 0, sweepHitTimeStamp := 0 }

/-- The members of `LighthouseSensor` that the decoder mutates.  `cycleData` is
the two-element array `cycleData[0]`, `cycleData[1]`.  The floating-point
records written by `calculateLighthousePosition` (`xRotor`, `yRotor`,
`lighthouseOrientation`, `lighthousePosition`) are a function of the info block
alone and are represented by `poseSource`, the block they were computed from. -/
structure LighthouseSensor where
  zeroCount : Nat
  syncBitCounter : Nat
  payloadLength : Nat
  payloadReadMask : Nat
  readInfoBlockIndex : Nat
  readInfoBlockMask : Nat
  baseStationInfoBlock : List Nat
  pendingCycleEdge : CycleEdge
  previousTickCount : Nat
  receivedLighthousePosition : Bool
  currentCycle : Int
  cycleData0 : SensorCycleData
  cycleData1 : SensorCycleData
  poseSource : Option (List Nat)
  deriving DecidableEq, Repr

/-- The constructor (lines 439-454).  `cycleData` and `baseStationInfoBlock` are
not in the initialiser list; their initial contents are the arguments. -/
def LighthouseSensor.init (block : List Nat) (c0 c1 : SensorCycleData) : LighthouseSensor :=
  { zeroCount := 0, syncBitCounter := 0, payloadLength := 0, payloadReadMask := 0,
    readInfoBlockIndex := 0, readInfoBlockMask := 0, baseStationInfoBlock := block,
    pendingCycleEdge := CycleEdge.SyncRising, previousTickCount := 0,
    receivedLighthousePosition := false, currentCycle := -1,
    cycleData0 := c0, cycleData1 := c1, poseSource := none }

/-- Read `cycleData[i]`; `none` outside the array. -/
def LighthouseSensor.getCycle (s : LighthouseSensor) (i : Int) : Option SensorCycleData :=
  if i = 0 then some s.cycleData0 else if i = 1 then some s.cycleData1 else none

/-- Assign to members of `cycleData[i]` (`f` maps the old record to the new one);
`none` outside the array. -/
def LighthouseSensor.updCycle (s : LighthouseSensor) (i : Int)
    (f : SensorCycleData → SensorCycleData) : Option LighthouseSensor :=
  if i = 0 then some { s with cycleData0 := f s.cycleData0 }
  else if i = 1 then some { s with cycleData1 := f s.cycleData1 }
  else none

/-- The machine operation `x & ~m` on an unsigned integer: the bits of `m` are
cleared in `x`.  `Nat` has no complement; xor-ing `x` with `x &&& m` turns off
exactly the bits of `x` that are set in `m`, whatever the width. -/
def andNot (x m : Nat) : Nat := x ^^^ (x &&& m)

/-- The statement `if (value) x |= m; else x &= ~m;` of lines 793-796 and
822-825: the new value of `x`. -/
def storeBit (x m : Nat) (value : Bool) : Nat :=
  if value then x ||| m else andNot x m

/-! ## `calculateLighthousePosition` (lines 475-564) -/

/-- The integer-visible effect of `calculateLighthousePosition`: the pose and
calibration records are recomputed from the current info block and
`receivedLighthousePosition` is set. -/
def calculateLighthousePosition (s : LighthouseSensor) : LighthouseSensor :=
  { s with poseSource := some s.baseStationInfoBlock, receivedLighthousePosition := true }

/-! ## `processOOTXBit` (lines 717-834) -/

/-- Lines 792-833 of `processOOTXBit`: the bit is a data bit, stored into
`payloadLength` or into the info block. -/
def processOOTXData (N : Nat) (s : LighthouseSensor) (value : Bool) : Option LighthouseSensor :=
  if s.payloadReadMask ≠ 0 then
    let payloadLength := storeBit s.payloadLength s.payloadReadMask value
    let payloadReadMask := s.payloadReadMask >>> 1
    if payloadReadMask = 0 then
      some { s with payloadLength := payloadLength, payloadReadMask := 0x8000 }
    else if payloadReadMask = 0x0080 then
      if payloadLength = N then
        some { s with payloadLength := payloadLength, payloadReadMask := 0,
                      readInfoBlockIndex := 0, readInfoBlockMask := 0x80 }
      else
        some { s with payloadLength := payloadLength, payloadReadMask := 0 }
    else
      some { s with payloadLength := payloadLength, payloadReadMask := payloadReadMask }
  else if s.readInfoBlockMask ≠ 0 then
    match s.baseStationInfoBlock[s.readInfoBlockIndex]? with
    | none => none
    | some b =>
      let b1 := storeBit b s.readInfoBlockMask value
      let block := s.baseStationInfoBlock.set s.readInfoBlockIndex b1
      let readInfoBlockMask := s.readInfoBlockMask >>> 1
      if readInfoBlockMask = 0 then
        let readInfoBlockIndex := s.readInfoBlockIndex + 1
        if readInfoBlockIndex < N then
          some { s with baseStationInfoBlock := block, readInfoBlockIndex := readInfoBlockIndex,
                        readInfoBlockMask := 0x80 }
        else
          some { s with baseStationInfoBlock := block, readInfoBlockIndex := readInfoBlockIndex,
                        readInfoBlockMask := 0 }
      else
        some { s with baseStationInfoBlock := block, readInfoBlockMask := readInfoBlockMask }
  else
    some s

/-- The OOTX bit decoder, `N` being `BASE_STATION_INFO_BLOCK_SIZE`. -/
def processOOTXBit (N : Nat) (s0 : LighthouseSensor) (syncDelta : Nat) : Option LighthouseSensor :=
  let value := ootxBitValue syncDelta
  let s1 := { s0 with syncBitCounter := s0.syncBitCounter + 1 }
  if !value then
    let s2 := { s1 with zeroCount := s1.zeroCount + 1 }
    if s2.zeroCount = 17 then
      some { s2 with readInfoBlockMask := 0, zeroCount := 0, syncBitCounter := 16,
                     payloadReadMask := 0x0080 }
    else if s2.syncBitCounter = 17 ∧ (s2.payloadReadMask ≠ 0 ∨ s2.readInfoBlockMask ≠ 0) then
      some { s2 with syncBitCounter := 0, payloadReadMask := 0, readInfoBlockMask := 0 }
    else
      processOOTXData N s2 value
  else
    let s2 := { s1 with zeroCount := 0 }
    if s2.syncBitCounter = 17 then
      let s3 := { s2 with syncBitCounter := 0 }
      if s3.readInfoBlockIndex = N then
        some (calculateLighthousePosition { s3 with readInfoBlockIndex := 0 })
      else
        some s3
    else
      processOOTXData N s2 value

/-! ## `processSyncSignal` (lines 628-677) -/

/-- The sync-pulse handler.  Each step that can leave the `cycleData` array is
sequenced with `Option.bind`. -/
def processSyncSignal (N : Nat) (s : LighthouseSensor) (previousTickCount currentTickCount : Nat) :
    Option LighthouseSensor :=
  let deltaTicks := calculateDeltaTicks previousTickCount currentTickCount
  if deltaTicks < SYNC_PULSE_J0_MIN ∨ deltaTicks ≥ NONSYNC_PULSE_J2_MIN then
    (if s.currentCycle ≠ -1 then
        s.updCycle s.currentCycle (fun c => { c with sweepHitTimeStamp := 0 })
      else some s).bind fun s1 =>
    some { s1 with currentCycle := -1 }
  else
    (if !s.receivedLighthousePosition then processOOTXBit N s deltaTicks else some s).bind fun s1 =>
    let found : Int := (foundCycle deltaTicks : Nat)
    (if s1.currentCycle ≠ -1 ∧ found ≠ s1.currentCycle then
        (s1.updCycle s1.currentCycle (fun _ => SensorCycleData.zero)).bind fun s1a =>
        s1a.updCycle s1a.currentCycle (fun c => { c with sweepHitTimeStamp := 0 })
      else some s1).bind fun s2 =>
    let s3 := { s2 with currentCycle := found }
    (s3.updCycle s3.currentCycle (fun c => { c with pendingSyncTickCount := deltaTicks })).bind
      fun s4 =>
    some { s4 with pendingCycleEdge := CycleEdge.SweepRising }

/-! ## `processSweepHit` (lines 682-709) -/

/-- The sweep-hit handler; `millis` is the value `millis()` returns in the call. -/
def processSweepHit (s : LighthouseSensor) (previousTicks currentTicks millis : Nat) :
    Option LighthouseSensor :=
  let deltaTicks := calculateDeltaTicks previousTicks currentTicks
  (s.getCycle s.currentCycle).bind fun c =>
  let sweepTickCount :=
    ((c.pendingSyncTickCount + deltaTicks) % UINT_MOD + UINT_MOD - SWEEP_START_TICKS) % UINT_MOD
  if sweepTickCount ≥ SWEEP_DURATION_TICKS then
    (s.updCycle s.currentCycle (fun _ => SensorCycleData.zero)).bind fun s1 =>
    some { s1 with currentCycle := -1, pendingCycleEdge := CycleEdge.SyncFalling }
  else
    (s.updCycle s.currentCycle (fun c =>
      { syncTickCount := c.pendingSyncTickCount, pendingSyncTickCount := 0,
        sweepTickCount := sweepTickCount, sweepHitTimeStamp := millis })).bind fun s1 =>
    some { s1 with pendingCycleEdge := CycleEdge.SweepFalling }

/-! ## `loop` (lines 576-626) -/

/-- The `switch` of lines 607-623: the handler selected by `pendingCycleEdge`.
`(currentCycle + 1) & 0x1` on the two's-complement `int` is the remainder of
`currentCycle + 1` modulo 2. -/
def dispatchEdge (N : Nat) (s : LighthouseSensor) (currentTickCount millis : Nat) :
    Option LighthouseSensor :=
  match s.pendingCycleEdge with
  | CycleEdge.SyncFalling => processSyncSignal N s s.previousTickCount currentTickCount
  | CycleEdge.SweepRising => processSweepHit s s.previousTickCount currentTickCount millis
  | CycleEdge.SweepFalling =>
      some { s with currentCycle := (s.currentCycle + 1) % 2,
                    pendingCycleEdge := CycleEdge.SyncRising }
  | CycleEdge.SyncRising => some { s with pendingCycleEdge := CycleEdge.SyncFalling }

/-- Lines 607-624: the decoder's reaction to one edge timestamp, the `switch`
followed by `previousTickCount = currentTickCount`. -/
def processEdge (N : Nat) (s : LighthouseSensor) (currentTickCount millis : Nat) :
    Option LighthouseSensor :=
  (dispatchEdge N s currentTickCount millis).bind fun s1 =>
  some { s1 with previousTickCount := currentTickCount }

/-- The members of `LighthouseSensorInput` that `loop` uses.  Pointers into the
tick buffer are offsets from `hitTickBuffer`, so `hitTickBuffer` itself is
offset 0. -/
structure LighthouseSensorInput where
  hitTickBuffer : List Nat
  hitTickEndPtr : Nat
  hitTickReadPtr : Nat
  hitTickWritePtr : Nat
  deriving DecidableEq, Repr

/-- Lines 591-595: the slot after the read pointer, wrapping at `hitTickEndPtr`. -/
def nextReadPtr (q : LighthouseSensorInput) : Nat :=
  if q.hitTickReadPtr = q.hitTickEndPtr then 0 else q.hitTickReadPtr + 1

/-- Line 602: `sensorInput->hitTickReadPtr = nextReadPtr`. -/
def advanceRead (q : LighthouseSensorInput) : LighthouseSensorInput :=
  { q with hitTickReadPtr := nextReadPtr q }

/-- The `while (true)` of `loop` (lines 588-625), run for at most `fuel`
evaluations of its body.  `hitTickWritePtr` is the snapshot of line 587,
`millis k` the value of `millis()` during iteration `k`; `none` is a fault or
the end of the fuel. -/
def loopFuel (N : Nat) (millis : Nat → Nat) (hitTickWritePtr : Nat) :
    Nat → Nat → LighthouseSensorInput → LighthouseSensor →
      Option (LighthouseSensorInput × LighthouseSensor)
  | 0, _, _, _ => none
  | fuel + 1, k, q, s =>
    if nextReadPtr q = hitTickWritePtr then
      some (q, s)
    else
      (q.hitTickBuffer[nextReadPtr q]?).bind fun currentTickCount =>
      (processEdge N s currentTickCount (millis k)).bind fun s1 =>
      loopFuel N millis hitTickWritePtr fuel (k + 1) (advanceRead q) s1

/-- `LighthouseSensor::loop` with a bound on the number of iterations. -/
def loop (N : Nat) (millis : Nat → Nat) (fuel : Nat) (q : LighthouseSensorInput)
    (s : LighthouseSensor) : Option (LighthouseSensorInput × LighthouseSensor) :=
  loopFuel N millis q.hitTickWritePtr fuel 0 q s

/-! ## OOTX bit streams -/

/-- Feed `processOOTXBit` a sequence of sync-pulse widths, in order. -/
def feedOOTX (N : Nat) : LighthouseSensor → List Nat → Option LighthouseSensor
  | s, [] => some s
  | s, w :: ws => (processOOTXBit N s w).bind fun s1 => feedOOTX N s1 ws

/-- A sync-pulse width that encodes the given bit: the lower edge of the J0 band
for 0, of the J1 band for 1. -/
def widthOfBit (v : Bool) : Nat :=
  if v then SYNC_PULSE_J1_MIN else SYNC_PULSE_J0_MIN

/-- The eight bits of a byte, most significant first. -/
def bitsOfByte (x : Nat) : List Bool :=
  [x.testBit 7, x.testBit 6, x.testBit 5, x.testBit 4,
   x.testBit 3, x.testBit 2, x.testBit 1, x.testBit 0]

/-- Insert the sync bit 1 after every 16 data bits; `k` data bits have gone by
since the last sync bit. -/
def insertSync : Nat → List Bool → List Bool
  | _, [] => []
  | k, b :: bs => if k + 1 = 16 then b :: true :: insertSync 0 bs else b :: insertSync (k + 1) bs

/-- The bit stream of an OOTX frame: 17 zero bits, the sync bit, then the 16
bits of the length field followed by the bytes of the block, with a sync bit
after every 16 of these data bits. -/
def frameBits (lenBits : List Bool) (block : List Nat) : List Bool :=
  List.replicate 17 false ++ [true] ++ insertSync 0 (lenBits ++ block.flatMap bitsOfByte)

/-- Store the bits `vs` into `x` through the masks `ms`, in order. -/
def assemble : Nat → List Nat → List Bool → Nat
  | x, m :: ms, v :: vs => assemble (storeBit x m v) ms vs
  | x, _, _ => x

/-- The masks `payloadReadMask` runs through while the length field is read:
0x0080 down to 0x0001, then 0x8000 down to 0x0100. -/
def payloadMasks : List Nat :=
  [0x80, 0x40, 0x20, 0x10, 0x08, 0x04, 0x02, 0x01,
   0x8000, 0x4000, 0x2000, 0x1000, 0x0800, 0x0400, 0x0200, 0x0100]

/-- The masks `readInfoBlockMask` runs through while one byte is read. -/
def byteMasks : List Nat := [0x80, 0x40, 0x20, 0x10, 0x08, 0x04, 0x02, 0x01]

/-- The length of the run of zero bits that ends a bit sequence, continuing a
run of `z` zeros. -/
def zeroRun : Nat → List Bool → Nat
  | z, [] => z
  | z, v :: vs => zeroRun (if v then 0 else z + 1) vs

/-- Feed the data-bit part of `processOOTXBit` a sequence of bits. -/
def feedData (N : Nat) : LighthouseSensor → List Bool → Option LighthouseSensor
  | s, [] => some s
  | s, v :: vs => (processOOTXData N s v).bind fun s1 => feedData N s1 vs

/-! ## Representation invariants -/

/-- The tracked axis is none (-1), X (0) or Y (1). -/
def cycleInBounds (s : LighthouseSensor) : Prop :=
  s.currentCycle = -1 ∨ s.currentCycle = 0 ∨ s.currentCycle = 1

/-- While info-block bits are being stored, the byte index is inside the block. -/
def ootxInBounds (s : LighthouseSensor) : Prop :=
  s.payloadReadMask = 0 → s.readInfoBlockMask ≠ 0 →
    s.readInfoBlockIndex < s.baseStationInfoBlock.length

/-- The sensor members outside the OOTX decoder agree in two states. -/
def sameTracking (s t : LighthouseSensor) : Prop :=
  t.currentCycle = s.currentCycle ∧ t.cycleData0 = s.cycleData0 ∧ t.cycleData1 = s.cycleData1 ∧
    t.pendingCycleEdge = s.pendingCycleEdge ∧ t.previousTickCount = s.previousTickCount

/-- The OOTX framing members agree in two states. -/
def sameOOTX (s t : LighthouseSensor) : Prop :=
  t.zeroCount = s.zeroCount ∧ t.syncBitCounter = s.syncBitCounter ∧
    t.payloadLength = s.payloadLength ∧ t.payloadReadMask = s.payloadReadMask ∧
    t.readInfoBlockIndex = s.readInfoBlockIndex ∧ t.readInfoBlockMask = s.readInfoBlockMask ∧
    t.baseStationInfoBlock = s.baseStationInfoBlock ∧
    t.receivedLighthousePosition = s.receivedLighthousePosition ∧ t.poseSource = s.poseSource

/-- Both stored sweep tick counts are below `SWEEP_DURATION_TICKS`. -/
def sweepBounded (s : LighthouseSensor) : Prop :=
  s.cycleData0.sweepTickCount < SWEEP_DURATION_TICKS ∧
    s.cycleData1.sweepTickCount < SWEEP_DURATION_TICKS

/-- A decoder state waiting for the falling edge of a sync pulse, with no axis
tracked, used to instantiate the theorems. -/
def sampleSyncFalling : LighthouseSensor :=
  { LighthouseSensor.init [] SensorCycleData.zero SensorCycleData.zero with
    pendingCycleEdge := CycleEdge.SyncFalling }

/-- A decoder state waiting for the sweep on the X axis after a sync pulse of
3000 ticks, used to instantiate the theorems. -/
def sampleSweepRising : LighthouseSensor :=
  { LighthouseSensor.init [] SensorCycleData.zero SensorCycleData.zero with
    pendingCycleEdge := CycleEdge.SweepRising
    currentCycle := 0
    cycleData0 := { SensorCycleData.zero with pendingSyncTickCount := 3000 } }

/-- A decoder state waiting for the falling edge of a sync pulse while the X
axis is tracked and holds a fix, used to instantiate the theorems. -/
def sampleSyncFallingX : LighthouseSensor :=
  { LighthouseSensor.init [] SensorCycleData.zero SensorCycleData.zero with
    pendingCycleEdge := CycleEdge.SyncFalling
    currentCycle := 0
    cycleData0 := { pendingSyncTickCount := 0, syncTickCount := 3000, sweepTickCount := 1000,
                    sweepHitTimeStamp := 5 } }

/-- A ring of eight slots holding four unread edge timestamps (slots 1 to 4),
used to instantiate the theorems. -/
def sampleInput : LighthouseSensorInput :=
  { hitTickBuffer := [0, 1000, 4450, 104450, 104500, 0, 0, 0],
    hitTickEndPtr := 7, hitTickReadPtr := 0, hitTickWritePtr := 5 }

/-- The length field of a frame announcing a block of two bytes: the low byte
0x02 first, each byte most significant bit first. -/
def sampleLengthBits : List Bool :=
  [false, false, false, false, false, false, true, false,
   false, false, false, false, false, false, false, false]

/-- The pulse widths of a whole frame carrying the two bytes 0xA5, 0x3C, used to
instantiate the theorems. -/
def sampleFrameWidths : List Nat :=
  (frameBits sampleLengthBits [0xA5, 0x3C]).map widthOfBit

/-- The bits `vs`, received after a run of `z` zero bits, never complete a run
of 17 consecutive zero bits. -/
def noFrameStart : Nat → List Bool → Bool
  | _, [] => true
  | z, v :: vs => if v then noFrameStart 0 vs else decide (z + 1 < 17) && noFrameStart (z + 1) vs

/-- A decoder state in the middle of an info block of three bytes: the first
two bytes (0xA5, 0x3C) are stored, sixteen data bits have gone by since the
last sync bit and the next bit is due to be the sync bit; used to instantiate
the theorems. -/
def sampleMidBlock : LighthouseSensor :=
  { LighthouseSensor.init [0xA5, 0x3C, 0x00] SensorCycleData.zero SensorCycleData.zero with
    syncBitCounter := 16, zeroCount := 2, payloadLength := 3,
    readInfoBlockIndex := 2, readInfoBlockMask := 0x80 }

/-- A decoder state that has received sixteen consecutive zero bits and holds
the two bytes 0xFF, 0x00 in its buffer; used to instantiate the theorems. -/
def sampleSixteenZeros : LighthouseSensor :=
  { LighthouseSensor.init [0xFF, 0x00] SensorCycleData.zero SensorCycleData.zero with
    zeroCount := 16, syncBitCounter := 16 }

/-- The pulse widths of a length field that decodes to 5. -/
def sampleForeignLength : List Nat :=
  [3000, 3000, 3000, 3000, 3000, 4000, 3000, 4000,
   3000, 3000, 3000, 3000, 3000, 3000, 3000, 3000]

/-- A decoder state about to read the last bit of the last byte of an info
block of three bytes; used to instantiate the theorems. -/
def sampleFinalBit : LighthouseSensor :=
  { LighthouseSensor.init [0xA5, 0x3C, 0x7E] SensorCycleData.zero SensorCycleData.zero with
    syncBitCounter := 7, zeroCount := 0, payloadLength := 3,
    readInfoBlockIndex := 2, readInfoBlockMask := 0x01 }

/-- Successive calls of `loop`, one for each ring content in `qs` (the capture
handlers refill the ring between the calls). -/
def loopCalls (N : Nat) (millis : Nat → Nat) (fuel : Nat) :
    LighthouseSensor → List LighthouseSensorInput → Option LighthouseSensor
  | s, [] => some s
  | s, q :: qs => (loop N millis fuel q s).bind fun r => loopCalls N millis fuel r.2 qs

/-- A decoder state whose lighthouse pose has been computed from the block
0xA5, 0x3C, with a frame of the next carousel half read; used to instantiate
the theorems. -/
def samplePoseKnown : LighthouseSensor :=
  { LighthouseSensor.init [0xA5, 0x3C] SensorCycleData.zero SensorCycleData.zero with
    receivedLighthousePosition := true, poseSource := some [0xA5, 0x3C],
    zeroCount := 3, syncBitCounter := 9, payloadLength := 2 }

/-! ## The capture handlers (lines 341-373) -/

/-- The capture handler of the right sensor: `cc0` is the value read from
`REG_TCC0_CC0`.  `none` is a store through a write pointer outside the buffer. -/
def TCC0_Handler (rightSensorInput : LighthouseSensorInput) (cc0 : Nat) :
    Option LighthouseSensorInput :=
  if rightSensorInput.hitTickWritePtr ≠ rightSensorInput.hitTickReadPtr then
    if rightSensorInput.hitTickWritePtr < rightSensorInput.hitTickBuffer.length then
      let hitTickBuffer := rightSensorInput.hitTickBuffer.set rightSensorInput.hitTickWritePtr cc0
      if rightSensorInput.hitTickWritePtr = rightSensorInput.hitTickEndPtr then
        some { rightSensorInput with hitTickBuffer := hitTickBuffer, hitTickWritePtr := 0 }
      else
        some { rightSensorInput with
          hitTickBuffer := hitTickBuffer
          hitTickWritePtr := rightSensorInput.hitTickWritePtr + 1 }
    else none
  else some rightSensorInput

/-- The capture handler of the left sensor: `cc0` is the value read from
`REG_TCC1_CC0`. -/
def TCC1_Handler (leftSensorInput : LighthouseSensorInput) (cc0 : Nat) :
    Option LighthouseSensorInput :=
  if leftSensorInput.hitTickWritePtr ≠ leftSensorInput.hitTickReadPtr then
    if leftSensorInput.hitTickWritePtr < leftSensorInput.hitTickBuffer.length then
      let hitTickBuffer := leftSensorInput.hitTickBuffer.set leftSensorInput.hitTickWritePtr cc0
      if leftSensorInput.hitTickWritePtr = leftSensorInput.hitTickEndPtr then
        some { leftSensorInput with hitTickBuffer := hitTickBuffer, hitTickWritePtr := 0 }
      else
        some { leftSensorInput with
          hitTickBuffer := hitTickBuffer
          hitTickWritePtr := leftSensorInput.hitTickWritePtr + 1 }
    else none
  else some leftSensorInput

/-! ## The ring of edge timestamps -/

/-- The ring is well formed: `hitTickEndPtr` is the last slot of the buffer and
both cursors point into the buffer. -/
def ringValid (q : LighthouseSensorInput) : Prop :=
  q.hitTickEndPtr + 1 = q.hitTickBuffer.length ∧
    q.hitTickReadPtr ≤ q.hitTickEndPtr ∧ q.hitTickWritePtr ≤ q.hitTickEndPtr

instance (q : LighthouseSensorInput) : Decidable (ringValid q) := by
  unfold ringValid
  infer_instance

/-- The number of unread entries: the slots strictly between the read cursor
and the write cursor, going round the ring. -/
def unreadCount (q : LighthouseSensorInput) : Nat :=
  if q.hitTickReadPtr < q.hitTickWritePtr then q.hitTickWritePtr - q.hitTickReadPtr - 1
  else q.hitTickWritePtr + q.hitTickEndPtr - q.hitTickReadPtr

/-- The slot of the `i`-th unread entry, counted from the read cursor. -/
def unreadSlot (q : LighthouseSensorInput) (i : Nat) : Nat :=
  if q.hitTickReadPtr + 1 + i ≤ q.hitTickEndPtr then q.hitTickReadPtr + 1 + i
  else q.hitTickReadPtr + i - q.hitTickEndPtr

/-- The unread entries, oldest first. -/
def unread (q : LighthouseSensorInput) : List Nat :=
  (List.range (unreadCount q)).map fun i => q.hitTickBuffer.getD (unreadSlot q i) 0

/-- The ring with every entry read: the read cursor is the slot before the
write cursor. -/
def drained (q : LighthouseSensorInput) : LighthouseSensorInput :=
  { q with hitTickReadPtr :=
      if q.hitTickWritePtr = 0 then q.hitTickEndPtr else q.hitTickWritePtr - 1 }

/-- The decoder handed a sequence of edge timestamps, in order, each once;
`millis k` is the clock at the `k`-th of them. -/
def feedEdges (N : Nat) (millis : Nat → Nat) :
    Nat → LighthouseSensor → List Nat → Option LighthouseSensor
  | _, s, [] => some s
  | k, s, c :: cs => (processEdge N s c (millis k)).bind fun s1 => feedEdges N millis (k + 1) s1 cs

/-- What happens to a ring: the capture handler pushes a timestamp, or the
consumer calls `loop`. -/
inductive RingOp where
  | push (cc0 : Nat)
  | drain
  deriving DecidableEq, Repr

/-- A sequential interleaving of capture-handler calls and `loop` calls on one
sensor.  The result holds the final ring, the final decoder state and, for each
push, whether it changed the ring. -/
def runRing (N : Nat) (millis : Nat → Nat) (fuel : Nat) :
    LighthouseSensorInput → LighthouseSensor → List RingOp →
      Option (LighthouseSensorInput × LighthouseSensor × List Bool)
  | q, s, [] => some (q, s, [])
  | q, s, RingOp.push cc0 :: ops =>
    (TCC0_Handler q cc0).bind fun q1 =>
    (runRing N millis fuel q1 s ops).map fun r => (r.1, r.2.1, decide (q1 ≠ q) :: r.2.2)
  | q, s, RingOp.drain :: ops =>
    (loop N millis fuel q s).bind fun r => runRing N millis fuel r.1 r.2 ops

/-- Modelled from the spec: a bounded FIFO of capacity `cap` in front of the
decoder.  A push is accepted exactly when fewer than `cap` entries are pending;
a drain hands the pending entries to the decoder in push order, each once, and
leaves the FIFO empty. -/
def runFifo (cap N : Nat) (millis : Nat → Nat) :
    List Nat → LighthouseSensor → List RingOp →
      Option (List Nat × LighthouseSensor × List Bool)
  | p, s, [] => some (p, s, [])
  | p, s, RingOp.push cc0 :: ops =>
    if p.length < cap then
      (runFifo cap N millis (p ++ [cc0]) s ops).map fun r => (r.1, r.2.1, true :: r.2.2)
    else
      (runFifo cap N millis p s ops).map fun r => (r.1, r.2.1, false :: r.2.2)
  | p, s, RingOp.drain :: ops =>
    (feedEdges N millis 0 s p).bind fun t => runFifo cap N millis [] t ops

/-- The invariant of the decoder state under which no array access of
`processEdge` leaves its array: the tracked axis is -1, 0 or 1 and is 0 or 1
while a sweep is awaited; the info block has `N > 0` bytes and the byte index
is inside it while info-block bits are being stored. -/
def sensorInv (N : Nat) (s : LighthouseSensor) : Prop :=
  cycleInBounds s ∧
    (s.pendingCycleEdge = CycleEdge.SweepRising → s.currentCycle = 0 ∨ s.currentCycle = 1) ∧
    0 < N ∧ s.baseStationInfoBlock.length = N ∧
    (s.readInfoBlockMask ≠ 0 → s.readInfoBlockIndex < N)

/-- A full ring of four slots: the write cursor has caught up with the read
cursor, and slots 3, 0, 1 hold unread entries; used to instantiate the
theorems. -/
def sampleFullInput : LighthouseSensorInput :=
  { hitTickBuffer := [4450, 104450, 7, 1000],
    hitTickEndPtr := 3, hitTickReadPtr := 2, hitTickWritePtr := 2 }

/-- An empty ring of four slots: the write cursor is one slot ahead of the read
cursor; used to instantiate the theorems. -/
def sampleEmptyInput : LighthouseSensorInput :=
  { hitTickBuffer := [0, 0, 0, 0],
    hitTickEndPtr := 3, hitTickReadPtr := 3, hitTickWritePtr := 0 }

/-! ## `float16ToFloat32` (lines 70-84) -/

/-- Round a rational to the nearest integer, ties to the even one: the rounding
of IEEE 754 arithmetic in its default mode. -/
def roundHalfEven (x : ℚ) : ℤ :=
  if x - ⌊x⌋ < 1 / 2 then ⌊x⌋
  else if 1 / 2 < x - ⌊x⌋ then ⌊x⌋ + 1
  else if ⌊x⌋ % 2 = 0 then ⌊x⌋ else ⌊x⌋ + 1

/-- The magnitude `x ≥ 0` rounded to the nearest number of a binary format
with `p` significand bits and least normal exponent `emin`, ties to even.  The
spacing of the format around `x` is `2 ^ (e - (p - 1))`, `e` being the exponent
of `x`, or `emin` in the subnormal range. -/
def roundBinary (p : Nat) (emin : Int) (x : ℚ) : ℚ :=
  if x = 0 then 0
  else
    (roundHalfEven (x / 2 ^ (max (Int.log 2 x) emin - ((p : Int) - 1))) : ℚ)
      * 2 ^ (max (Int.log 2 x) emin - ((p : Int) - 1))

/-- The sign bit of a binary32 pattern. -/
def float32Sign (u : Nat) : Bool := u / 2 ^ 31 % 2 = 1

/-- The magnitude of the number a binary32 pattern with exponent field below
255 denotes: subnormal for exponent field 0, normal otherwise. -/
def float32Magnitude (u : Nat) : ℚ :=
  if u / 2 ^ 23 % 256 = 0 then ((u % 2 ^ 23 : Nat) : ℚ) * 2 ^ (-149 : Int)
  else ((2 ^ 23 + u % 2 ^ 23 : Nat) : ℚ) * 2 ^ (((u / 2 ^ 23 % 256 : Nat) : Int) - 150)

/-- The number a binary32 pattern with exponent field below 255 denotes. -/
def float32Value (u : Nat) : ℚ :=
  if float32Sign u then - float32Magnitude u else float32Magnitude u

/-- The product of two `double` magnitudes, as `x * y` computes it: the exact
product rounded to binary64 (53 significand bits, least normal exponent
-1022).  Overflow is not modelled: the only use multiplies a `float` by
`0x1p112`, which stays below `2 ^ 241`. -/
def doubleMul (x y : ℚ) : ℚ := roundBinary 53 (-1022) (x * y)

/-- Conversion of a `double` with sign `neg` and magnitude `x` to `float`: the
pattern of the binary32 number nearest to it, ties to even; infinity from the
overflow threshold on. -/
def doubleToFloat (neg : Bool) (x : ℚ) : Nat :=
  (if neg then 0x80000000 else 0) +
    (if x = 0 then 0
      else
        min (((max (Int.log 2 x) (-126) + 126).toNat) * 2 ^ 23 +
              (roundHalfEven (x / 2 ^ (max (Int.log 2 x) (-126) - 23))).toNat)
            0x7F800000)

/-- The function `float16ToFloat32`; the result is the pattern of the `float`
returned.  `val.f * 0x1p112` multiplies in `double` (the literal is a
`double`), and the `return` converts the product to `float`. -/
def float16ToFloat32 (half : Nat) : Nat :=
  let u := (((half &&& 0x7fff) <<< 13) ||| ((half &&& 0x8000) <<< 16)) % 2 ^ 32
  if half &&& 0x7c00 ≠ 0x7c00 then
    doubleToFloat (float32Sign u) (doubleMul (float32Magnitude u) (2 ^ 112))
  else
    u ||| 0x7f800000

/-! ## `recalculatePosition` (lines 846-894) -/

/-- The members of `LighthouseSensor` that hold the position fix.  A `KVector2`
is a value of type `V`. -/
structure SensorPosition (V : Type) where
  positionVector : V
  positionTimeStamp : Nat
  previousPositionVector : V
  previousPositionTimeStamp : Nat

/-- The function `recalculatePosition`.  `fix s` is the vector that lines
863-892 compute in floating point from the cycle data and the lighthouse pose
of the sensor; it does not read the position members.  `max` is the Arduino
macro `((a)>(b)?(a):(b))`.  Modelled from the spec: `KVector2::set`, whose code
is outside the source at hand, stores the vector it is given. -/
def recalculatePosition {V : Type} (fix : LighthouseSensor → V) (s : LighthouseSensor)
    (p : SensorPosition V) : SensorPosition V :=
  if s.cycleData0.sweepHitTimeStamp = 0 ∨ s.cycleData1.sweepHitTimeStamp = 0 then p
  else
    let newPositionTimeStamp :=
      if s.cycleData0.sweepHitTimeStamp > s.cycleData1.sweepHitTimeStamp then
        s.cycleData0.sweepHitTimeStamp
      else s.cycleData1.sweepHitTimeStamp
    if p.positionTimeStamp = newPositionTimeStamp then p
    else
      { previousPositionVector := p.positionVector
        previousPositionTimeStamp := p.positionTimeStamp
        positionVector := fix s
        positionTimeStamp := newPositionTimeStamp }

/-- A decoder state holding a sweep hit on both axes, at 12 ms (X) and 20 ms
(Y); used to instantiate the theorems. -/
def sampleBothAxes : LighthouseSensor :=
  { LighthouseSensor.init [] SensorCycleData.zero SensorCycleData.zero with
    currentCycle := 0
    cycleData0 := { pendingSyncTickCount := 0, syncTickCount := 3000, sweepTickCount := 100000,
                    sweepHitTimeStamp := 12 }
    cycleData1 := { pendingSyncTickCount := 0, syncTickCount := 3500, sweepTickCount := 90000,
                    sweepHitTimeStamp := 20 } }

/-- Position members with a fix (3, 4) taken at 12 ms after a fix (1, 2) taken
at 5 ms; used to instantiate the theorems. -/
def samplePosition : SensorPosition (Int × Int) :=
  { positionVector := (3, 4), positionTimeStamp := 12,
    previousPositionVector := (1, 2), previousPositionTimeStamp := 5 }

/-! ## Vectors (`KVector.h`) and the geometry of the pose resolver -/

/-- The coordinates of a `KVector2`, over the field `K` of the arithmetic. -/
structure KVector2 (K : Type) where
  x : K
  y : K
  deriving DecidableEq, Repr

/-- The coordinates of a `KVector3`, over the field `K` of the arithmetic. -/
structure KVector3 (K : Type) where
  x : K
  y : K
  z : K
  deriving DecidableEq, Repr

/-- Lines 885-892 of `recalculatePosition`: the position stored for the offset
`lighthousePosition` and the direction `directionFromLighthouse`, in exact
arithmetic. -/
def groundPlanePosition {K : Type} [Field K]
    (lighthousePosition directionFromLighthouse : KVector3 K) : KVector2 K :=
  let t := -lighthousePosition.z / directionFromLighthouse.z
  { x := lighthousePosition.x + (directionFromLighthouse.x * t)
    y := lighthousePosition.y + (directionFromLighthouse.y * t) }

/-- Line 5: the height of the lighthouse above the floor, in millimetres. -/
def LIGHTHOUSE_CENTER_HEIGHT_FROM_FLOOR_MM {K : Type} [Field K] : K := 940

/-- Line 9: the height of the diodes above the floor, in millimetres. -/
def ROBOT_DIODE_HEIGHT_MM {K : Type} [Field K] : K := 38

/-- Lines 551-559 of `calculateLighthousePosition`: the offset stored in
`lighthousePosition` for the forward vector `lighthouseForwardVector`, in exact
arithmetic. -/
def lighthousePositionOf {K : Type} [Field K] (lighthouseForwardVector : KVector3 K) :
    KVector3 K :=
  let lighthouseDistanceFromDiodePlane : K :=
    LIGHTHOUSE_CENTER_HEIGHT_FROM_FLOOR_MM - ROBOT_DIODE_HEIGHT_MM
  let t := -lighthouseDistanceFromDiodePlane / lighthouseForwardVector.z
  { x := -lighthouseForwardVector.x * t
    y := -lighthouseForwardVector.y * t
    z := lighthouseDistanceFromDiodePlane }

/-- Position members over the rationals, with a fix (3, 4) taken at 12 ms after
a fix (1, 2) taken at 5 ms; used to instantiate the theorems. -/
def samplePositionQ : SensorPosition (KVector2 ℚ) :=
  { positionVector := { x := 3, y := 4 }, positionTimeStamp := 12,
    previousPositionVector := { x := 1, y := 2 }, previousPositionTimeStamp := 5 }

/-! ## The pose combiner: `estimatePosition`, `recalculateVelocity`, `Lighthouse::recalculate` -/

/-- The `KVector2` operations used by the pose combiner whose code is outside
the source at hand (`KVector.h` only declares them), as parameters: the length
`getD`, `rotate` by an angle, `angleToVector`, and `set(x, y, ofLength)`. -/
structure KVector2Ops (K : Type) where
  getD : KVector2 K → K
  rotate : KVector2 K → K → KVector2 K
  angleToVector : KVector2 K → KVector2 K → K
  setOfLength : K → K → K → KVector2 K

/-- Modelled from the spec: `KVector2::dotVector`, declared in `KVector.h`
without its code, is the dot product of the two vectors. -/
def KVector2.dotVector {K : Type} [Field K] (v w : KVector2 K) : K :=
  v.x * w.x + v.y * w.y

/-- The members of one `LighthouseSensor` that the pose combiner reads or
writes: the decoder state, the position members, and the velocity with its
timestamp. -/
structure SensorState (K : Type) where
  decoder : LighthouseSensor
  position : SensorPosition (KVector2 K)
  velocity : K
  velocityTimeStamp : Nat

/-- Lines 898 and 916: the vector from the previous position to the position,
`KVector2 deltaPosition(positionVector.getX() - previousPositionVector.getX(),
positionVector.getY() - previousPositionVector.getY())`. -/
def deltaPositionOf {K : Type} [Field K] (p : SensorPosition (KVector2 K)) : KVector2 K :=
  { x := p.positionVector.x - p.previousPositionVector.x
    y := p.positionVector.y - p.previousPositionVector.y }

/-- The function `estimatePosition` (lines 896-906).  Modelled from the spec:
`KVector2::add`, declared without its code, adds the vector it is given. -/
def estimatePosition {K : Type} [Field K] (ops : KVector2Ops K)
    (p : SensorPosition (KVector2 K)) (previousOrientation currentOrientation : KVector2 K)
    (currentTime : Nat) : SensorPosition (KVector2 K) :=
  let deltaPosition : KVector2 K := deltaPositionOf p
  let deltaPosition :=
    ops.rotate deltaPosition (ops.angleToVector previousOrientation currentOrientation)
  { previousPositionVector := p.positionVector
    previousPositionTimeStamp := p.positionTimeStamp
    positionVector :=
      { x := p.positionVector.x + deltaPosition.x, y := p.positionVector.y + deltaPosition.y }
    positionTimeStamp := currentTime }

/-- The guard of line 910 fails: `recalculateVelocity` goes on to compute a
velocity. -/
def velocityIsComputed {K : Type} (s : SensorState K) : Bool :=
  !(s.position.previousPositionTimeStamp = 0 ∨ s.position.positionTimeStamp = 0 ∨
    s.velocityTimeStamp = s.position.positionTimeStamp)

/-- Line 920: `positionTimeStamp - previousPositionTimeStamp` in `unsigned long`
arithmetic. -/
def elapsedMillis {K : Type} (s : SensorState K) : Nat :=
  (s.position.positionTimeStamp + UINT_MOD - s.position.previousPositionTimeStamp) % UINT_MOD

/-- The function `recalculateVelocity` (lines 908-929); the parameters
`previousOrientation` and `orientationTimeStamp` of the source are not used by
its body. -/
def recalculateVelocity {K : Type} [LinearOrderedField K] (ops : KVector2Ops K)
    (s : SensorState K) (currentOrientation : KVector2 K) : SensorState K :=
  if s.position.previousPositionTimeStamp = 0 ∨ s.position.positionTimeStamp = 0 ∨
      s.velocityTimeStamp = s.position.positionTimeStamp then s
  else
    let deltaPosition : KVector2 K := deltaPositionOf s.position
    let deltaSeconds : K := (elapsedMillis s : K) / 1000
    let velocity := ops.getD deltaPosition / deltaSeconds
    { s with
      velocity := if deltaPosition.dotVector currentOrientation < 0 then -velocity else velocity
      velocityTimeStamp := s.position.positionTimeStamp }

/-- The members of `Lighthouse` that `recalculate` reads or writes. -/
structure Lighthouse (K : Type) where
  rightSensor : SensorState K
  leftSensor : SensorState K
  positionVector : KVector2 K
  positionTimeStamp : Nat
  previousPositionVector : KVector2 K
  previousPositionTimeStamp : Nat
  orientationVector : KVector2 K
  orientationTimeStamp : Nat
  previousOrientationVector : KVector2 K
  previousOrientationTimeStamp : Nat

/-- Lines 385-395 of `Lighthouse::recalculate` for one sensor: the position is
recalculated from the sweeps or, without a signal, estimated.
`hasLighthouseSignal` is defined in the header, which is not among the sources,
and is a parameter. -/
def updateSensorPosition {K : Type} [Field K] (ops : KVector2Ops K)
    (hasLighthouseSignal : LighthouseSensor → Bool) (fix : LighthouseSensor → KVector2 K)
    (s : SensorState K) (previousOrientation currentOrientation : KVector2 K)
    (currentTime : Nat) : SensorState K :=
  if hasLighthouseSignal s.decoder then
    { s with position := recalculatePosition fix s.decoder s.position }
  else
    { s with position :=
        estimatePosition ops s.position previousOrientation currentOrientation currentTime }

/-- Lines 419-420: the components handed to `orientationVector.set`. -/
def headingComponents {K : Type} [Field K] (left right : KVector2 K) : KVector2 K :=
  { x := left.y - right.y, y := -(left.x - right.x) }

/-- The function `Lighthouse::recalculate` (lines 381-431); `millis` is the
value `millis()` returns in the call. -/
def Lighthouse.recalculate {K : Type} [LinearOrderedField K] (ops : KVector2Ops K)
    (hasLighthouseSignal : LighthouseSensor → Bool) (fix : LighthouseSensor → KVector2 K)
    (millis : Nat) (l : Lighthouse K) : Lighthouse K :=
  let currentTime := millis
  let leftSensor := updateSensorPosition ops hasLighthouseSignal fix l.leftSensor
    l.previousOrientationVector l.orientationVector currentTime
  let rightSensor := updateSensorPosition ops hasLighthouseSignal fix l.rightSensor
    l.previousOrientationVector l.orientationVector currentTime
  let combinedPositionTimeStamp :=
    if leftSensor.position.positionTimeStamp > rightSensor.position.positionTimeStamp then
      leftSensor.position.positionTimeStamp
    else rightSensor.position.positionTimeStamp
  let l1 : Lighthouse K :=
    if l.positionTimeStamp ≠ combinedPositionTimeStamp then
      { l with
        previousPositionVector := l.positionVector
        previousPositionTimeStamp := l.positionTimeStamp
        positionVector :=
          { x := (leftSensor.position.positionVector.x
                    + rightSensor.position.positionVector.x) / 2
            y := (leftSensor.position.positionVector.y
                    + rightSensor.position.positionVector.y) / 2 }
        positionTimeStamp := combinedPositionTimeStamp }
    else l
  let l2 : Lighthouse K :=
    if l1.orientationTimeStamp ≠ combinedPositionTimeStamp then
      { l1 with
        previousOrientationVector := l1.orientationVector
        previousOrientationTimeStamp := l1.orientationTimeStamp
        orientationVector :=
          ops.setOfLength
            (headingComponents leftSensor.position.positionVector
              rightSensor.position.positionVector).x
            (headingComponents leftSensor.position.positionVector
              rightSensor.position.positionVector).y 1
        orientationTimeStamp := combinedPositionTimeStamp }
    else l1
  { l2 with
    leftSensor := recalculateVelocity ops leftSensor l2.orientationVector
    rightSensor := recalculateVelocity ops rightSensor l2.orientationVector }

/-- The cross product `a × b` of two vectors of three coordinates. -/
def crossProduct {K : Type} [Field K] (a b : KVector3 K) : KVector3 K :=
  { x := a.y * b.z - a.z * b.y
    y := a.z * b.x - a.x * b.z
    z := a.x * b.y - a.y * b.x }

/-- Vector operations over the rationals for a displacement of length 5: `getD`
returns 5; used to instantiate the theorems. -/
def sampleOps : KVector2Ops ℚ :=
  { getD := fun _ => 5
    rotate := fun v _ => v
    angleToVector := fun _ _ => 0
    setOfLength := fun x y _ => { x := x, y := y } }

/-- A sensor that moved by (3, 4) between its fixes at 1000 ms and 1500 ms and
whose velocity is not yet computed; used to instantiate the theorems. -/
def sampleMoved : SensorState ℚ :=
  { decoder := sampleBothAxes
    position :=
      { positionVector := { x := 4, y := 6 }, positionTimeStamp := 1500,
        previousPositionVector := { x := 1, y := 2 }, previousPositionTimeStamp := 1000 }
    velocity := 0
    velocityTimeStamp := 1000 }

/-- The length field of a frame announcing a block of 33 bytes (0x0021): the
low byte first, each byte most significant bit first. -/
def sampleLengthBits33 : List Bool :=
  [false, false, true, false, false, false, false, true,
   false, false, false, false, false, false, false, false]

/-- An info block of 33 bytes. -/
def sampleBlock33 : List Nat := List.replicate 33 0xA5

/-- The pulse widths of a frame that carries `sampleBlock33` with a 1 at every
sync position up to the end of the block, eight further data bits, and then a
0 where the next sync bit is due. -/
def sampleBrokenFrame : List Nat :=
  (frameBits sampleLengthBits33 sampleBlock33 ++
    [true, true, true, true, true, true, true, true] ++ [false]).map widthOfBit

/-- The pulse widths that start the next frame after `sampleBrokenFrame`:
sixteen more zero bits, which complete a run of 17, and the sync bit. -/
def sampleNextFrameStart : List Nat :=
  (List.replicate 16 false ++ [true]).map widthOfBit

/-- A read mask that is 0 or has a single bit set. -/
def singleBitOrZero (m : Nat) : Prop := m = 0 ∨ ∃ k, m = 2 ^ k

/-- The invariant of the OOTX framing state: the byte index does not pass the
end of the info block and is inside it while info-block bits are stored, the
two read masks are not both nonzero, and each is 0 or a single bit. -/
def ootxFramingInv (N : Nat) (s : LighthouseSensor) : Prop :=
  s.readInfoBlockIndex ≤ N ∧
    (s.readInfoBlockMask ≠ 0 → s.readInfoBlockIndex < N) ∧
    ¬ (s.payloadReadMask ≠ 0 ∧ s.readInfoBlockMask ≠ 0) ∧
    singleBitOrZero s.payloadReadMask ∧ singleBitOrZero s.readInfoBlockMask

/-- A sensor that has never had a signal: zero cycle data and zero timestamps;
used to instantiate the theorems. -/
def sampleSensorStart : SensorState ℚ :=
  { decoder := LighthouseSensor.init [] SensorCycleData.zero SensorCycleData.zero
    position :=
      { positionVector := { x := 0, y := 0 }, positionTimeStamp := 0,
        previousPositionVector := { x := 0, y := 0 }, previousPositionTimeStamp := 0 }
    velocity := 0
    velocityTimeStamp := 0 }

/-- The robot before its first fix: every timestamp is zero; used to
instantiate the theorems. -/
def sampleLighthouseStart : Lighthouse ℚ :=
  { rightSensor := sampleSensorStart
    leftSensor := sampleSensorStart
    positionVector := { x := 0, y := 0 }
    positionTimeStamp := 0
    previousPositionVector := { x := 0, y := 0 }
    previousPositionTimeStamp := 0
    orientationVector := { x := 0, y := 0 }
    orientationTimeStamp := 0
    previousOrientationVector := { x := 0, y := 0 }
    previousOrientationTimeStamp := 0 }

/-- Modelled from the spec: `hasLighthouseSignal`, defined in the header that
is not among the sources: the sensor has a current fix, that is both axes hold
a nonzero sweep-hit timestamp. -/
def hasLighthouseSignal (s : LighthouseSensor) : Bool :=
  decide (s.cycleData0.sweepHitTimeStamp ≠ 0 ∧ s.cycleData1.sweepHitTimeStamp ≠ 0)

/-- The robot after a first call of `recalculate` without a signal while
`millis()` reads 5. -/
def sampleLighthouseAfterFirst : Lighthouse ℚ :=
  sampleLighthouseStart.recalculate sampleOps hasLighthouseSignal (fun _ => { x := 0, y := 0 }) 5

/-- The left sensor in a second call of `recalculate` while `millis()` still
reads 5, at the point where `recalculateVelocity` is called on it. -/
def sampleLeftAtSecondVelocity : SensorState ℚ :=
  updateSensorPosition sampleOps hasLighthouseSignal (fun _ => { x := 0, y := 0 })
    sampleLighthouseAfterFirst.leftSensor sampleLighthouseAfterFirst.previousOrientationVector
    sampleLighthouseAfterFirst.orientationVector 5

/-! ## `tickCountToAngle` (lines 836-841) and the tangents of `recalculatePosition` (lines 865-876) -/

/-- The constant `M_2PI_3` (line 14): the decimal literal `2.094395102393195`
of the source, in the field `K` of the arithmetic. -/
def M_2PI_3 {K : Type} [Field K] : K := 2094395102393195 / 1000000000000000

/-- The calibration record of one rotor, with the members that lines 496-507
assign (`xRotor`, `yRotor`) and that `tickCountToAngle` reads through
`fcalData`. -/
structure RotorFactoryCalibrationData (K : Type) where
  phase : K
  tilt : K
  curve : K
  gibbousPhase : K
  gibbousMagnitude : K

/-- The function `tickCountToAngle` (lines 836-841).  `tan` is the tangent of
the C library, a parameter; over real arithmetic it is `Real.tan`. -/
def tickCountToAngle {K : Type} [Field K] (tan : K → K) (tickCount : K)
    (fcalData : RotorFactoryCalibrationData K) : K :=
  let angleFromLighthouse := tickCount / (SWEEP_DURATION_TICKS : K)
  let vectorFromLighthouse := tan (((angleFromLighthouse - 1 / 2) * M_2PI_3) - fcalData.phase)
  vectorFromLighthouse

/-- Lines 865 and 875 of `recalculatePosition`: the local-frame coordinate of
the x axis, from the tick count of `cycleData[0]` and the member `xRotor`. -/
def vectorFromLighthouseX {K : Type} [Field K] (tan : K → K) (s : LighthouseSensor)
    (xRotor : RotorFactoryCalibrationData K) : K :=
  let angleFromLighthouseX := (s.cycleData0.sweepTickCount : K) / (SWEEP_DURATION_TICKS : K)
  tan (((angleFromLighthouseX - 1 / 2) * M_2PI_3) + xRotor.phase)

/-- Lines 866 and 876 of `recalculatePosition`: the local-frame coordinate of
the z axis, from the tick count of `cycleData[1]` and the member `yRotor`. -/
def vectorFromLighthouseZ {K : Type} [Field K] (tan : K → K) (s : LighthouseSensor)
    (yRotor : RotorFactoryCalibrationData K) : K :=
  let angleFromLighthouseZ := (s.cycleData1.sweepTickCount : K) / (SWEEP_DURATION_TICKS : K)
  tan (((angleFromLighthouseZ - 1 / 2) * M_2PI_3) + yRotor.phase)

/-- A sensor whose two sweeps were hit just before the middle of the field of
view: tick count 133333 on both axes. -/
def sampleNearCentre : LighthouseSensor :=
  { sampleBothAxes with
    cycleData0 := { sampleBothAxes.cycleData0 with sweepTickCount := 133333 }
    cycleData1 := { sampleBothAxes.cycleData1 with sweepTickCount := 133333 } }

/-- The calibration record decoded from the half-precision pattern `0x1C00` in
every field, the way lines 496-507 fill `xRotor` and `yRotor`: each member is
`2 ^ (-8)`. -/
def sampleRotor (K : Type) [Field K] : RotorFactoryCalibrationData K :=
  { phase := ((float32Value (float16ToFloat32 0x1C00) : ℚ) : K)
    tilt := ((float32Value (float16ToFloat32 0x1C00) : ℚ) : K)
    curve := ((float32Value (float16ToFloat32 0x1C00) : ℚ) : K)
    gibbousPhase := ((float32Value (float16ToFloat32 0x1C00) : ℚ) : K)
    gibbousMagnitude := ((float32Value (float16ToFloat32 0x1C00) : ℚ) : K) }

/-! ## Samples for the heading of `Lighthouse::recalculate` -/

/-- Vector operations over the rationals for vectors of length 5: `getD` returns
5 and `set(x, y, ofLength)` scales by `ofLength / 5`; used to instantiate the
theorems. -/
def sampleHeadingOps : KVector2Ops ℚ :=
  { getD := fun _ => 5
    rotate := fun v _ => v
    angleToVector := fun _ _ => 0
    setOfLength := fun x y ofLength => { x := ofLength / 5 * x, y := ofLength / 5 * y } }

/-- A stand-in for the fix of `recalculatePosition`: the two sweep tick counts,
in thousands; used to instantiate the theorems. -/
def sampleFix (s : LighthouseSensor) : KVector2 ℚ :=
  { x := (s.cycleData0.sweepTickCount : ℚ) / 1000
    y := (s.cycleData1.sweepTickCount : ℚ) / 1000 }

/-- A decoder state holding a sweep hit on both axes at tick counts 96000 and
93000. -/
def sampleBothAxesRight : LighthouseSensor :=
  { sampleBothAxes with
    cycleData0 := { sampleBothAxes.cycleData0 with sweepTickCount := 96000 }
    cycleData1 := { sampleBothAxes.cycleData1 with sweepTickCount := 93000 } }

/-- The robot before its first fix, with a signal on both sensors: the left
decoder holds the tick counts 100000 and 90000, the right one 96000 and 93000. -/
def sampleLighthouseApart : Lighthouse ℚ :=
  { sampleLighthouseStart with
    leftSensor := { sampleSensorStart with decoder := sampleBothAxes }
    rightSensor := { sampleSensorStart with decoder := sampleBothAxesRight } }

/-- The position that `sampleFix` gives the left sensor of
`sampleLighthouseApart`. -/
def sampleLeftFix : KVector2 ℚ := { x := 100, y := 90 }

/-- The position that `sampleFix` gives the right sensor of
`sampleLighthouseApart`. -/
def sampleRightFix : KVector2 ℚ := { x := 96, y := 93 }

/-- The robot `sampleLighthouseApart` after a call of `recalculate` while
`millis()` reads 25. -/
def sampleLighthouseHeaded : Lighthouse ℚ :=
  sampleLighthouseApart.recalculate sampleHeadingOps hasLighthouseSignal sampleFix 25

end Zippies

namespace Zippies

/-- C1: for start and end below 2^24, calculateDeltaTicks is (end - start) mod 2^24,
the forward distance on the 24-bit clock; it is below 2^24 and adding it to start
gives end modulo 2^24. -/
theorem calculateDeltaTicks_forward_distance (startTicks endTicks : Nat)
    (hs : startTicks < 2 ^ 24) (he : endTicks < 2 ^ 24) :
    ((calculateDeltaTicks startTicks endTicks : Nat) : Int)
        = ((endTicks : Int) - (startTicks : Int)) % (2 ^ 24 : Int)
      ∧ calculateDeltaTicks startTicks endTicks < 2 ^ 24
      ∧ (startTicks + calculateDeltaTicks startTicks endTicks) % 2 ^ 24 = endTicks := by
  unfold calculateDeltaTicks UINT_MOD
  norm_num at hs he ⊢
  split <;> omega

theorem calculateDeltaTicks_forward_distance_witness :
    ((calculateDeltaTicks 16777000 5 : Nat) : Int)
        = ((5 : Int) - (16777000 : Int)) % (2 ^ 24 : Int)
      ∧ calculateDeltaTicks 16777000 5 < 2 ^ 24
      ∧ (16777000 + calculateDeltaTicks 16777000 5) % 2 ^ 24 = 5 :=
  calculateDeltaTicks_forward_distance 16777000 5 (by decide) (by decide)


/-! ## Frame lemmas for the OOTX decoder -/

theorem processOOTXData_sameTracking (N : Nat) (s : LighthouseSensor) (v : Bool)
    (h : ootxInBounds s) : ∃ t, processOOTXData N s v = some t ∧ sameTracking s t := by
  unfold processOOTXData
  by_cases hp : s.payloadReadMask = 0
  · by_cases hm : s.readInfoBlockMask = 0
    · simp [hp, hm, sameTracking]
    · have hi := h hp hm
      simp only [hp, hm, ne_eq, not_true_eq_false, not_false_eq_true, if_true, if_false,
        List.getElem?_eq_getElem hi]
      split_ifs <;> simp [sameTracking]
  · simp only [hp, ne_eq, not_false_eq_true, if_true]
    split_ifs <;> simp [sameTracking]

theorem processOOTXBit_sameTracking (N : Nat) (s : LighthouseSensor) (d : Nat)
    (h : ootxInBounds s) : ∃ t, processOOTXBit N s d = some t ∧ sameTracking s t := by
  have key : ∀ s1 : LighthouseSensor, ootxInBounds s1 → sameTracking s s1 →
      ∀ v, ∃ t, processOOTXData N s1 v = some t ∧ sameTracking s t := by
    intro s1 h1 hs v
    obtain ⟨t, ht, hst⟩ := processOOTXData_sameTracking N s1 v h1
    refine ⟨t, ht, ?_⟩
    unfold sameTracking at *
    obtain ⟨a1, a2, a3, a4, a5⟩ := hs
    obtain ⟨b1, b2, b3, b4, b5⟩ := hst
    exact ⟨b1.trans a1, b2.trans a2, b3.trans a3, b4.trans a4, b5.trans a5⟩
  unfold processOOTXBit
  simp only
  split_ifs
  · simp [sameTracking]
  · simp [sameTracking]
  · exact key _ (by simpa [ootxInBounds] using h) (by simp [sameTracking]) _
  · simp [sameTracking, calculateLighthousePosition]
  · simp [sameTracking]
  · exact key _ (by simpa [ootxInBounds] using h) (by simp [sameTracking]) _


/-! ## The sync-pulse handler -/

theorem foundCycle_eq_mod (d : Nat) (h1 : 2950 ≤ d) (h2 : d < 4950) :
    foundCycle d = ((d - 2950) / 500) % 2 := by
  unfold foundCycle UINT_MOD SYNC_PULSE_J0_MIN
  rw [Nat.and_one_is_mod]
  have : (d + 2 ^ 32 - 2950) % 2 ^ 32 = d - 2950 := by omega
  rw [this]

theorem foundCycle_lt_two (d : Nat) : foundCycle d = 0 ∨ foundCycle d = 1 := by
  unfold foundCycle
  rw [Nat.and_one_is_mod]
  omega

/-- The state `processSyncSignal` returns for a valid sync width, given the
state `s1` left by the OOTX decoder. -/
theorem processSyncSignal_valid (N : Nat) (s : LighthouseSensor) (p c : Nat)
    (hc : cycleInBounds s) (ho : ootxInBounds s)
    (h1 : SYNC_PULSE_J0_MIN ≤ calculateDeltaTicks p c)
    (h2 : calculateDeltaTicks p c < NONSYNC_PULSE_J2_MIN) :
    ∃ s1, (if s.receivedLighthousePosition then s1 = s
            else processOOTXBit N s (calculateDeltaTicks p c) = some s1) ∧
      sameTracking s s1 ∧
      processSyncSignal N s p c = some
        { s1 with
          currentCycle := (foundCycle (calculateDeltaTicks p c) : Nat)
          pendingCycleEdge := CycleEdge.SweepRising
          cycleData0 :=
            if foundCycle (calculateDeltaTicks p c) = 0 then
              { s.cycleData0 with pendingSyncTickCount := calculateDeltaTicks p c }
            else if s.currentCycle = 0 then SensorCycleData.zero else s.cycleData0
          cycleData1 :=
            if foundCycle (calculateDeltaTicks p c) = 1 then
              { s.cycleData1 with pendingSyncTickCount := calculateDeltaTicks p c }
            else if s.currentCycle = 1 then SensorCycleData.zero else s.cycleData1 } := by
  unfold processSyncSignal
  generalize calculateDeltaTicks p c = d at h1 h2 ⊢
  have hs1 : ∃ s1, (if s.receivedLighthousePosition then s1 = s
            else processOOTXBit N s d = some s1) ∧ sameTracking s s1 ∧
            (if !s.receivedLighthousePosition then processOOTXBit N s d else some s) = some s1 := by
    cases hr : s.receivedLighthousePosition
    · obtain ⟨t, ht, hst⟩ := processOOTXBit_sameTracking N s d ho
      exact ⟨t, by simpa using ht, hst, by simpa using ht⟩
    · exact ⟨s, by simp, by simp [sameTracking], by simp⟩
  obtain ⟨s1, hA, hB, hC⟩ := hs1
  refine ⟨s1, hA, hB, ?_⟩
  obtain ⟨b1, b2, b3, b4, b5⟩ := hB
  have hguard : ¬ (d < SYNC_PULSE_J0_MIN ∨ d ≥ NONSYNC_PULSE_J2_MIN) := by omega
  rw [if_neg hguard, hC, Option.some_bind]
  dsimp only
  rw [b1]
  rcases foundCycle_lt_two d with hf | hf <;> rcases hc with h | h | h <;> rw [hf, h] <;>
    simp [LighthouseSensor.updCycle, b1, h, b2, b3, SensorCycleData.zero]


/-- The state `processSyncSignal` returns for a width outside the sync band. -/
theorem processSyncSignal_invalid (N : Nat) (s : LighthouseSensor) (p c : Nat)
    (hc : cycleInBounds s)
    (h : calculateDeltaTicks p c < SYNC_PULSE_J0_MIN ∨
      calculateDeltaTicks p c ≥ NONSYNC_PULSE_J2_MIN) :
    processSyncSignal N s p c = some
      { s with
        currentCycle := -1
        cycleData0 :=
          if s.currentCycle = 0 then { s.cycleData0 with sweepHitTimeStamp := 0 }
          else s.cycleData0
        cycleData1 :=
          if s.currentCycle = 1 then { s.cycleData1 with sweepHitTimeStamp := 0 }
          else s.cycleData1 } := by
  unfold processSyncSignal
  generalize calculateDeltaTicks p c = d at h ⊢
  dsimp only
  rw [if_pos h]
  rcases hc with h0 | h0 | h0 <;> rw [h0] <;> simp [LighthouseSensor.updCycle, h0]

/-! ## The sweep-hit handler -/

/-- The value of the local `sweepTickCount` of `processSweepHit`. -/
theorem sweepTickCount_eq (p d : Nat) (h1 : SWEEP_START_TICKS ≤ p + d) (h2 : p + d < UINT_MOD) :
    ((p + d) % UINT_MOD + UINT_MOD - SWEEP_START_TICKS) % UINT_MOD = p + d - SWEEP_START_TICKS := by
  unfold UINT_MOD SWEEP_START_TICKS at *
  omega

/-- The state `processSweepHit` returns when the sweep falls inside the window. -/
theorem processSweepHit_commit (s : LighthouseSensor) (p c ms : Nat) (cd : SensorCycleData)
    (hcd : s.getCycle s.currentCycle = some cd)
    (h : ((cd.pendingSyncTickCount + calculateDeltaTicks p c) % UINT_MOD + UINT_MOD
            - SWEEP_START_TICKS) % UINT_MOD < SWEEP_DURATION_TICKS) :
    processSweepHit s p c ms =
      (s.updCycle s.currentCycle (fun _ =>
        { syncTickCount := cd.pendingSyncTickCount, pendingSyncTickCount := 0,
          sweepTickCount := ((cd.pendingSyncTickCount + calculateDeltaTicks p c) % UINT_MOD
            + UINT_MOD - SWEEP_START_TICKS) % UINT_MOD,
          sweepHitTimeStamp := ms })).map
        (fun s1 => { s1 with pendingCycleEdge := CycleEdge.SweepFalling }) := by
  unfold processSweepHit
  generalize calculateDeltaTicks p c = d at h ⊢
  rw [hcd, Option.some_bind]
  dsimp only
  rw [if_neg (by omega)]
  unfold LighthouseSensor.getCycle at hcd
  unfold LighthouseSensor.updCycle
  by_cases h0 : s.currentCycle = 0
  · simp only [if_pos h0] at hcd ⊢
    cases hcd
    rfl
  · simp only [if_neg h0] at hcd ⊢
    by_cases h1 : s.currentCycle = 1
    · simp only [if_pos h1] at hcd ⊢
      cases hcd
      rfl
    · simp only [if_neg h1] at hcd
      cases hcd

/-- The state `processSweepHit` returns when the sweep falls outside the window. -/
theorem processSweepHit_missed (s : LighthouseSensor) (p c ms : Nat) (cd : SensorCycleData)
    (hcd : s.getCycle s.currentCycle = some cd)
    (h : SWEEP_DURATION_TICKS ≤ ((cd.pendingSyncTickCount + calculateDeltaTicks p c) % UINT_MOD
            + UINT_MOD - SWEEP_START_TICKS) % UINT_MOD) :
    processSweepHit s p c ms =
      (s.updCycle s.currentCycle (fun _ => SensorCycleData.zero)).map
        (fun s1 => { s1 with currentCycle := -1, pendingCycleEdge := CycleEdge.SyncFalling }) := by
  unfold processSweepHit
  generalize calculateDeltaTicks p c = d at h ⊢
  rw [hcd, Option.some_bind]
  dsimp only
  rw [if_pos h]
  unfold LighthouseSensor.updCycle
  by_cases h0 : s.currentCycle = 0
  · simp only [if_pos h0]; rfl
  · simp only [if_neg h0]
    by_cases h1 : s.currentCycle = 1
    · simp only [if_pos h1]; rfl
    · simp only [if_neg h1]; rfl


/-! ## Claims on the sync-pulse handler -/

/-- C2: a sync width d in [2950, 4950) falls in band k = (d - 2950) / 500 of 0..3;
processSyncSignal tracks axis k mod 2 (X for even k, Y for odd k), processOOTXBit
reads bit 1 exactly when d >= 3950, that is k >= 2, so k = 2 * bit + axis; a
width of 2949 or 4950 is not a sync pulse and leaves the decoder without an axis. -/
theorem sync_width_classification (N : Nat) (s : LighthouseSensor) (p c : Nat)
    (hc : cycleInBounds s) (ho : ootxInBounds s)
    (h1 : 2950 ≤ calculateDeltaTicks p c) (h2 : calculateDeltaTicks p c < 4950) :
    ((calculateDeltaTicks p c - 2950) / 500 ≤ 3 ∧
      foundCycle (calculateDeltaTicks p c) = ((calculateDeltaTicks p c - 2950) / 500) % 2 ∧
      (∃ t, processSyncSignal N s p c = some t ∧
        t.currentCycle = ((((calculateDeltaTicks p c - 2950) / 500) % 2 : Nat) : Int)) ∧
      (ootxBitValue (calculateDeltaTicks p c) = true ↔ 3950 ≤ calculateDeltaTicks p c) ∧
      (ootxBitValue (calculateDeltaTicks p c) = true ↔
        2 ≤ (calculateDeltaTicks p c - 2950) / 500) ∧
      (calculateDeltaTicks p c - 2950) / 500 =
        2 * (if ootxBitValue (calculateDeltaTicks p c) then 1 else 0)
          + foundCycle (calculateDeltaTicks p c)) ∧
    (∀ (s2 : LighthouseSensor) (p2 c2 : Nat), cycleInBounds s2 →
      (calculateDeltaTicks p2 c2 = 2949 ∨ calculateDeltaTicks p2 c2 = 4950) →
      ∃ t, processSyncSignal N s2 p2 c2 = some t ∧ t.currentCycle = -1 ∧
        t.pendingCycleEdge = s2.pendingCycleEdge) := by
  constructor
  · have hf := foundCycle_eq_mod _ h1 h2
    obtain ⟨s1, -, -, hres⟩ := processSyncSignal_valid N s p c hc ho h1 h2
    generalize calculateDeltaTicks p c = d at *
    refine ⟨by omega, hf, ⟨_, hres, by rw [hf]⟩, ?_, ?_, ?_⟩
    · simp [ootxBitValue, SYNC_PULSE_J1_MIN]
    · simp only [ootxBitValue, SYNC_PULSE_J1_MIN, decide_eq_true_eq]
      omega
    · rw [hf]
      by_cases hb : 3950 ≤ d
      · have : ootxBitValue d = true := by simp [ootxBitValue, SYNC_PULSE_J1_MIN, hb]
        rw [this]
        simp only [if_true]
        omega
      · have : ootxBitValue d = false := by
          simp only [ootxBitValue, SYNC_PULSE_J1_MIN, decide_eq_false_iff_not]
          omega
        rw [this]
        simp only [Bool.false_eq_true, if_false]
        omega
  · intro s2 p2 c2 hc2 h
    have hbad : calculateDeltaTicks p2 c2 < SYNC_PULSE_J0_MIN ∨
        calculateDeltaTicks p2 c2 ≥ NONSYNC_PULSE_J2_MIN := by
      unfold SYNC_PULSE_J0_MIN NONSYNC_PULSE_J2_MIN
      omega
    exact ⟨_, processSyncSignal_invalid N s2 p2 c2 hc2 hbad, rfl, rfl⟩

theorem sync_width_classification_witness :
    (cycleInBounds sampleSyncFalling ∧ ootxInBounds sampleSyncFalling ∧
      2950 ≤ calculateDeltaTicks 0 3450 ∧ calculateDeltaTicks 0 3450 < 4950) ∧
    (((calculateDeltaTicks 0 3450 - 2950) / 500 ≤ 3 ∧
      foundCycle (calculateDeltaTicks 0 3450) = ((calculateDeltaTicks 0 3450 - 2950) / 500) % 2 ∧
      (∃ t, processSyncSignal 33 sampleSyncFalling 0 3450 = some t ∧
        t.currentCycle = ((((calculateDeltaTicks 0 3450 - 2950) / 500) % 2 : Nat) : Int)) ∧
      (ootxBitValue (calculateDeltaTicks 0 3450) = true ↔ 3950 ≤ calculateDeltaTicks 0 3450) ∧
      (ootxBitValue (calculateDeltaTicks 0 3450) = true ↔
        2 ≤ (calculateDeltaTicks 0 3450 - 2950) / 500) ∧
      (calculateDeltaTicks 0 3450 - 2950) / 500 =
        2 * (if ootxBitValue (calculateDeltaTicks 0 3450) then 1 else 0)
          + foundCycle (calculateDeltaTicks 0 3450)) ∧
    (∀ (s2 : LighthouseSensor) (p2 c2 : Nat), cycleInBounds s2 →
      (calculateDeltaTicks p2 c2 = 2949 ∨ calculateDeltaTicks p2 c2 = 4950) →
      ∃ t, processSyncSignal 33 s2 p2 c2 = some t ∧ t.currentCycle = -1 ∧
        t.pendingCycleEdge = s2.pendingCycleEdge)) :=
  ⟨⟨by unfold cycleInBounds; decide, by unfold ootxInBounds; decide, by decide, by decide⟩,
    sync_width_classification 33 sampleSyncFalling 0 3450
      (by unfold cycleInBounds; decide) (by unfold ootxInBounds; decide) (by decide) (by decide)⟩

/-- C3: in state SyncFalling, an edge whose delta d is a sync width of axis a
makes a the tracked axis, stores d in cycleData[a].pendingSyncTickCount and moves
to SweepRising; a different axis tracked before has its CycleData zeroed; when no
axis or axis a was tracked, only cycleData[a].pendingSyncTickCount changes. -/
theorem processSyncSignal_records_sync (N : Nat) (s : LighthouseSensor) (p c : Nat)
    (_hedge : s.pendingCycleEdge = CycleEdge.SyncFalling)
    (hc : cycleInBounds s) (ho : ootxInBounds s)
    (h1 : 2950 ≤ calculateDeltaTicks p c) (h2 : calculateDeltaTicks p c < 4950) :
    ∃ t, processSyncSignal N s p c = some t ∧
      t.currentCycle = ((foundCycle (calculateDeltaTicks p c) : Nat) : Int) ∧
      (t.getCycle (foundCycle (calculateDeltaTicks p c) : Nat)).map (·.pendingSyncTickCount)
        = some (calculateDeltaTicks p c) ∧
      t.pendingCycleEdge = CycleEdge.SweepRising ∧
      (s.currentCycle ≠ -1 → s.currentCycle ≠ ((foundCycle (calculateDeltaTicks p c) : Nat) : Int) →
        t.getCycle s.currentCycle = some SensorCycleData.zero) ∧
      (s.currentCycle = -1 ∨ s.currentCycle = ((foundCycle (calculateDeltaTicks p c) : Nat) : Int) →
        t.getCycle (foundCycle (calculateDeltaTicks p c) : Nat) =
          (s.getCycle (foundCycle (calculateDeltaTicks p c) : Nat)).map
            (fun cd => { cd with pendingSyncTickCount := calculateDeltaTicks p c }) ∧
        ∀ b : Int, b ≠ ((foundCycle (calculateDeltaTicks p c) : Nat) : Int) →
          t.getCycle b = s.getCycle b) := by
  obtain ⟨s1, -, -, hres⟩ := processSyncSignal_valid N s p c hc ho h1 h2
  refine ⟨_, hres, rfl, ?_, rfl, ?_, ?_⟩
  · rcases foundCycle_lt_two (calculateDeltaTicks p c) with hf | hf <;>
      simp [hf, LighthouseSensor.getCycle]
  · intro hn hd
    rcases foundCycle_lt_two (calculateDeltaTicks p c) with hf | hf <;>
      rcases hc with h | h | h <;>
      simp_all [LighthouseSensor.getCycle]
  · intro hd
    rcases foundCycle_lt_two (calculateDeltaTicks p c) with hf | hf <;>
      rcases hc with h | h | h <;>
      simp_all [LighthouseSensor.getCycle]

theorem processSyncSignal_records_sync_witness :
    (sampleSyncFalling.pendingCycleEdge = CycleEdge.SyncFalling ∧
      cycleInBounds sampleSyncFalling ∧ ootxInBounds sampleSyncFalling ∧
      2950 ≤ calculateDeltaTicks 0 3450 ∧ calculateDeltaTicks 0 3450 < 4950) ∧
    ∃ t, processSyncSignal 33 sampleSyncFalling 0 3450 = some t ∧
      t.currentCycle = ((foundCycle (calculateDeltaTicks 0 3450) : Nat) : Int) ∧
      (t.getCycle (foundCycle (calculateDeltaTicks 0 3450) : Nat)).map (·.pendingSyncTickCount)
        = some (calculateDeltaTicks 0 3450) ∧
      t.pendingCycleEdge = CycleEdge.SweepRising ∧
      (sampleSyncFalling.currentCycle ≠ -1 →
        sampleSyncFalling.currentCycle ≠ ((foundCycle (calculateDeltaTicks 0 3450) : Nat) : Int) →
        t.getCycle sampleSyncFalling.currentCycle = some SensorCycleData.zero) ∧
      (sampleSyncFalling.currentCycle = -1 ∨
          sampleSyncFalling.currentCycle = ((foundCycle (calculateDeltaTicks 0 3450) : Nat) : Int) →
        t.getCycle (foundCycle (calculateDeltaTicks 0 3450) : Nat) =
          (sampleSyncFalling.getCycle (foundCycle (calculateDeltaTicks 0 3450) : Nat)).map
            (fun cd => { cd with pendingSyncTickCount := calculateDeltaTicks 0 3450 }) ∧
        ∀ b : Int, b ≠ ((foundCycle (calculateDeltaTicks 0 3450) : Nat) : Int) →
          t.getCycle b = sampleSyncFalling.getCycle b) :=
  ⟨⟨rfl, by unfold cycleInBounds; decide, by unfold ootxInBounds; decide, by decide, by decide⟩,
    processSyncSignal_records_sync 33 sampleSyncFalling 0 3450 rfl
      (by unfold cycleInBounds; decide) (by unfold ootxInBounds; decide) (by decide) (by decide)⟩

/-- C4: in state SyncFalling, an edge whose delta is below 2950 or at least 4950
zeroes the sweep-hit timestamp of the tracked axis (if any), sets the tracked
axis to none, leaves pendingCycleEdge at SyncFalling and changes no other
CycleData field and no OOTX framing state. -/
theorem processSyncSignal_rejects_nonsync (N : Nat) (s : LighthouseSensor) (p c : Nat)
    (hedge : s.pendingCycleEdge = CycleEdge.SyncFalling) (hc : cycleInBounds s)
    (h : calculateDeltaTicks p c < 2950 ∨ 4950 ≤ calculateDeltaTicks p c) :
    ∃ t, processSyncSignal N s p c = some t ∧
      t.currentCycle = -1 ∧
      t.pendingCycleEdge = CycleEdge.SyncFalling ∧
      t.getCycle s.currentCycle =
        (s.getCycle s.currentCycle).map (fun cd => { cd with sweepHitTimeStamp := 0 }) ∧
      (∀ b : Int, b ≠ s.currentCycle → t.getCycle b = s.getCycle b) ∧
      sameOOTX s t ∧ t.previousTickCount = s.previousTickCount := by
  have hres := processSyncSignal_invalid N s p c hc h
  refine ⟨_, hres, rfl, hedge, ?_, ?_, ?_, rfl⟩
  · rcases hc with h0 | h0 | h0 <;> simp [h0, LighthouseSensor.getCycle]
  · intro b hb
    rcases hc with h0 | h0 | h0 <;> rw [h0] at hb <;>
      by_cases hb1 : b = 1 <;> by_cases hb0 : b = 0 <;>
      simp_all [LighthouseSensor.getCycle]
  · simp [sameOOTX]

theorem processSyncSignal_rejects_nonsync_witness :
    (sampleSyncFallingX.pendingCycleEdge = CycleEdge.SyncFalling ∧
      cycleInBounds sampleSyncFallingX ∧
      (calculateDeltaTicks 0 5000 < 2950 ∨ 4950 ≤ calculateDeltaTicks 0 5000)) ∧
    ∃ t, processSyncSignal 33 sampleSyncFallingX 0 5000 = some t ∧
      t.currentCycle = -1 ∧
      t.pendingCycleEdge = CycleEdge.SyncFalling ∧
      t.getCycle sampleSyncFallingX.currentCycle =
        (sampleSyncFallingX.getCycle sampleSyncFallingX.currentCycle).map
          (fun cd => { cd with sweepHitTimeStamp := 0 }) ∧
      (∀ b : Int, b ≠ sampleSyncFallingX.currentCycle →
        t.getCycle b = sampleSyncFallingX.getCycle b) ∧
      sameOOTX sampleSyncFallingX t ∧
      t.previousTickCount = sampleSyncFallingX.previousTickCount :=
  ⟨⟨rfl, by unfold cycleInBounds; decide, by decide⟩,
    processSyncSignal_rejects_nonsync 33 sampleSyncFallingX 0 5000 rfl
      (by unfold cycleInBounds; decide) (by decide)⟩

/-! ## Claims on the sweep-hit handler -/

theorem getCycle_updCycle (s t : LighthouseSensor) (a : Int) (f : SensorCycleData → SensorCycleData)
    (cd : SensorCycleData) (hcd : s.getCycle a = some cd) (ht : s.updCycle a f = some t) :
    t.getCycle a = some (f cd) ∧ (∀ b : Int, b ≠ a → t.getCycle b = s.getCycle b) ∧
      t.currentCycle = s.currentCycle ∧ t.pendingCycleEdge = s.pendingCycleEdge ∧
      t.previousTickCount = s.previousTickCount ∧ sameOOTX s t := by
  unfold LighthouseSensor.getCycle at hcd
  unfold LighthouseSensor.updCycle at ht
  by_cases h0 : a = 0
  · simp only [if_pos h0] at hcd ht
    cases hcd
    cases ht
    subst h0
    refine ⟨rfl, ?_, rfl, rfl, rfl, by simp [sameOOTX]⟩
    intro b hb
    simp [LighthouseSensor.getCycle, hb]
  · simp only [if_neg h0] at hcd ht
    by_cases h1 : a = 1
    · simp only [if_pos h1] at hcd ht
      cases hcd
      cases ht
      subst h1
      refine ⟨rfl, ?_, rfl, rfl, rfl, by simp [sameOOTX]⟩
      intro b hb
      by_cases hb0 : b = 0 <;> simp [LighthouseSensor.getCycle, hb, hb0]
    · simp only [if_neg h1] at hcd
      cases hcd

theorem updCycle_isSome (s : LighthouseSensor) (a : Int) (f : SensorCycleData → SensorCycleData)
    (cd : SensorCycleData) (hcd : s.getCycle a = some cd) : ∃ t, s.updCycle a f = some t := by
  unfold LighthouseSensor.getCycle at hcd
  unfold LighthouseSensor.updCycle
  by_cases h0 : a = 0
  · simp only [if_pos h0]
    exact ⟨_, rfl⟩
  · simp only [if_neg h0] at hcd ⊢
    by_cases h1 : a = 1
    · simp only [if_pos h1]
      exact ⟨_, rfl⟩
    · simp only [if_neg h1] at hcd
      cases hcd

/-- Postcondition of `processSweepHit` on a sweep inside the window. -/
theorem processSweepHit_commit_post (s : LighthouseSensor) (p c ms : Nat) (cd : SensorCycleData)
    (hcd : s.getCycle s.currentCycle = some cd)
    (h : ((cd.pendingSyncTickCount + calculateDeltaTicks p c) % UINT_MOD + UINT_MOD
            - SWEEP_START_TICKS) % UINT_MOD < SWEEP_DURATION_TICKS) :
    ∃ t, processSweepHit s p c ms = some t ∧
      t.getCycle s.currentCycle = some
        { syncTickCount := cd.pendingSyncTickCount, pendingSyncTickCount := 0,
          sweepTickCount := ((cd.pendingSyncTickCount + calculateDeltaTicks p c) % UINT_MOD
            + UINT_MOD - SWEEP_START_TICKS) % UINT_MOD,
          sweepHitTimeStamp := ms } ∧
      (∀ b : Int, b ≠ s.currentCycle → t.getCycle b = s.getCycle b) ∧
      t.currentCycle = s.currentCycle ∧ t.pendingCycleEdge = CycleEdge.SweepFalling ∧
      t.previousTickCount = s.previousTickCount ∧ sameOOTX s t := by
  rw [processSweepHit_commit s p c ms cd hcd h]
  obtain ⟨u, hu⟩ := updCycle_isSome s s.currentCycle (fun _ =>
        { syncTickCount := cd.pendingSyncTickCount, pendingSyncTickCount := 0,
          sweepTickCount := ((cd.pendingSyncTickCount + calculateDeltaTicks p c) % UINT_MOD
            + UINT_MOD - SWEEP_START_TICKS) % UINT_MOD,
          sweepHitTimeStamp := ms }) cd hcd
  obtain ⟨g1, g2, g3, -, g5, g6⟩ := getCycle_updCycle s u s.currentCycle _ cd hcd hu
  rw [hu]
  exact ⟨_, rfl, g1, g2, g3, rfl, g5, g6⟩

/-- Postcondition of `processSweepHit` on a sweep outside the window. -/
theorem processSweepHit_missed_post (s : LighthouseSensor) (p c ms : Nat) (cd : SensorCycleData)
    (hcd : s.getCycle s.currentCycle = some cd)
    (h : SWEEP_DURATION_TICKS ≤ ((cd.pendingSyncTickCount + calculateDeltaTicks p c) % UINT_MOD
            + UINT_MOD - SWEEP_START_TICKS) % UINT_MOD) :
    ∃ t, processSweepHit s p c ms = some t ∧
      t.getCycle s.currentCycle = some SensorCycleData.zero ∧
      (∀ b : Int, b ≠ s.currentCycle → t.getCycle b = s.getCycle b) ∧
      t.currentCycle = -1 ∧ t.pendingCycleEdge = CycleEdge.SyncFalling ∧
      t.previousTickCount = s.previousTickCount ∧ sameOOTX s t := by
  rw [processSweepHit_missed s p c ms cd hcd h]
  obtain ⟨u, hu⟩ := updCycle_isSome s s.currentCycle (fun _ => SensorCycleData.zero) cd hcd
  obtain ⟨g1, g2, -, -, g5, g6⟩ := getCycle_updCycle s u s.currentCycle _ cd hcd hu
  rw [hu]
  exact ⟨_, rfl, g1, g2, rfl, rfl, g5, g6⟩

theorem sweepBounded_of_getCycle (s t : LighthouseSensor) (a : Int) (cd : SensorCycleData)
    (hs : sweepBounded s) (ha : t.getCycle a = some cd)
    (hcd : cd.sweepTickCount < SWEEP_DURATION_TICKS)
    (hb : ∀ b : Int, b ≠ a → t.getCycle b = s.getCycle b) : sweepBounded t := by
  unfold sweepBounded at *
  unfold LighthouseSensor.getCycle at ha hb
  by_cases h0 : a = 0
  · subst h0
    simp only [if_true] at ha
    cases ha
    have := hb 1 (by decide)
    simp at this
    rw [this]
    exact ⟨hcd, hs.2⟩
  · simp only [if_neg h0] at ha
    by_cases h1 : a = 1
    · subst h1
      simp only [if_true] at ha
      cases ha
      have := hb 0 (by decide)
      simp at this
      rw [this]
      exact ⟨hs.1, hcd⟩
    · simp only [if_neg h1] at ha
      cases ha

/-- Every edge keeps the stored sweep tick counts below `SWEEP_DURATION_TICKS`. -/
theorem processEdge_sweepBounded (N : Nat) (s t : LighthouseSensor) (cur ms : Nat)
    (hc : cycleInBounds s) (ho : ootxInBounds s) (hs : sweepBounded s)
    (ht : processEdge N s cur ms = some t) : sweepBounded t := by
  unfold processEdge dispatchEdge at ht
  cases he : s.pendingCycleEdge <;> rw [he] at ht <;> dsimp only at ht
  · cases ht
    exact hs
  · by_cases hv : calculateDeltaTicks s.previousTickCount cur < SYNC_PULSE_J0_MIN ∨
        calculateDeltaTicks s.previousTickCount cur ≥ NONSYNC_PULSE_J2_MIN
    · rw [processSyncSignal_invalid N s _ _ hc hv, Option.some_bind] at ht
      cases ht
      unfold sweepBounded at *
      dsimp only
      constructor
      · split_ifs
        · exact hs.1
        · exact hs.1
      · split_ifs
        · exact hs.2
        · exact hs.2
    · obtain ⟨s1, -, hst, hres⟩ := processSyncSignal_valid N s s.previousTickCount cur hc ho
        (by omega) (by omega)
      rw [hres, Option.some_bind] at ht
      cases ht
      unfold sweepBounded at *
      dsimp only
      have hz : SensorCycleData.zero.sweepTickCount < SWEEP_DURATION_TICKS := by decide
      constructor
      · split_ifs
        · exact hs.1
        · exact hz
        · exact hs.1
      · split_ifs
        · exact hs.2
        · exact hz
        · exact hs.2
  · cases hg : s.getCycle s.currentCycle with
    | none =>
      unfold processSweepHit at ht
      rw [hg] at ht
      cases ht
    | some cd =>
      by_cases hv : ((cd.pendingSyncTickCount + calculateDeltaTicks s.previousTickCount cur)
          % UINT_MOD + UINT_MOD - SWEEP_START_TICKS) % UINT_MOD < SWEEP_DURATION_TICKS
      · obtain ⟨u, hu, g1, g2, -⟩ := processSweepHit_commit_post s s.previousTickCount cur ms cd hg hv
        rw [hu, Option.some_bind] at ht
        cases ht
        exact sweepBounded_of_getCycle s _ s.currentCycle _ hs g1 hv g2
      · obtain ⟨u, hu, g1, g2, -⟩ := processSweepHit_missed_post s s.previousTickCount cur ms cd hg
          (by omega)
        rw [hu, Option.some_bind] at ht
        cases ht
        exact sweepBounded_of_getCycle s _ s.currentCycle _ hs g1 (by decide) g2
  · cases ht
    exact hs


/-- C5: in state SweepRising tracking axis a with pending sync width p, an edge
with 66667 <= p + delta < 66667 + 266667 stores syncTickCount = p,
pendingSyncTickCount = 0, sweepTickCount = p + delta - 66667 and the current
millisecond time in cycleData[a], moves to SweepFalling and leaves the other
axis unchanged; every edge keeps the stored sweepTickCount values below
SWEEP_DURATION_TICKS, so sweepTickCount / SWEEP_DURATION_TICKS is in [0, 1). -/
theorem processSweepHit_commits_cycle (N : Nat) (s : LighthouseSensor) (p c ms : Nat)
    (cd : SensorCycleData)
    (_hedge : s.pendingCycleEdge = CycleEdge.SweepRising)
    (hcd : s.getCycle s.currentCycle = some cd)
    (hlo : 66667 ≤ cd.pendingSyncTickCount + calculateDeltaTicks p c)
    (hhi : cd.pendingSyncTickCount + calculateDeltaTicks p c < 66667 + 266667) :
    (∃ t, processSweepHit s p c ms = some t ∧
      t.getCycle s.currentCycle = some
        { syncTickCount := cd.pendingSyncTickCount, pendingSyncTickCount := 0,
          sweepTickCount := cd.pendingSyncTickCount + calculateDeltaTicks p c - 66667,
          sweepHitTimeStamp := ms } ∧
      t.pendingCycleEdge = CycleEdge.SweepFalling ∧
      t.currentCycle = s.currentCycle ∧
      (∀ b : Int, b ≠ s.currentCycle → t.getCycle b = s.getCycle b)) ∧
    (∀ (s2 t2 : LighthouseSensor) (cur2 ms2 : Nat), cycleInBounds s2 → ootxInBounds s2 →
      sweepBounded s2 → processEdge N s2 cur2 ms2 = some t2 →
      sweepBounded t2 ∧
      (0 : ℚ) ≤ (t2.cycleData0.sweepTickCount : ℚ) / (SWEEP_DURATION_TICKS : ℚ) ∧
      (t2.cycleData0.sweepTickCount : ℚ) / (SWEEP_DURATION_TICKS : ℚ) < 1 ∧
      (0 : ℚ) ≤ (t2.cycleData1.sweepTickCount : ℚ) / (SWEEP_DURATION_TICKS : ℚ) ∧
      (t2.cycleData1.sweepTickCount : ℚ) / (SWEEP_DURATION_TICKS : ℚ) < 1) := by
  constructor
  · have hx : ((cd.pendingSyncTickCount + calculateDeltaTicks p c) % UINT_MOD + UINT_MOD
            - SWEEP_START_TICKS) % UINT_MOD
          = cd.pendingSyncTickCount + calculateDeltaTicks p c - 66667 := by
      unfold UINT_MOD SWEEP_START_TICKS
      omega
    obtain ⟨t, ht, g1, g2, g3, g4, -⟩ := processSweepHit_commit_post s p c ms cd hcd
      (by rw [hx]; unfold SWEEP_DURATION_TICKS; omega)
    rw [hx] at g1
    exact ⟨t, ht, g1, g4, g3, g2⟩
  · intro s2 t2 cur2 ms2 hc2 ho2 hs2 ht2
    have hb := processEdge_sweepBounded N s2 t2 cur2 ms2 hc2 ho2 hs2 ht2
    have hpos : (0 : ℚ) < (SWEEP_DURATION_TICKS : ℚ) := by
      unfold SWEEP_DURATION_TICKS
      norm_num
    refine ⟨hb, by positivity, ?_, by positivity, ?_⟩
    · rw [div_lt_one hpos]
      exact_mod_cast hb.1
    · rw [div_lt_one hpos]
      exact_mod_cast hb.2

theorem processSweepHit_commits_cycle_witness :
    (sampleSweepRising.pendingCycleEdge = CycleEdge.SweepRising ∧
      sampleSweepRising.getCycle sampleSweepRising.currentCycle
        = some { SensorCycleData.zero with pendingSyncTickCount := 3000 } ∧
      66667 ≤ 3000 + calculateDeltaTicks 3000 103000 ∧
      3000 + calculateDeltaTicks 3000 103000 < 66667 + 266667) ∧
    (∃ t, processSweepHit sampleSweepRising 3000 103000 77 = some t ∧
      t.getCycle sampleSweepRising.currentCycle = some
        { syncTickCount := 3000, pendingSyncTickCount := 0,
          sweepTickCount := 3000 + calculateDeltaTicks 3000 103000 - 66667,
          sweepHitTimeStamp := 77 } ∧
      t.pendingCycleEdge = CycleEdge.SweepFalling ∧
      t.currentCycle = sampleSweepRising.currentCycle ∧
      (∀ b : Int, b ≠ sampleSweepRising.currentCycle →
        t.getCycle b = sampleSweepRising.getCycle b)) ∧
    (∀ (s2 t2 : LighthouseSensor) (cur2 ms2 : Nat), cycleInBounds s2 → ootxInBounds s2 →
      sweepBounded s2 → processEdge 33 s2 cur2 ms2 = some t2 →
      sweepBounded t2 ∧
      (0 : ℚ) ≤ (t2.cycleData0.sweepTickCount : ℚ) / (SWEEP_DURATION_TICKS : ℚ) ∧
      (t2.cycleData0.sweepTickCount : ℚ) / (SWEEP_DURATION_TICKS : ℚ) < 1 ∧
      (0 : ℚ) ≤ (t2.cycleData1.sweepTickCount : ℚ) / (SWEEP_DURATION_TICKS : ℚ) ∧
      (t2.cycleData1.sweepTickCount : ℚ) / (SWEEP_DURATION_TICKS : ℚ) < 1) :=
  ⟨⟨rfl, rfl, by decide, by decide⟩,
    processSweepHit_commits_cycle 33 sampleSweepRising 3000 103000 77
      { SensorCycleData.zero with pendingSyncTickCount := 3000 } rfl rfl
      (by decide) (by decide)⟩

/-- C6, as stated, fails: with pendingSyncTickCount = 3000 and deltaTicks = 330334
the value s is exactly 266667, which does not exceed SWEEP_DURATION_TICKS, yet
processSweepHit treats the sweep as missed and returns to SyncFalling. -/
theorem processSweepHit_missed_iff_exceeds_counterexample :
    ¬ (∀ (s : LighthouseSensor) (p c ms : Nat) (cd : SensorCycleData),
        s.pendingCycleEdge = CycleEdge.SweepRising →
        s.getCycle s.currentCycle = some cd →
        ((processSweepHit s p c ms).map (·.pendingCycleEdge) = some CycleEdge.SyncFalling ↔
          cd.pendingSyncTickCount + calculateDeltaTicks p c - 66667 > 266667)) := by
  intro h
  have h1 := h sampleSweepRising 0 330334 0
    { SensorCycleData.zero with pendingSyncTickCount := 3000 } rfl rfl
  have h2 : (processSweepHit sampleSweepRising 0 330334 0).map (·.pendingCycleEdge)
      = some CycleEdge.SyncFalling := by decide
  have h3 := h1.mp h2
  revert h3
  decide

/-- C6, amended: in state SweepRising, with x = pendingSyncTickCount + deltaTicks
(below 2^32), processSweepHit treats the sweep as missed exactly when
x - 66667, computed in unsigned 32-bit arithmetic, is at least 266667, that is
when x < 66667 or x >= 333334; otherwise it commits the cycle data with
sweepTickCount = x - 66667 and moves to SweepFalling. -/
theorem processSweepHit_missed_iff_reaches (s : LighthouseSensor) (p c ms : Nat)
    (cd : SensorCycleData)
    (_hedge : s.pendingCycleEdge = CycleEdge.SweepRising)
    (hcd : s.getCycle s.currentCycle = some cd)
    (hx : cd.pendingSyncTickCount + calculateDeltaTicks p c < 2 ^ 32) :
    ∃ t, processSweepHit s p c ms = some t ∧
      ((t.pendingCycleEdge = CycleEdge.SyncFalling ∧ t.currentCycle = -1 ∧
          t.getCycle s.currentCycle = some SensorCycleData.zero) ↔
        (cd.pendingSyncTickCount + calculateDeltaTicks p c < 66667 ∨
          66667 + 266667 ≤ cd.pendingSyncTickCount + calculateDeltaTicks p c)) ∧
      ((t.pendingCycleEdge = CycleEdge.SweepFalling ∧ t.currentCycle = s.currentCycle ∧
          t.getCycle s.currentCycle = some
            { syncTickCount := cd.pendingSyncTickCount, pendingSyncTickCount := 0,
              sweepTickCount := cd.pendingSyncTickCount + calculateDeltaTicks p c - 66667,
              sweepHitTimeStamp := ms }) ↔
        (66667 ≤ cd.pendingSyncTickCount + calculateDeltaTicks p c ∧
          cd.pendingSyncTickCount + calculateDeltaTicks p c < 66667 + 266667)) := by
  by_cases hin : 66667 ≤ cd.pendingSyncTickCount + calculateDeltaTicks p c ∧
      cd.pendingSyncTickCount + calculateDeltaTicks p c < 66667 + 266667
  · have hv : ((cd.pendingSyncTickCount + calculateDeltaTicks p c) % UINT_MOD + UINT_MOD
            - SWEEP_START_TICKS) % UINT_MOD
          = cd.pendingSyncTickCount + calculateDeltaTicks p c - 66667 := by
      unfold UINT_MOD SWEEP_START_TICKS
      omega
    obtain ⟨t, ht, g1, -, g3, g4, -⟩ := processSweepHit_commit_post s p c ms cd hcd
      (by rw [hv]; unfold SWEEP_DURATION_TICKS; omega)
    rw [hv] at g1
    refine ⟨t, ht, ?_, ?_⟩
    · constructor
      · intro h
        rw [g4] at h
        exact absurd h.1 (by decide)
      · intro h
        omega
    · exact ⟨fun _ => hin, fun _ => ⟨g4, g3, g1⟩⟩
  · have hv : SWEEP_DURATION_TICKS ≤ ((cd.pendingSyncTickCount + calculateDeltaTicks p c)
          % UINT_MOD + UINT_MOD - SWEEP_START_TICKS) % UINT_MOD := by
      unfold UINT_MOD SWEEP_START_TICKS SWEEP_DURATION_TICKS
      omega
    obtain ⟨t, ht, g1, -, g3, g4, -⟩ := processSweepHit_missed_post s p c ms cd hcd hv
    refine ⟨t, ht, ?_, ?_⟩
    · exact ⟨fun _ => by omega, fun _ => ⟨g4, g3, g1⟩⟩
    · constructor
      · intro h
        rw [g4] at h
        exact absurd h.1 (by decide)
      · intro h
        exact absurd h hin

theorem processSweepHit_missed_iff_reaches_witness :
    (sampleSweepRising.pendingCycleEdge = CycleEdge.SweepRising ∧
      sampleSweepRising.getCycle sampleSweepRising.currentCycle
        = some { SensorCycleData.zero with pendingSyncTickCount := 3000 } ∧
      3000 + calculateDeltaTicks 0 330334 < 2 ^ 32) ∧
    ∃ t, processSweepHit sampleSweepRising 0 330334 9 = some t ∧
      ((t.pendingCycleEdge = CycleEdge.SyncFalling ∧ t.currentCycle = -1 ∧
          t.getCycle sampleSweepRising.currentCycle = some SensorCycleData.zero) ↔
        (3000 + calculateDeltaTicks 0 330334 < 66667 ∨
          66667 + 266667 ≤ 3000 + calculateDeltaTicks 0 330334)) ∧
      ((t.pendingCycleEdge = CycleEdge.SweepFalling ∧
          t.currentCycle = sampleSweepRising.currentCycle ∧
          t.getCycle sampleSweepRising.currentCycle = some
            { syncTickCount := 3000, pendingSyncTickCount := 0,
              sweepTickCount := 3000 + calculateDeltaTicks 0 330334 - 66667,
              sweepHitTimeStamp := 9 }) ↔
        (66667 ≤ 3000 + calculateDeltaTicks 0 330334 ∧
          3000 + calculateDeltaTicks 0 330334 < 66667 + 266667)) :=
  ⟨⟨rfl, rfl, by decide⟩,
    processSweepHit_missed_iff_reaches sampleSweepRising 0 330334 9
      { SensorCycleData.zero with pendingSyncTickCount := 3000 } rfl rfl (by decide)⟩

/-- C7: in state SweepRising after a valid sync pulse was recorded for axis a, an
edge for which pendingSyncTickCount + delta - 66667 is beyond
SWEEP_DURATION_TICKS zeroes every field of cycleData[a], sets the tracked axis to
none, returns to SyncFalling and leaves the other axis unchanged. -/
theorem processSweepHit_missed_sweep_recovers (s : LighthouseSensor) (p c ms : Nat)
    (cd : SensorCycleData)
    (_hedge : s.pendingCycleEdge = CycleEdge.SweepRising)
    (hcd : s.getCycle s.currentCycle = some cd)
    (hv1 : 2950 ≤ cd.pendingSyncTickCount) (hv2 : cd.pendingSyncTickCount < 4950)
    (hmiss : cd.pendingSyncTickCount + calculateDeltaTicks p c - 66667 > 266667) :
    ∃ t, processSweepHit s p c ms = some t ∧
      t.getCycle s.currentCycle = some SensorCycleData.zero ∧
      t.currentCycle = -1 ∧
      t.pendingCycleEdge = CycleEdge.SyncFalling ∧
      (∀ b : Int, b ≠ s.currentCycle → t.getCycle b = s.getCycle b) := by
  have hd : calculateDeltaTicks p c < 2 ^ 32 := by
    unfold calculateDeltaTicks UINT_MOD
    split <;> omega
  have hv : SWEEP_DURATION_TICKS ≤ ((cd.pendingSyncTickCount + calculateDeltaTicks p c)
      % UINT_MOD + UINT_MOD - SWEEP_START_TICKS) % UINT_MOD := by
    unfold UINT_MOD SWEEP_START_TICKS SWEEP_DURATION_TICKS
    omega
  obtain ⟨t, ht, g1, g2, g3, g4, -⟩ := processSweepHit_missed_post s p c ms cd hcd hv
  exact ⟨t, ht, g1, g3, g4, g2⟩

theorem processSweepHit_missed_sweep_recovers_witness :
    (sampleSweepRising.pendingCycleEdge = CycleEdge.SweepRising ∧
      sampleSweepRising.getCycle sampleSweepRising.currentCycle
        = some { SensorCycleData.zero with pendingSyncTickCount := 3000 } ∧
      2950 ≤ 3000 ∧ 3000 < 4950 ∧
      3000 + calculateDeltaTicks 0 400000 - 66667 > 266667) ∧
    ∃ t, processSweepHit sampleSweepRising 0 400000 9 = some t ∧
      t.getCycle sampleSweepRising.currentCycle = some SensorCycleData.zero ∧
      t.currentCycle = -1 ∧
      t.pendingCycleEdge = CycleEdge.SyncFalling ∧
      (∀ b : Int, b ≠ sampleSweepRising.currentCycle →
        t.getCycle b = sampleSweepRising.getCycle b) :=
  ⟨⟨rfl, rfl, by decide, by decide, by decide⟩,
    processSweepHit_missed_sweep_recovers sampleSweepRising 0 400000 9
      { SensorCycleData.zero with pendingSyncTickCount := 3000 } rfl rfl
      (by decide) (by decide) (by decide)⟩


/-! ## Claims on `loop` -/

theorem processEdge_syncRising (N : Nat) (s : LighthouseSensor) (cur ms : Nat)
    (h : s.pendingCycleEdge = CycleEdge.SyncRising) :
    processEdge N s cur ms = some
      { s with pendingCycleEdge := CycleEdge.SyncFalling, previousTickCount := cur } := by
  unfold processEdge dispatchEdge
  rw [h]
  rfl

theorem processEdge_sweepFalling (N : Nat) (s : LighthouseSensor) (cur ms : Nat)
    (h : s.pendingCycleEdge = CycleEdge.SweepFalling) :
    processEdge N s cur ms = some
      { s with currentCycle := (s.currentCycle + 1) % 2,
               pendingCycleEdge := CycleEdge.SyncRising, previousTickCount := cur } := by
  unfold processEdge dispatchEdge
  rw [h]
  rfl

theorem processEdge_syncFalling (N : Nat) (s : LighthouseSensor) (cur ms : Nat)
    (h : s.pendingCycleEdge = CycleEdge.SyncFalling) :
    processEdge N s cur ms = (processSyncSignal N s s.previousTickCount cur).bind
      fun s1 => some { s1 with previousTickCount := cur } := by
  unfold processEdge dispatchEdge
  rw [h]

theorem processEdge_sweepRising (N : Nat) (s : LighthouseSensor) (cur ms : Nat)
    (h : s.pendingCycleEdge = CycleEdge.SweepRising) :
    processEdge N s cur ms = (processSweepHit s s.previousTickCount cur ms).bind
      fun s1 => some { s1 with previousTickCount := cur } := by
  unfold processEdge dispatchEdge
  rw [h]

theorem loopFuel_step (N : Nat) (millis : Nat → Nat) (w fuel k : Nat)
    (q : LighthouseSensorInput) (s s1 : LighthouseSensor) (x : Nat)
    (hne : nextReadPtr q ≠ w) (hx : q.hitTickBuffer[nextReadPtr q]? = some x)
    (hs : processEdge N s x (millis k) = some s1) :
    loopFuel N millis w (fuel + 1) k q s = loopFuel N millis w fuel (k + 1) (advanceRead q) s1 := by
  rw [loopFuel, if_neg hne, hx, Option.some_bind, hs, Option.some_bind]

theorem loopFuel_done (N : Nat) (millis : Nat → Nat) (w fuel k : Nat)
    (q : LighthouseSensorInput) (s : LighthouseSensor) (he : nextReadPtr q = w) :
    loopFuel N millis w (fuel + 1) k q s = some (q, s) := by
  rw [loopFuel, if_pos he]


/-- Four consecutive edges starting in SyncRising: sync rising, a valid sync
falling edge, a sweep hit inside the window, and the sweep falling edge. -/
theorem processEdge_full_cycle (N : Nat) (s : LighthouseSensor) (t1 t2 t3 t4 m0 m1 m2 m3 : Nat)
    (hedge : s.pendingCycleEdge = CycleEdge.SyncRising)
    (hc : cycleInBounds s) (ho : ootxInBounds s)
    (h1 : 2950 ≤ calculateDeltaTicks t1 t2) (h2 : calculateDeltaTicks t1 t2 < 4950)
    (h3 : 66667 ≤ calculateDeltaTicks t1 t2 + calculateDeltaTicks t2 t3)
    (h4 : calculateDeltaTicks t1 t2 + calculateDeltaTicks t2 t3 < 66667 + 266667) :
    ∃ sA sB sC sD, processEdge N s t1 m0 = some sA ∧ processEdge N sA t2 m1 = some sB ∧
      processEdge N sB t3 m2 = some sC ∧ processEdge N sC t4 m3 = some sD ∧
      sD.pendingCycleEdge = CycleEdge.SyncRising ∧
      sD.currentCycle = 1 - ((foundCycle (calculateDeltaTicks t1 t2) : Nat) : Int) ∧
      sD.previousTickCount = t4 ∧
      sD.getCycle (foundCycle (calculateDeltaTicks t1 t2) : Nat) = some
        { syncTickCount := calculateDeltaTicks t1 t2, pendingSyncTickCount := 0,
          sweepTickCount := calculateDeltaTicks t1 t2 + calculateDeltaTicks t2 t3 - 66667,
          sweepHitTimeStamp := m2 } ∧
      (sA.cycleData0 = s.cycleData0 ∧ sA.cycleData1 = s.cycleData1) ∧
      (sD.cycleData0 = sC.cycleData0 ∧ sD.cycleData1 = sC.cycleData1) := by
  have hA := processEdge_syncRising N s t1 m0 hedge
  obtain ⟨t, ht, c1, c2, c3, -, -⟩ := processSyncSignal_records_sync N
    { s with pendingCycleEdge := CycleEdge.SyncFalling, previousTickCount := t1 } t1 t2 rfl hc ho
    h1 h2
  have hB : processEdge N
      { s with pendingCycleEdge := CycleEdge.SyncFalling, previousTickCount := t1 } t2 m1
      = some { t with previousTickCount := t2 } := by
    rw [processEdge_syncFalling N
      { s with pendingCycleEdge := CycleEdge.SyncFalling, previousTickCount := t1 } t2 m1 rfl]
    show (processSyncSignal N _ t1 t2).bind _ = _
    rw [ht, Option.some_bind]
  obtain ⟨cd, hcd, hp⟩ := Option.map_eq_some'.mp c2
  have hcd2 : ({ t with previousTickCount := t2 } : LighthouseSensor).getCycle
      ({ t with previousTickCount := t2 } : LighthouseSensor).currentCycle = some cd := by
    show t.getCycle t.currentCycle = some cd
    rw [c1]
    exact hcd
  obtain ⟨⟨u, hu, d1, d2, d3, -⟩, -⟩ := processSweepHit_commits_cycle N
    { t with previousTickCount := t2 } t2 t3 m2 cd c3 hcd2 (by rw [hp]; exact h3)
    (by rw [hp]; exact h4)
  have hC : processEdge N { t with previousTickCount := t2 } t3 m2
      = some { u with previousTickCount := t3 } := by
    rw [processEdge_sweepRising N { t with previousTickCount := t2 } t3 m2 c3]
    show (processSweepHit _ t2 t3 m2).bind _ = _
    rw [hu, Option.some_bind]
  have hD := processEdge_sweepFalling N { u with previousTickCount := t3 } t4 m3 d2
  refine ⟨_, _, _, _, hA, hB, hC, hD, rfl, ?_, rfl, ?_, ⟨rfl, rfl⟩, ⟨rfl, rfl⟩⟩
  · show (u.currentCycle + 1) % 2 = _
    rw [d3]
    show (t.currentCycle + 1) % 2 = _
    rw [c1]
    rcases foundCycle_lt_two (calculateDeltaTicks t1 t2) with hf | hf <;> rw [hf] <;> decide
  · show u.getCycle _ = _
    have : ({ t with previousTickCount := t2 } : LighthouseSensor).currentCycle
        = ((foundCycle (calculateDeltaTicks t1 t2) : Nat) : Int) := c1
    rw [this, hp] at d1
    exact d1


/-- C8: from a state with pendingCycleEdge = SyncRising, when loop consumes four
queued edges t1..t4 with w = delta(t1, t2) a valid sync width of axis a and
w + delta(t2, t3) inside the sweep window, it ends in SyncRising with the
tracked axis toggled to 1 - a, previousTickCount = t4 and cycleData[a] holding
syncTickCount = w and sweepTickCount = w + delta(t2, t3) - 66667; an edge seen
in SyncRising or in SweepFalling changes no CycleData. -/
theorem loop_full_cycle (N : Nat) (millis : Nat → Nat) (fuel : Nat)
    (q : LighthouseSensorInput) (s : LighthouseSensor) (t1 t2 t3 t4 : Nat)
    (hfuel : 5 ≤ fuel)
    (hedge : s.pendingCycleEdge = CycleEdge.SyncRising)
    (hc : cycleInBounds s) (ho : ootxInBounds s)
    (hq1 : nextReadPtr q ≠ q.hitTickWritePtr)
    (e1 : q.hitTickBuffer[nextReadPtr q]? = some t1)
    (hq2 : nextReadPtr (advanceRead q) ≠ q.hitTickWritePtr)
    (e2 : q.hitTickBuffer[nextReadPtr (advanceRead q)]? = some t2)
    (hq3 : nextReadPtr (advanceRead (advanceRead q)) ≠ q.hitTickWritePtr)
    (e3 : q.hitTickBuffer[nextReadPtr (advanceRead (advanceRead q))]? = some t3)
    (hq4 : nextReadPtr (advanceRead (advanceRead (advanceRead q))) ≠ q.hitTickWritePtr)
    (e4 : q.hitTickBuffer[nextReadPtr (advanceRead (advanceRead (advanceRead q)))]? = some t4)
    (hq5 : nextReadPtr (advanceRead (advanceRead (advanceRead (advanceRead q))))
      = q.hitTickWritePtr)
    (h1 : 2950 ≤ calculateDeltaTicks t1 t2) (h2 : calculateDeltaTicks t1 t2 < 4950)
    (h3 : 66667 ≤ calculateDeltaTicks t1 t2 + calculateDeltaTicks t2 t3)
    (h4 : calculateDeltaTicks t1 t2 + calculateDeltaTicks t2 t3 < 66667 + 266667) :
    (∃ t, loop N millis fuel q s
        = some (advanceRead (advanceRead (advanceRead (advanceRead q))), t) ∧
      t.pendingCycleEdge = CycleEdge.SyncRising ∧
      t.currentCycle = 1 - ((foundCycle (calculateDeltaTicks t1 t2) : Nat) : Int) ∧
      t.previousTickCount = t4 ∧
      t.getCycle (foundCycle (calculateDeltaTicks t1 t2) : Nat) = some
        { syncTickCount := calculateDeltaTicks t1 t2, pendingSyncTickCount := 0,
          sweepTickCount := calculateDeltaTicks t1 t2 + calculateDeltaTicks t2 t3 - 66667,
          sweepHitTimeStamp := millis 2 }) ∧
    (∀ (s2 : LighthouseSensor) (cur ms : Nat),
      (s2.pendingCycleEdge = CycleEdge.SyncRising ∨
        s2.pendingCycleEdge = CycleEdge.SweepFalling) →
      ∃ u, processEdge N s2 cur ms = some u ∧
        u.cycleData0 = s2.cycleData0 ∧ u.cycleData1 = s2.cycleData1) := by
  constructor
  · obtain ⟨sA, sB, sC, sD, hA, hB, hC, hD, r1, r2, r3, r4, -, -⟩ :=
      processEdge_full_cycle N s t1 t2 t3 t4 (millis 0) (millis 1) (millis 2) (millis 3)
        hedge hc ho h1 h2 h3 h4
    obtain ⟨f, rfl⟩ : ∃ f, fuel = f + 5 := ⟨fuel - 5, by omega⟩
    refine ⟨sD, ?_, r1, r2, r3, r4⟩
    unfold loop
    rw [loopFuel_step N millis _ (f + 4) 0 q s sA t1 hq1 e1 hA,
      loopFuel_step N millis _ (f + 3) 1 (advanceRead q) sA sB t2 hq2 e2 hB,
      loopFuel_step N millis _ (f + 2) 2 (advanceRead (advanceRead q)) sB sC t3 hq3 e3 hC,
      loopFuel_step N millis _ (f + 1) 3 (advanceRead (advanceRead (advanceRead q))) sC sD t4
        hq4 e4 hD,
      loopFuel_done N millis _ f 4 _ sD hq5]
  · intro s2 cur ms h
    rcases h with h | h
    · exact ⟨_, processEdge_syncRising N s2 cur ms h, rfl, rfl⟩
    · exact ⟨_, processEdge_sweepFalling N s2 cur ms h, rfl, rfl⟩

theorem loop_full_cycle_witness :
    (5 ≤ 5 ∧
      (LighthouseSensor.init [] SensorCycleData.zero SensorCycleData.zero).pendingCycleEdge
        = CycleEdge.SyncRising ∧
      cycleInBounds (LighthouseSensor.init [] SensorCycleData.zero SensorCycleData.zero) ∧
      ootxInBounds (LighthouseSensor.init [] SensorCycleData.zero SensorCycleData.zero) ∧
      nextReadPtr sampleInput ≠ sampleInput.hitTickWritePtr ∧
      sampleInput.hitTickBuffer[nextReadPtr sampleInput]? = some 1000 ∧
      nextReadPtr (advanceRead sampleInput) ≠ sampleInput.hitTickWritePtr ∧
      sampleInput.hitTickBuffer[nextReadPtr (advanceRead sampleInput)]? = some 4450 ∧
      nextReadPtr (advanceRead (advanceRead sampleInput)) ≠ sampleInput.hitTickWritePtr ∧
      sampleInput.hitTickBuffer[nextReadPtr (advanceRead (advanceRead sampleInput))]?
        = some 104450 ∧
      nextReadPtr (advanceRead (advanceRead (advanceRead sampleInput)))
        ≠ sampleInput.hitTickWritePtr ∧
      sampleInput.hitTickBuffer[nextReadPtr (advanceRead (advanceRead (advanceRead sampleInput)))]?
        = some 104500 ∧
      nextReadPtr (advanceRead (advanceRead (advanceRead (advanceRead sampleInput))))
        = sampleInput.hitTickWritePtr ∧
      2950 ≤ calculateDeltaTicks 1000 4450 ∧ calculateDeltaTicks 1000 4450 < 4950 ∧
      66667 ≤ calculateDeltaTicks 1000 4450 + calculateDeltaTicks 4450 104450 ∧
      calculateDeltaTicks 1000 4450 + calculateDeltaTicks 4450 104450 < 66667 + 266667) ∧
    (∃ t, loop 33 (fun k => 10 + k) 5 sampleInput
          (LighthouseSensor.init [] SensorCycleData.zero SensorCycleData.zero)
        = some (advanceRead (advanceRead (advanceRead (advanceRead sampleInput))), t) ∧
      t.pendingCycleEdge = CycleEdge.SyncRising ∧
      t.currentCycle = 1 - ((foundCycle (calculateDeltaTicks 1000 4450) : Nat) : Int) ∧
      t.previousTickCount = 104500 ∧
      t.getCycle (foundCycle (calculateDeltaTicks 1000 4450) : Nat) = some
        { syncTickCount := calculateDeltaTicks 1000 4450, pendingSyncTickCount := 0,
          sweepTickCount := calculateDeltaTicks 1000 4450 + calculateDeltaTicks 4450 104450
            - 66667,
          sweepHitTimeStamp := (fun k => 10 + k) 2 }) ∧
    (∀ (s2 : LighthouseSensor) (cur ms : Nat),
      (s2.pendingCycleEdge = CycleEdge.SyncRising ∨
        s2.pendingCycleEdge = CycleEdge.SweepFalling) →
      ∃ u, processEdge 33 s2 cur ms = some u ∧
        u.cycleData0 = s2.cycleData0 ∧ u.cycleData1 = s2.cycleData1) :=
  ⟨⟨by decide, rfl, by unfold cycleInBounds; decide, by unfold ootxInBounds; decide,
      by decide, by decide, by decide, by decide, by decide, by decide, by decide, by decide,
      by decide, by decide, by decide, by decide, by decide⟩,
    loop_full_cycle 33 (fun k => 10 + k) 5 sampleInput
      (LighthouseSensor.init [] SensorCycleData.zero SensorCycleData.zero) 1000 4450 104450 104500
      (by decide) rfl (by unfold cycleInBounds; decide) (by unfold ootxInBounds; decide)
      (by decide) (by decide) (by decide) (by decide) (by decide) (by decide) (by decide)
      (by decide) (by decide) (by decide) (by decide) (by decide) (by decide)⟩


/-! ## The OOTX decoder on bit streams -/

theorem ootxBitValue_widthOfBit (v : Bool) : ootxBitValue (widthOfBit v) = v := by
  cases v <;> decide

theorem processOOTXBit_congr (N : Nat) (s : LighthouseSensor) (w1 w2 : Nat)
    (h : ootxBitValue w1 = ootxBitValue w2) : processOOTXBit N s w1 = processOOTXBit N s w2 := by
  unfold processOOTXBit
  rw [h]

theorem feedOOTX_congr (N : Nat) (ws1 ws2 : List Nat) (s : LighthouseSensor)
    (h : ws1.map ootxBitValue = ws2.map ootxBitValue) : feedOOTX N s ws1 = feedOOTX N s ws2 := by
  induction ws1 generalizing ws2 s with
  | nil =>
    cases ws2 with
    | nil => rfl
    | cons w ws => simp at h
  | cons w1 ws1 ih =>
    cases ws2 with
    | nil => simp at h
    | cons w2 ws2 =>
      simp only [List.map_cons, List.cons.injEq] at h
      unfold feedOOTX
      rw [processOOTXBit_congr N s w1 w2 h.1]
      cases processOOTXBit N s w2 with
      | none => rfl
      | some t => exact ih ws2 t h.2

theorem feedOOTX_eq_bits (N : Nat) (ws : List Nat) (s : LighthouseSensor) :
    feedOOTX N s ws = feedOOTX N s ((ws.map ootxBitValue).map widthOfBit) := by
  apply feedOOTX_congr
  rw [List.map_map, List.map_map]
  apply List.map_congr_left
  intro w _
  simp [ootxBitValue_widthOfBit]

theorem feedOOTX_append (N : Nat) (ws1 ws2 : List Nat) (s : LighthouseSensor) :
    feedOOTX N s (ws1 ++ ws2) = (feedOOTX N s ws1).bind fun t => feedOOTX N t ws2 := by
  induction ws1 generalizing s with
  | nil => rfl
  | cons w ws1 ih =>
    simp only [List.cons_append, feedOOTX]
    cases processOOTXBit N s w with
    | none => rfl
    | some t => exact ih t

/-- A bit that is neither the 17th zero nor at a sync position is a data bit. -/
theorem processOOTXBit_data (N : Nat) (s : LighthouseSensor) (w : Nat)
    (hk : s.syncBitCounter < 16) (hz : s.zeroCount < 16) :
    processOOTXBit N s w = processOOTXData N
      { s with syncBitCounter := s.syncBitCounter + 1,
               zeroCount := if ootxBitValue w then 0 else s.zeroCount + 1 }
      (ootxBitValue w) := by
  unfold processOOTXBit
  cases hv : ootxBitValue w
  · have h1 : ¬ (s.zeroCount + 1 = 17) := by omega
    have h2 : ¬ (s.syncBitCounter + 1 = 17 ∧ (s.payloadReadMask ≠ 0 ∨ s.readInfoBlockMask ≠ 0)) := by
      omega
    simp only [Bool.not_false, if_true, if_neg h1, if_neg h2, Bool.false_eq_true, if_false]
  · have h1 : ¬ (s.syncBitCounter + 1 = 17) := by omega
    simp only [Bool.not_true, Bool.false_eq_true, if_false, if_neg h1, if_true]

/-- The data-bit part neither reads nor writes the two counters. -/
theorem processOOTXData_counters (N : Nat) (s : LighthouseSensor) (v : Bool) (a b : Nat) :
    processOOTXData N { s with syncBitCounter := a, zeroCount := b } v =
      (processOOTXData N s v).map fun t => { t with syncBitCounter := a, zeroCount := b } := by
  unfold processOOTXData
  dsimp only
  split_ifs <;>
    first
    | rfl
    | (cases s.baseStationInfoBlock[s.readInfoBlockIndex]? <;> rfl)


theorem feedData_counters (N : Nat) (vs : List Bool) (s : LighthouseSensor) (a b : Nat) :
    feedData N { s with syncBitCounter := a, zeroCount := b } vs =
      (feedData N s vs).map fun t => { t with syncBitCounter := a, zeroCount := b } := by
  induction vs generalizing s with
  | nil => rfl
  | cons v vs ih =>
    unfold feedData
    rw [processOOTXData_counters]
    cases processOOTXData N s v with
    | none => rfl
    | some t => exact ih t

/-- A run of data bits that reaches no sync position: the bits go through the
data-bit part, and the counters count them. -/
theorem feedOOTX_data_run (N : Nat) (vs : List Bool) (s : LighthouseSensor)
    (hk : s.syncBitCounter + vs.length ≤ 16) (hz : s.zeroCount ≤ s.syncBitCounter) :
    feedOOTX N s (vs.map widthOfBit) =
      (feedData N s vs).map fun t =>
        { t with syncBitCounter := s.syncBitCounter + vs.length,
                 zeroCount := zeroRun s.zeroCount vs } := by
  induction vs generalizing s with
  | nil => rfl
  | cons v vs ih =>
    simp only [List.length_cons] at hk
    simp only [List.map_cons, feedOOTX, feedData]
    rw [processOOTXBit_data N s _ (by omega) (by omega), ootxBitValue_widthOfBit,
      processOOTXData_counters]
    cases processOOTXData N s v with
    | none => rfl
    | some t =>
      simp only [Option.map_some', Option.some_bind]
      rw [ih _ (by dsimp only; omega) (by dsimp only; split <;> omega), feedData_counters,
        Option.map_map]
      congr 1
      funext u
      simp only [Function.comp, zeroRun, List.length_cons]
      congr 1
      omega


/-- The sync bit at its expected position. -/
theorem processOOTXBit_sync (N : Nat) (s : LighthouseSensor) (w : Nat)
    (hk : s.syncBitCounter = 16) (hv : ootxBitValue w = true) :
    processOOTXBit N s w = some
      (if s.readInfoBlockIndex = N then
        calculateLighthousePosition
          { s with syncBitCounter := 0, zeroCount := 0, readInfoBlockIndex := 0 }
      else { s with syncBitCounter := 0, zeroCount := 0 }) := by
  unfold processOOTXBit
  simp only [hv, hk, Bool.not_true, Bool.false_eq_true, if_false, if_true]
  split_ifs <;> rfl

theorem feedData_payload_step (N : Nat) (s : LighthouseSensor) (pl m m1 : Nat) (v : Bool)
    (vs : List Bool) (h0 : m ≠ 0) (h1 : m >>> 1 = m1) (h2 : m1 ≠ 0) (h3 : m1 ≠ 0x80) :
    feedData N { s with payloadLength := pl, payloadReadMask := m } (v :: vs) =
      feedData N { s with payloadLength := storeBit pl m v, payloadReadMask := m1 } vs := by
  subst h1
  rw [feedData]
  unfold processOOTXData
  dsimp only
  rw [if_pos h0, if_neg h2, if_neg h3]
  rfl

theorem feedData_payload_wrap (N : Nat) (s : LighthouseSensor) (pl : Nat) (v : Bool)
    (vs : List Bool) :
    feedData N { s with payloadLength := pl, payloadReadMask := 1 } (v :: vs) =
      feedData N { s with payloadLength := storeBit pl 1 v, payloadReadMask := 0x8000 } vs := by
  rw [feedData]
  unfold processOOTXData
  dsimp only
  rw [if_pos (by decide), if_pos (by decide)]
  rfl

theorem feedData_payload_last (N : Nat) (s : LighthouseSensor) (pl : Nat) (v : Bool) :
    feedData N { s with payloadLength := pl, payloadReadMask := 0x100 } [v] =
      if storeBit pl 0x100 v = N then
        some { s with payloadLength := storeBit pl 0x100 v, payloadReadMask := 0,
                      readInfoBlockIndex := 0, readInfoBlockMask := 0x80 }
      else
        some { s with payloadLength := storeBit pl 0x100 v, payloadReadMask := 0 } := by
  rw [feedData]
  unfold processOOTXData
  dsimp only
  rw [if_pos (by decide), if_neg (by decide), if_pos (by decide)]
  split_ifs <;> rfl

/-- The sixteen bits of the length field, read from mask 0x0080 on. -/
theorem feedData_payload (N : Nat) (s : LighthouseSensor)
    (l0 l1 l2 l3 l4 l5 l6 l7 l8 l9 l10 l11 l12 l13 l14 l15 : Bool)
    (hm : s.payloadReadMask = 0x80) :
    feedData N s [l0, l1, l2, l3, l4, l5, l6, l7, l8, l9, l10, l11, l12, l13, l14, l15] =
      if assemble s.payloadLength payloadMasks
          [l0, l1, l2, l3, l4, l5, l6, l7, l8, l9, l10, l11, l12, l13, l14, l15] = N then
        some { s with
          payloadLength := assemble s.payloadLength payloadMasks
            [l0, l1, l2, l3, l4, l5, l6, l7, l8, l9, l10, l11, l12, l13, l14, l15],
          payloadReadMask := 0, readInfoBlockIndex := 0, readInfoBlockMask := 0x80 }
      else
        some { s with
          payloadLength := assemble s.payloadLength payloadMasks
            [l0, l1, l2, l3, l4, l5, l6, l7, l8, l9, l10, l11, l12, l13, l14, l15],
          payloadReadMask := 0 } := by
  have hs : s = { s with payloadLength := s.payloadLength, payloadReadMask := 0x80 } := by
    rw [← hm]
  generalize s.payloadLength = pl at hs ⊢
  rw [hs]
  rw [feedData_payload_step N s pl 0x80 0x40 l0 _ (by decide) (by decide) (by decide) (by decide),
    feedData_payload_step N s _ 0x40 0x20 l1 _ (by decide) (by decide) (by decide) (by decide),
    feedData_payload_step N s _ 0x20 0x10 l2 _ (by decide) (by decide) (by decide) (by decide),
    feedData_payload_step N s _ 0x10 0x08 l3 _ (by decide) (by decide) (by decide) (by decide),
    feedData_payload_step N s _ 0x08 0x04 l4 _ (by decide) (by decide) (by decide) (by decide),
    feedData_payload_step N s _ 0x04 0x02 l5 _ (by decide) (by decide) (by decide) (by decide),
    feedData_payload_step N s _ 0x02 0x01 l6 _ (by decide) (by decide) (by decide) (by decide),
    feedData_payload_wrap N s _ l7 _,
    feedData_payload_step N s _ 0x8000 0x4000 l8 _ (by decide) (by decide) (by decide) (by decide),
    feedData_payload_step N s _ 0x4000 0x2000 l9 _ (by decide) (by decide) (by decide) (by decide),
    feedData_payload_step N s _ 0x2000 0x1000 l10 _ (by decide) (by decide) (by decide) (by decide),
    feedData_payload_step N s _ 0x1000 0x0800 l11 _ (by decide) (by decide) (by decide) (by decide),
    feedData_payload_step N s _ 0x0800 0x0400 l12 _ (by decide) (by decide) (by decide) (by decide),
    feedData_payload_step N s _ 0x0400 0x0200 l13 _ (by decide) (by decide) (by decide) (by decide),
    feedData_payload_step N s _ 0x0200 0x0100 l14 _ (by decide) (by decide) (by decide) (by decide),
    feedData_payload_last N s _ l15]
  rfl


theorem set_getElem_same (l : List Nat) (i : Nat) (h : i < l.length) : l.set i l[i] = l := by
  apply List.ext_getElem (by simp)
  intro j h1 h2
  rw [List.getElem_set]
  split
  · next hij => subst hij; rfl
  · rfl

theorem feedData_info_step (N : Nat) (s : LighthouseSensor) (blk : List Nat) (i x m m1 : Nat)
    (v : Bool) (vs : List Bool) (hp : s.payloadReadMask = 0) (hi : i < blk.length)
    (h0 : m ≠ 0) (h1 : m >>> 1 = m1) (h2 : m1 ≠ 0) :
    feedData N { s with baseStationInfoBlock := blk.set i x, readInfoBlockIndex := i,
                        readInfoBlockMask := m } (v :: vs) =
      feedData N { s with baseStationInfoBlock := blk.set i (storeBit x m v),
                          readInfoBlockIndex := i, readInfoBlockMask := m1 } vs := by
  subst h1
  rw [feedData]
  unfold processOOTXData
  dsimp only
  have hx : (blk.set i x)[i]? = some x := by
    rw [List.getElem?_set_self hi]
  rw [if_neg (by rw [hp]; decide), if_pos h0, hx]
  dsimp only
  rw [if_neg h2, List.set_set]
  rfl

theorem feedData_info_last (N : Nat) (s : LighthouseSensor) (blk : List Nat) (i x : Nat)
    (v : Bool) (hp : s.payloadReadMask = 0) (hi : i < blk.length) :
    feedData N { s with baseStationInfoBlock := blk.set i x, readInfoBlockIndex := i,
                        readInfoBlockMask := 1 } [v] =
      some { s with baseStationInfoBlock := blk.set i (storeBit x 1 v),
                    readInfoBlockIndex := i + 1,
                    readInfoBlockMask := if i + 1 < N then 0x80 else 0 } := by
  rw [feedData]
  unfold processOOTXData
  dsimp only
  have hx : (blk.set i x)[i]? = some x := by
    rw [List.getElem?_set_self hi]
  rw [if_neg (by rw [hp]; decide), if_pos (by decide), hx]
  dsimp only
  rw [if_pos (by decide), List.set_set]
  split_ifs <;> rfl

/-- The eight bits of one info-block byte, read from mask 0x80 on. -/
theorem feedData_byte (N : Nat) (s : LighthouseSensor) (b : Nat)
    (v7 v6 v5 v4 v3 v2 v1 v0 : Bool)
    (hp : s.payloadReadMask = 0) (hm : s.readInfoBlockMask = 0x80)
    (hb : s.baseStationInfoBlock[s.readInfoBlockIndex]? = some b) :
    feedData N s [v7, v6, v5, v4, v3, v2, v1, v0] =
      some { s with
        baseStationInfoBlock := s.baseStationInfoBlock.set s.readInfoBlockIndex
          (assemble b byteMasks [v7, v6, v5, v4, v3, v2, v1, v0]),
        readInfoBlockIndex := s.readInfoBlockIndex + 1,
        readInfoBlockMask := if s.readInfoBlockIndex + 1 < N then 0x80 else 0 } := by
  obtain ⟨hi, hbe⟩ := List.getElem?_eq_some_iff.mp hb
  have hs : s = { s with baseStationInfoBlock := s.baseStationInfoBlock.set s.readInfoBlockIndex b,
                         readInfoBlockIndex := s.readInfoBlockIndex,
                         readInfoBlockMask := 0x80 } := by
    rw [← hm, ← hbe, set_getElem_same _ _ hi]
  generalize s.baseStationInfoBlock = blk at hs hi ⊢
  generalize s.readInfoBlockIndex = i at hs hi ⊢
  rw [hs]
  rw [feedData_info_step N s blk i _ 0x80 0x40 v7 _ hp hi (by decide) (by decide) (by decide),
    feedData_info_step N s blk i _ 0x40 0x20 v6 _ hp hi (by decide) (by decide) (by decide),
    feedData_info_step N s blk i _ 0x20 0x10 v5 _ hp hi (by decide) (by decide) (by decide),
    feedData_info_step N s blk i _ 0x10 0x08 v4 _ hp hi (by decide) (by decide) (by decide),
    feedData_info_step N s blk i _ 0x08 0x04 v3 _ hp hi (by decide) (by decide) (by decide),
    feedData_info_step N s blk i _ 0x04 0x02 v2 _ hp hi (by decide) (by decide) (by decide),
    feedData_info_step N s blk i _ 0x02 0x01 v1 _ hp hi (by decide) (by decide) (by decide),
    feedData_info_last N s blk i _ v0 hp hi]
  rfl


/-! ## Bits stored through single-bit masks -/

theorem testBit_storeBit (x k j : Nat) (v : Bool) :
    (storeBit x (2 ^ k) v).testBit j = if j = k then v else x.testBit j := by
  unfold storeBit andNot
  cases v
  · simp only [Bool.false_eq_true, if_false, Nat.testBit_xor, Nat.testBit_and,
      Nat.testBit_two_pow]
    by_cases h : j = k
    · subst h
      simp
    · have : ¬ k = j := fun e => h e.symm
      simp [h, this]
  · simp only [if_true, Nat.testBit_or, Nat.testBit_two_pow]
    by_cases h : j = k
    · subst h
      simp
    · have : ¬ k = j := fun e => h e.symm
      simp [h, this]

theorem storeBit_lt (x k n : Nat) (v : Bool) (hx : x < 2 ^ n) (hk : k < n) :
    storeBit x (2 ^ k) v < 2 ^ n := by
  apply Nat.lt_pow_two_of_testBit
  intro j hj
  rw [testBit_storeBit]
  have : ¬ j = k := by omega
  rw [if_neg this]
  exact Nat.testBit_lt_two_pow (lt_of_lt_of_le hx (Nat.pow_le_pow_right (by decide) hj))

theorem byteMasks_eq : byteMasks = [2 ^ 7, 2 ^ 6, 2 ^ 5, 2 ^ 4, 2 ^ 3, 2 ^ 2, 2 ^ 1, 2 ^ 0] := by
  decide

theorem payloadMasks_eq : payloadMasks =
    [2 ^ 7, 2 ^ 6, 2 ^ 5, 2 ^ 4, 2 ^ 3, 2 ^ 2, 2 ^ 1, 2 ^ 0,
     2 ^ 15, 2 ^ 14, 2 ^ 13, 2 ^ 12, 2 ^ 11, 2 ^ 10, 2 ^ 9, 2 ^ 8] := by
  decide

/-- Eight bits stored through the byte masks rebuild the byte they came from,
whatever the byte held before. -/
theorem assemble_bitsOfByte (b x : Nat) (hb : b < 256) (hx : x < 256) :
    assemble b byteMasks (bitsOfByte x) = x := by
  apply Nat.eq_of_testBit_eq
  intro j
  rw [byteMasks_eq]
  simp only [assemble, bitsOfByte, testBit_storeBit]
  by_cases hj : j < 8
  · interval_cases j <;> simp
  · have h8 : 2 ^ 8 ≤ 2 ^ j := Nat.pow_le_pow_right (by decide) (by omega)
    have e1 : b.testBit j = false := Nat.testBit_lt_two_pow (by omega)
    have e2 : x.testBit j = false := Nat.testBit_lt_two_pow (by omega)
    rw [e2]
    have n0 : ¬ j = 0 := by omega
    have n1 : ¬ j = 1 := by omega
    have n2 : ¬ j = 2 := by omega
    have n3 : ¬ j = 3 := by omega
    have n4 : ¬ j = 4 := by omega
    have n5 : ¬ j = 5 := by omega
    have n6 : ¬ j = 6 := by omega
    have n7 : ¬ j = 7 := by omega
    simp only [n0, n1, n2, n3, n4, n5, n6, n7, if_false, e1]


/-! ## Reading the info block -/

theorem zeroRun_le (vs : List Bool) (z : Nat) : zeroRun z vs ≤ z + vs.length := by
  induction vs generalizing z with
  | nil => exact Nat.le_refl _
  | cons v vs ih =>
    unfold zeroRun
    simp only [List.length_cons]
    cases v
    · have := ih (z + 1)
      simp only [Bool.false_eq_true, if_false]
      omega
    · have := ih 0
      simp only [if_true]
      omega

/-- One byte of the info block, fed between two sync positions. -/
theorem feedOOTX_byte (N : Nat) (s : LighthouseSensor) (x k : Nat)
    (hk : k + 8 ≤ 16) (hp : s.payloadReadMask = 0) (hsbc : s.syncBitCounter = k)
    (hz : s.zeroCount ≤ k) (hm : s.readInfoBlockMask = 0x80)
    (hi : s.readInfoBlockIndex < s.baseStationInfoBlock.length)
    (hbytes : ∀ b ∈ s.baseStationInfoBlock, b < 256) (hx : x < 256) :
    ∃ t, feedOOTX N s ((bitsOfByte x).map widthOfBit) = some t ∧
      t.baseStationInfoBlock = s.baseStationInfoBlock.set s.readInfoBlockIndex x ∧
      t.readInfoBlockIndex = s.readInfoBlockIndex + 1 ∧
      t.readInfoBlockMask = (if s.readInfoBlockIndex + 1 < N then 0x80 else 0) ∧
      t.payloadReadMask = 0 ∧ t.syncBitCounter = k + 8 ∧ t.zeroCount ≤ k + 8 := by
  have hlen : (bitsOfByte x).length = 8 := rfl
  rw [feedOOTX_data_run N (bitsOfByte x) s (by rw [hsbc, hlen]; exact hk) (by rw [hsbc]; exact hz)]
  have hb : s.baseStationInfoBlock[s.readInfoBlockIndex]?
      = some s.baseStationInfoBlock[s.readInfoBlockIndex] := List.getElem?_eq_getElem hi
  have hbyte := feedData_byte N s _ (x.testBit 7) (x.testBit 6) (x.testBit 5) (x.testBit 4)
    (x.testBit 3) (x.testBit 2) (x.testBit 1) (x.testBit 0) hp hm hb
  have hasm := assemble_bitsOfByte s.baseStationInfoBlock[s.readInfoBlockIndex] x
    (hbytes _ (List.getElem_mem hi)) hx
  unfold bitsOfByte at hasm hlen ⊢
  rw [hbyte, hasm]
  refine ⟨_, rfl, rfl, rfl, rfl, hp, ?_, ?_⟩
  · show s.syncBitCounter + _ = k + 8
    rw [hsbc, hlen]
  · show zeroRun s.zeroCount _ ≤ k + 8
    have := zeroRun_le [x.testBit 7, x.testBit 6, x.testBit 5, x.testBit 4,
      x.testBit 3, x.testBit 2, x.testBit 1, x.testBit 0] s.zeroCount
    simp only [List.length_cons, List.length_nil] at this
    omega


theorem insertSync_byte_zero (x : Nat) (more : List Bool) :
    insertSync 0 (bitsOfByte x ++ more) = bitsOfByte x ++ insertSync 8 more := by
  simp [bitsOfByte, insertSync]

theorem insertSync_byte_eight (x : Nat) (more : List Bool) :
    insertSync 8 (bitsOfByte x ++ more) = bitsOfByte x ++ true :: insertSync 0 more := by
  simp [bitsOfByte, insertSync]

theorem take_set_succ (l : List Nat) (i x : Nat) (h : i < l.length) :
    (l.set i x).take (i + 1) = l.take i ++ [x] := by
  induction l generalizing i with
  | nil => simp at h
  | cons a l ih =>
    cases i with
    | zero => simp
    | succ i =>
      simp only [List.length_cons, Nat.add_lt_add_iff_right] at h
      simp [ih i h]

theorem bytes_set (l : List Nat) (i x : Nat) (hl : ∀ b ∈ l, b < 256) (hx : x < 256) :
    ∀ b ∈ l.set i x, b < 256 := by
  intro b hb
  rcases List.mem_or_eq_of_mem_set hb with h | h
  · exact hl b h
  · rw [h]; exact hx

/-- The bytes of a block, fed with a sync bit after every 16 data bits, are
stored from the current byte index on. -/
theorem feedOOTX_block (N : Nat) (rest : List Nat) :
    ∀ (s : LighthouseSensor) (k : Nat), (k = 0 ∨ k = 8) →
      s.payloadReadMask = 0 → s.syncBitCounter = k → s.zeroCount ≤ k →
      s.readInfoBlockIndex + rest.length = N → s.baseStationInfoBlock.length = N →
      (rest ≠ [] → s.readInfoBlockMask = 0x80) →
      (∀ b ∈ s.baseStationInfoBlock, b < 256) → (∀ x ∈ rest, x < 256) →
      ∃ t, feedOOTX N s ((insertSync k (rest.flatMap bitsOfByte)).map widthOfBit) = some t ∧
        t.baseStationInfoBlock = s.baseStationInfoBlock.take s.readInfoBlockIndex ++ rest := by
  induction rest with
  | nil =>
    intro s k _ _ _ _ hidx hlen _ _ _
    refine ⟨s, ?_, ?_⟩
    · simp [insertSync, feedOOTX]
    · simp only [List.length_nil, Nat.add_zero] at hidx
      rw [List.append_nil, List.take_of_length_le (by omega)]
  | cons x rest ih =>
    intro s k hk hp hsbc hz hidx hlen hmask hbytes hrest
    simp only [List.length_cons] at hidx
    have hi : s.readInfoBlockIndex < s.baseStationInfoBlock.length := by omega
    have hx : x < 256 := hrest x (List.mem_cons_self _ _)
    have hrest2 : ∀ y ∈ rest, y < 256 := fun y hy => hrest y (List.mem_cons_of_mem _ hy)
    obtain ⟨t, ht, t1, t2, t3, t4, t5, t6⟩ := feedOOTX_byte N s x k (by omega) hp hsbc hz
      (hmask (List.cons_ne_nil _ _)) hi hbytes hx
    have hmask2 : rest ≠ [] → t.readInfoBlockMask = 0x80 := by
      intro hne
      have : 0 < rest.length := List.length_pos.mpr hne
      rw [t3, if_pos (by omega)]
    have hblk : (s.baseStationInfoBlock.set s.readInfoBlockIndex x).take (s.readInfoBlockIndex + 1)
        = s.baseStationInfoBlock.take s.readInfoBlockIndex ++ [x] := take_set_succ _ _ _ hi
    rw [List.flatMap_cons]
    rcases hk with hk | hk
    · subst hk
      rw [insertSync_byte_zero, List.map_append, feedOOTX_append, ht, Option.some_bind]
      obtain ⟨u, hu, u1⟩ := ih t 8 (Or.inr rfl) t4 (by rw [t5]) (by omega) (by rw [t2]; omega)
        (by rw [t1, List.length_set]; exact hlen) hmask2
        (by rw [t1]; exact bytes_set _ _ _ hbytes hx) hrest2
      refine ⟨u, hu, ?_⟩
      rw [u1, t1, t2, hblk, List.append_assoc]
      rfl
    · subst hk
      rw [insertSync_byte_eight, List.map_append, feedOOTX_append, ht, Option.some_bind,
        List.map_cons, feedOOTX, processOOTXBit_sync N t _ (by rw [t5]) (ootxBitValue_widthOfBit true),
        Option.some_bind]
      by_cases hne : rest = []
      · subst hne
        refine ⟨_, rfl, ?_⟩
        have hb2 : (if t.readInfoBlockIndex = N then
            calculateLighthousePosition
              { t with syncBitCounter := 0, zeroCount := 0, readInfoBlockIndex := 0 }
            else { t with syncBitCounter := 0, zeroCount := 0 }).baseStationInfoBlock
            = t.baseStationInfoBlock := by
          split <;> rfl
        rw [hb2, t1, ← hblk, List.take_of_length_le (by rw [List.length_set]; simp at hidx; omega)]
      · have hlt : t.readInfoBlockIndex ≠ N := by
          have : 0 < rest.length := List.length_pos.mpr hne
          rw [t2]
          omega
        rw [if_neg hlt]
        obtain ⟨u, hu, u1⟩ := ih { t with syncBitCounter := 0, zeroCount := 0 } 0 (Or.inl rfl)
          t4 rfl (Nat.le_refl _) (by show t.readInfoBlockIndex + _ = N; rw [t2]; omega)
          (by show t.baseStationInfoBlock.length = N; rw [t1, List.length_set]; exact hlen)
          hmask2
          (by show ∀ b ∈ t.baseStationInfoBlock, b < 256
              rw [t1]; exact bytes_set _ _ _ hbytes hx) hrest2
        refine ⟨u, hu, ?_⟩
        rw [u1]
        show t.baseStationInfoBlock.take t.readInfoBlockIndex ++ rest = _
        rw [t1, t2, hblk, List.append_assoc]
        rfl


theorem list_length_sixteen (l : List Bool) (h : l.length = 16) :
    ∃ l0 l1 l2 l3 l4 l5 l6 l7 l8 l9 l10 l11 l12 l13 l14 l15 : Bool,
      l = [l0, l1, l2, l3, l4, l5, l6, l7, l8, l9, l10, l11, l12, l13, l14, l15] := by
  rcases l with _ | ⟨l0, _ | ⟨l1, _ | ⟨l2, _ | ⟨l3, _ | ⟨l4, _ | ⟨l5, _ | ⟨l6, _ | ⟨l7, _ | ⟨l8, _ | ⟨l9, _ | ⟨l10, _ | ⟨l11, _ | ⟨l12, _ | ⟨l13, _ | ⟨l14, _ | ⟨l15, _ | ⟨x, r⟩⟩⟩⟩⟩⟩⟩⟩⟩⟩⟩⟩⟩⟩⟩⟩⟩
  all_goals first
    | exact ⟨_, _, _, _, _, _, _, _, _, _, _, _, _, _, _, _, rfl⟩
    | (simp only [List.length_cons, List.length_nil] at h; omega)

theorem insertSync_sixteen (l more : List Bool) (h : l.length = 16) :
    insertSync 0 (l ++ more) = l ++ true :: insertSync 0 more := by
  obtain ⟨l0, l1, l2, l3, l4, l5, l6, l7, l8, l9, l10, l11, l12, l13, l14, l15, rfl⟩ :=
    list_length_sixteen l h
  simp [insertSync]



theorem processOOTXBit_idle_zero (N : Nat) (s : LighthouseSensor) (w : Nat)
    (hv : ootxBitValue w = false) (hp : s.payloadReadMask = 0) (hm : s.readInfoBlockMask = 0)
    (hz : s.zeroCount + 1 ≠ 17) :
    processOOTXBit N s w = some
      { s with syncBitCounter := s.syncBitCounter + 1, zeroCount := s.zeroCount + 1 } := by
  unfold processOOTXBit
  have h2 : ¬ (s.syncBitCounter + 1 = 17 ∧ (s.payloadReadMask ≠ 0 ∨ s.readInfoBlockMask ≠ 0)) := by
    rw [hp, hm]
    simp
  simp only [hv, Bool.not_false, if_true, if_neg hz, if_neg h2]
  unfold processOOTXData
  dsimp only
  rw [if_neg (by rw [hp]; decide), if_neg (by rw [hm]; decide)]

theorem processOOTXBit_seventeenth_zero (N : Nat) (s : LighthouseSensor) (w : Nat)
    (hv : ootxBitValue w = false) (hz : s.zeroCount + 1 = 17) :
    processOOTXBit N s w = some
      { s with readInfoBlockMask := 0, zeroCount := 0, syncBitCounter := 16,
               payloadReadMask := 0x80 } := by
  unfold processOOTXBit
  simp only [hv, Bool.not_false, if_true, if_pos hz]

theorem feedOOTX_idle_zeros (N : Nat) (n : Nat) :
    ∀ s : LighthouseSensor, s.payloadReadMask = 0 → s.readInfoBlockMask = 0 →
      s.zeroCount + n < 17 →
      feedOOTX N s ((List.replicate n false).map widthOfBit) = some
        { s with syncBitCounter := s.syncBitCounter + n, zeroCount := s.zeroCount + n } := by
  induction n with
  | zero => intro s _ _ _; rfl
  | succ n ih =>
    intro s hp hm hz
    rw [List.replicate_succ, List.map_cons, feedOOTX,
      processOOTXBit_idle_zero N s _ (ootxBitValue_widthOfBit false) hp hm (by omega),
      Option.some_bind,
      ih { s with syncBitCounter := s.syncBitCounter + 1, zeroCount := s.zeroCount + 1 } hp hm
        (by show s.zeroCount + 1 + n < 17; omega)]
    congr 2
    · show s.zeroCount + 1 + n = s.zeroCount + (n + 1); omega
    · show s.syncBitCounter + 1 + n = s.syncBitCounter + (n + 1); omega

/-- Seventeen zero bits and the sync bit take a freshly constructed decoder to
the start of the length field. -/
theorem feedOOTX_frame_start (N : Nat) (blk : List Nat) (c0 c1 : SensorCycleData) (hN : 0 < N) :
    feedOOTX N (LighthouseSensor.init blk c0 c1)
        ((List.replicate 17 false ++ [true]).map widthOfBit) =
      some { LighthouseSensor.init blk c0 c1 with payloadReadMask := 0x80 } := by
  have e : List.replicate 17 false ++ [true] = List.replicate 16 false ++ [false, true] := by
    decide
  rw [e, List.map_append, feedOOTX_append,
    feedOOTX_idle_zeros N 16 (LighthouseSensor.init blk c0 c1) rfl rfl
      (by show 0 + 16 < 17; decide), Option.some_bind]
  simp only [List.map_cons, List.map_nil, feedOOTX]
  rw [processOOTXBit_seventeenth_zero N _ _ (ootxBitValue_widthOfBit false) rfl, Option.some_bind,
    processOOTXBit_sync N _ _ rfl (ootxBitValue_widthOfBit true), Option.some_bind]
  have hN0 : ¬ (0 = N) := by omega
  show some (if 0 = N then _ else _) = _
  rw [if_neg hN0]
  rfl


/-- The sixteen bits that follow the sync bit of a frame start are stored in
`payloadLength`; the info block is started exactly when the result is `N`. -/
theorem feedOOTX_length_field (N : Nat) (s : LighthouseSensor) (lenBits : List Bool)
    (hl : lenBits.length = 16) (hm : s.payloadReadMask = 0x80)
    (hsbc : s.syncBitCounter = 0) (hz : s.zeroCount = 0) :
    ∃ t, feedOOTX N s (lenBits.map widthOfBit) = some t ∧
      t.payloadLength = assemble s.payloadLength payloadMasks lenBits ∧
      t.payloadReadMask = 0 ∧ t.syncBitCounter = 16 ∧ t.zeroCount ≤ 16 ∧
      t.baseStationInfoBlock = s.baseStationInfoBlock ∧
      (t.payloadLength = N → t.readInfoBlockIndex = 0 ∧ t.readInfoBlockMask = 0x80) ∧
      (t.payloadLength ≠ N → t.readInfoBlockIndex = s.readInfoBlockIndex ∧
        t.readInfoBlockMask = s.readInfoBlockMask) := by
  have hrun := feedOOTX_data_run N lenBits s (by rw [hsbc, hl]) (by rw [hsbc, hz])
  have hzr := zeroRun_le lenBits s.zeroCount
  rw [hz, hl] at hzr
  obtain ⟨l0, l1, l2, l3, l4, l5, l6, l7, l8, l9, l10, l11, l12, l13, l14, l15, rfl⟩ :=
    list_length_sixteen lenBits hl
  rw [feedData_payload N s l0 l1 l2 l3 l4 l5 l6 l7 l8 l9 l10 l11 l12 l13 l14 l15 hm] at hrun
  rw [hrun]
  by_cases hN : assemble s.payloadLength payloadMasks
      [l0, l1, l2, l3, l4, l5, l6, l7, l8, l9, l10, l11, l12, l13, l14, l15] = N
  · rw [if_pos hN]
    refine ⟨_, rfl, rfl, rfl, ?_, ?_, rfl, ?_, ?_⟩
    · show s.syncBitCounter + _ = 16
      rw [hsbc]
      rfl
    · show zeroRun s.zeroCount _ ≤ 16
      rw [hz]
      omega
    · intro _
      exact ⟨rfl, rfl⟩
    · intro h
      exact absurd hN h
  · rw [if_neg hN]
    refine ⟨_, rfl, rfl, rfl, ?_, ?_, rfl, ?_, ?_⟩
    · show s.syncBitCounter + _ = 16
      rw [hsbc]
      rfl
    · show zeroRun s.zeroCount _ ≤ 16
      rw [hz]
      omega
    · intro h
      exact absurd h hN
    · intro _
      exact ⟨rfl, rfl⟩

theorem frameBits_take (lenBits : List Bool) (block : List Nat) (hl : lenBits.length = 16) :
    (frameBits lenBits block).take 34 = List.replicate 17 false ++ [true] ++ lenBits ∧
    frameBits lenBits block = (List.replicate 17 false ++ [true]) ++
      (lenBits ++ (true :: insertSync 0 (block.flatMap bitsOfByte))) := by
  unfold frameBits
  rw [insertSync_sixteen lenBits _ hl]
  constructor
  · rw [← List.append_assoc]
    apply List.take_left'
    simp [hl]
  · rfl


/-! ## Claims on the OOTX decoder -/

/-- C9: a freshly constructed decoder that is fed the pulse widths of 17 zero
bits, the sync bit, a 16-bit length field it decodes to
BASE_STATION_INFO_BLOCK_SIZE and then the bits of a byte block B (most
significant bit first in each byte), with a sync bit after every 16 data bits,
ends with baseStationInfoBlock equal to B, whatever bytes the buffer held. -/
theorem ootx_roundtrip (N : Nat) (blk B : List Nat) (c0 c1 : SensorCycleData)
    (lenBits : List Bool) (ws : List Nat)
    (hN : 0 < N) (hblk : blk.length = N) (hB : B.length = N)
    (hbytes : ∀ b ∈ blk, b < 256) (hBbytes : ∀ x ∈ B, x < 256)
    (hl : lenBits.length = 16)
    (hws : ws.map ootxBitValue = frameBits lenBits B)
    (hlen : (feedOOTX N (LighthouseSensor.init blk c0 c1) (ws.take 34)).map (·.payloadLength)
      = some N) :
    ∃ t, feedOOTX N (LighthouseSensor.init blk c0 c1) ws = some t ∧
      t.baseStationInfoBlock = B := by
  obtain ⟨htake, hframe⟩ := frameBits_take lenBits B hl
  obtain ⟨t, ht, -, p2, p3, -, p5, p6, -⟩ := feedOOTX_length_field N
    { LighthouseSensor.init blk c0 c1 with payloadReadMask := 0x80 } lenBits hl rfl rfl rfl
  have hpl : t.payloadLength = N := by
    have e : (ws.take 34).map ootxBitValue = List.replicate 17 false ++ [true] ++ lenBits := by
      rw [← htake, ← hws]
      simp only [List.map_take]
    rw [feedOOTX_eq_bits N (ws.take 34), e, List.map_append, feedOOTX_append, feedOOTX_frame_start N blk c0 c1 hN,
      Option.some_bind, ht] at hlen
    simpa using hlen
  obtain ⟨i0, m0⟩ := p6 hpl
  rw [feedOOTX_eq_bits N ws, hws, hframe, List.map_append, feedOOTX_append,
    feedOOTX_frame_start N blk c0 c1 hN, Option.some_bind, List.map_append, feedOOTX_append,
    ht, Option.some_bind, List.map_cons, feedOOTX,
    processOOTXBit_sync N t _ p3 (ootxBitValue_widthOfBit true), Option.some_bind,
    if_neg (by rw [i0]; omega)]
  obtain ⟨u, hu, u1⟩ := feedOOTX_block N B { t with syncBitCounter := 0, zeroCount := 0 } 0
    (Or.inl rfl) p2 rfl (Nat.le_refl _)
    (by show t.readInfoBlockIndex + B.length = N; rw [i0, hB]; omega)
    (by show t.baseStationInfoBlock.length = N; rw [p5]; exact hblk)
    (fun _ => m0)
    (by show ∀ b ∈ t.baseStationInfoBlock, b < 256
        rw [p5]; exact hbytes)
    hBbytes
  refine ⟨u, hu, ?_⟩
  rw [u1]
  show t.baseStationInfoBlock.take t.readInfoBlockIndex ++ B = B
  rw [i0]
  simp

theorem ootx_roundtrip_witness :
    ((0 < 2 ∧ [0xFF, 0x00].length = 2 ∧ [0xA5, 0x3C].length = 2 ∧
      (∀ b ∈ [0xFF, 0x00], b < 256) ∧ (∀ x ∈ [0xA5, 0x3C], x < 256) ∧
      sampleLengthBits.length = 16 ∧
      sampleFrameWidths.map ootxBitValue = frameBits sampleLengthBits [0xA5, 0x3C] ∧
      (feedOOTX 2 (LighthouseSensor.init [0xFF, 0x00] SensorCycleData.zero SensorCycleData.zero)
        (sampleFrameWidths.take 34)).map (·.payloadLength) = some 2) ∧
    ∃ t, feedOOTX 2 (LighthouseSensor.init [0xFF, 0x00] SensorCycleData.zero SensorCycleData.zero)
        sampleFrameWidths = some t ∧
      t.baseStationInfoBlock = [0xA5, 0x3C]) :=
  ⟨⟨by decide, rfl, rfl, by decide, by decide, rfl, by decide, by decide⟩,
    ootx_roundtrip 2 [0xFF, 0x00] [0xA5, 0x3C] SensorCycleData.zero SensorCycleData.zero
      sampleLengthBits sampleFrameWidths (by decide) rfl rfl (by decide) (by decide) rfl
      (by decide) (by decide)⟩


/-- Bit positions written by the sixteen length-field masks: the first eight
bits fill bits 7..0, the next eight fill bits 15..8. -/
theorem assemble_payloadMasks_testBit (x : Nat) (lenBits : List Bool)
    (hl : lenBits.length = 16) :
    (∀ i, i < 8 → (assemble x payloadMasks lenBits).testBit (7 - i) = lenBits.getD i false) ∧
    (∀ i, 8 ≤ i → i < 16 →
      (assemble x payloadMasks lenBits).testBit (23 - i) = lenBits.getD i false) := by
  obtain ⟨l0, l1, l2, l3, l4, l5, l6, l7, l8, l9, l10, l11, l12, l13, l14, l15, rfl⟩ :=
    list_length_sixteen lenBits hl
  rw [payloadMasks_eq]
  simp only [assemble, testBit_storeBit]
  constructor
  · intro i hi
    interval_cases i <;> simp
  · intro i h8 hi
    interval_cases i <;> simp

/-- C10, as stated, fails: after a frame start and its sync bit, the length
bits 1,0,0,...,0 leave payloadLength = 0x0080, so the first bit received is bit
7 of payloadLength, not bit 15. -/
theorem payloadLength_msb_first_counterexample :
    ¬ (∀ (N : Nat) (s : LighthouseSensor) (lenBits : List Bool),
        lenBits.length = 16 → s.payloadReadMask = 0x80 → s.readInfoBlockMask = 0 →
        s.syncBitCounter = 0 → s.zeroCount = 0 →
        ∀ t, feedOOTX N s (lenBits.map widthOfBit) = some t →
          ∀ i, i < 16 → t.payloadLength.testBit (15 - i) = lenBits.getD i false) := by
  intro h
  have h1 := h 2
    { LighthouseSensor.init [0, 0] SensorCycleData.zero SensorCycleData.zero with
      payloadReadMask := 0x80 }
    (true :: List.replicate 15 false) rfl rfl rfl rfl rfl
    { LighthouseSensor.init [0, 0] SensorCycleData.zero SensorCycleData.zero with
      payloadLength := 0x80, syncBitCounter := 16, zeroCount := 15 }
    (by decide) 0 (by decide)
  revert h1
  decide

/-- The sixteen bits after the sync bit of a frame start: where they land in
payloadLength, and when info-block reading begins. -/
theorem feedOOTX_length_bits (N : Nat) (s : LighthouseSensor) (ws : List Nat)
    (hl : ws.length = 16) (hm : s.payloadReadMask = 0x80) (hi : s.readInfoBlockMask = 0)
    (hsbc : s.syncBitCounter = 0) (hz : s.zeroCount = 0) :
    ∃ t, feedOOTX N s ws = some t ∧
      (∀ i, i < 8 → t.payloadLength.testBit (7 - i) = (ws.map ootxBitValue).getD i false) ∧
      (∀ i, 8 ≤ i → i < 16 →
        t.payloadLength.testBit (23 - i) = (ws.map ootxBitValue).getD i false) ∧
      t.payloadReadMask = 0 ∧
      (t.readInfoBlockMask ≠ 0 ↔ t.payloadLength = N) := by
  have hl2 : (ws.map ootxBitValue).length = 16 := by rw [List.length_map]; exact hl
  obtain ⟨t, ht, p1, p2, -, -, -, p6, p7⟩ :=
    feedOOTX_length_field N s (ws.map ootxBitValue) hl2 hm hsbc hz
  obtain ⟨a1, a2⟩ := assemble_payloadMasks_testBit s.payloadLength (ws.map ootxBitValue) hl2
  refine ⟨t, ?_, ?_, ?_, p2, ?_⟩
  · rw [feedOOTX_eq_bits]
    exact ht
  · rw [p1]
    exact a1
  · rw [p1]
    exact a2
  · by_cases h : t.payloadLength = N
    · rw [(p6 h).2]
      simp [h]
    · rw [(p7 h).2, hi]
      simp [h]

/-- C10, amended: after a frame start (the 17th consecutive zero bit) and its
sync bit, processOOTXBit assembles the next 16 data bits into payloadLength low
byte first, each byte most significant bit first: the i-th bit received becomes
bit 7 - i for i = 0..7 and bit 23 - i for i = 8..15; after the 16th bit
payloadReadMask is 0 and info-block reading has begun (readInfoBlockMask is
nonzero) exactly when the resulting value equals BASE_STATION_INFO_BLOCK_SIZE. -/
theorem payloadLength_low_byte_first (N : Nat) (s : LighthouseSensor) (w0 w1 : Nat)
    (ws : List Nat)
    (hz : s.zeroCount = 16) (h0 : ootxBitValue w0 = false) (h1 : ootxBitValue w1 = true)
    (hl : ws.length = 16) :
    ∃ t, feedOOTX N s (w0 :: w1 :: ws) = some t ∧
      (∀ i, i < 8 → t.payloadLength.testBit (7 - i) = (ws.map ootxBitValue).getD i false) ∧
      (∀ i, 8 ≤ i → i < 16 →
        t.payloadLength.testBit (23 - i) = (ws.map ootxBitValue).getD i false) ∧
      t.payloadReadMask = 0 ∧
      (t.readInfoBlockMask ≠ 0 ↔ t.payloadLength = N) := by
  rw [feedOOTX, processOOTXBit_seventeenth_zero N s w0 h0 (by rw [hz]), Option.some_bind,
    feedOOTX, processOOTXBit_sync N _ w1 rfl h1, Option.some_bind]
  split
  · exact feedOOTX_length_bits N _ ws hl rfl rfl rfl rfl
  · exact feedOOTX_length_bits N _ ws hl rfl rfl rfl rfl

theorem payloadLength_low_byte_first_witness :
    (({ LighthouseSensor.init [0, 0] SensorCycleData.zero SensorCycleData.zero with
          zeroCount := 16 } : LighthouseSensor).zeroCount = 16 ∧
      ootxBitValue 3000 = false ∧ ootxBitValue 4000 = true ∧
      (sampleLengthBits.map widthOfBit).length = 16) ∧
    ∃ t, feedOOTX 2
        { LighthouseSensor.init [0, 0] SensorCycleData.zero SensorCycleData.zero with
          zeroCount := 16 }
        (3000 :: 4000 :: sampleLengthBits.map widthOfBit) = some t ∧
      (∀ i, i < 8 → t.payloadLength.testBit (7 - i) =
        ((sampleLengthBits.map widthOfBit).map ootxBitValue).getD i false) ∧
      (∀ i, 8 ≤ i → i < 16 → t.payloadLength.testBit (23 - i) =
        ((sampleLengthBits.map widthOfBit).map ootxBitValue).getD i false) ∧
      t.payloadReadMask = 0 ∧
      (t.readInfoBlockMask ≠ 0 ↔ t.payloadLength = 2) :=
  ⟨⟨rfl, by decide, by decide, rfl⟩,
    payloadLength_low_byte_first 2
      { LighthouseSensor.init [0, 0] SensorCycleData.zero SensorCycleData.zero with
        zeroCount := 16 }
      3000 4000 (sampleLengthBits.map widthOfBit) rfl (by decide) (by decide) rfl⟩


/-! ## Aborted and foreign frames -/

/-- With both read masks clear, a bit that does not complete a run of 17 zeros
touches neither the length field nor the info block. -/
theorem processOOTXBit_idle (N : Nat) (s : LighthouseSensor) (w : Nat)
    (hp : s.payloadReadMask = 0) (hm : s.readInfoBlockMask = 0)
    (hz : ootxBitValue w = false → s.zeroCount + 1 ≠ 17) :
    ∃ t, processOOTXBit N s w = some t ∧ t.payloadReadMask = 0 ∧ t.readInfoBlockMask = 0 ∧
      t.baseStationInfoBlock = s.baseStationInfoBlock ∧ t.payloadLength = s.payloadLength ∧
      t.zeroCount = (if ootxBitValue w then 0 else s.zeroCount + 1) := by
  cases hv : ootxBitValue w
  · rw [processOOTXBit_idle_zero N s w hv hp hm (hz hv)]
    exact ⟨_, rfl, hp, hm, rfl, rfl, rfl⟩
  · unfold processOOTXBit
    simp only [hv, Bool.not_true, Bool.false_eq_true, if_false, if_true]
    by_cases h17 : s.syncBitCounter + 1 = 17
    · rw [if_pos h17]
      by_cases hi : s.readInfoBlockIndex = N
      · rw [if_pos hi]
        exact ⟨_, rfl, hp, hm, rfl, rfl, rfl⟩
      · rw [if_neg hi]
        exact ⟨_, rfl, hp, hm, rfl, rfl, rfl⟩
    · rw [if_neg h17]
      unfold processOOTXData
      dsimp only
      rw [if_neg (by rw [hp]; decide), if_neg (by rw [hm]; decide)]
      exact ⟨_, rfl, hp, hm, rfl, rfl, rfl⟩

/-- While no run of 17 zeros is completed, a decoder with both read masks clear
leaves the length field and the info block as they are. -/
theorem feedOOTX_idle (N : Nat) (ws : List Nat) :
    ∀ s : LighthouseSensor, s.payloadReadMask = 0 → s.readInfoBlockMask = 0 →
      noFrameStart s.zeroCount (ws.map ootxBitValue) = true →
      ∃ u, feedOOTX N s ws = some u ∧ u.payloadReadMask = 0 ∧ u.readInfoBlockMask = 0 ∧
        u.baseStationInfoBlock = s.baseStationInfoBlock ∧ u.payloadLength = s.payloadLength := by
  induction ws with
  | nil => intro s hp hm _; exact ⟨s, rfl, hp, hm, rfl, rfl⟩
  | cons w ws ih =>
    intro s hp hm hn
    rw [List.map_cons, noFrameStart] at hn
    have hz : ootxBitValue w = false → s.zeroCount + 1 ≠ 17 := by
      intro hv
      rw [hv] at hn
      simp only [Bool.false_eq_true, if_false, Bool.and_eq_true, decide_eq_true_eq] at hn
      omega
    obtain ⟨t, ht, tp, tm, tb, tl, tz⟩ := processOOTXBit_idle N s w hp hm hz
    have hn2 : noFrameStart t.zeroCount (ws.map ootxBitValue) = true := by
      rw [tz]
      cases hv : ootxBitValue w
      · rw [hv] at hn
        simp only [Bool.false_eq_true, if_false, Bool.and_eq_true, decide_eq_true_eq] at hn
        simpa using hn.2
      · rw [hv] at hn
        simpa using hn
    obtain ⟨u, hu, up, um, ub, ul⟩ := ih t tp tm hn2
    refine ⟨u, ?_, up, um, ub.trans tb, ul.trans tl⟩
    rw [feedOOTX, ht, Option.some_bind]
    exact hu

/-- C11: in a state that is reading the payload length or the info block with
syncBitCounter = 16, a 0 bit that does not complete a run of 17 zeros aborts the
frame: payloadReadMask, readInfoBlockMask and syncBitCounter become 0, and the
bits that follow change neither baseStationInfoBlock nor payloadLength (and
leave both masks 0) as long as they do not complete a run of 17 consecutive
zeros. -/
theorem missed_sync_bit_aborts (N : Nat) (s : LighthouseSensor) (w : Nat) (ws : List Nat)
    (hread : s.payloadReadMask ≠ 0 ∨ s.readInfoBlockMask ≠ 0)
    (hk : s.syncBitCounter = 16) (hv : ootxBitValue w = false) (hz : s.zeroCount + 1 < 17)
    (hws : noFrameStart (s.zeroCount + 1) (ws.map ootxBitValue) = true) :
    ∃ t, processOOTXBit N s w = some t ∧
      t.payloadReadMask = 0 ∧ t.readInfoBlockMask = 0 ∧ t.syncBitCounter = 0 ∧
      t.baseStationInfoBlock = s.baseStationInfoBlock ∧ t.payloadLength = s.payloadLength ∧
      ∃ u, feedOOTX N t ws = some u ∧
        u.baseStationInfoBlock = s.baseStationInfoBlock ∧ u.payloadLength = s.payloadLength ∧
        u.payloadReadMask = 0 ∧ u.readInfoBlockMask = 0 := by
  have h17 : ¬ (s.zeroCount + 1 = 17) := by omega
  have hab : s.syncBitCounter + 1 = 17 ∧ (s.payloadReadMask ≠ 0 ∨ s.readInfoBlockMask ≠ 0) :=
    ⟨by rw [hk], hread⟩
  have e : processOOTXBit N s w = some
      { s with syncBitCounter := 0, zeroCount := s.zeroCount + 1, payloadReadMask := 0,
               readInfoBlockMask := 0 } := by
    unfold processOOTXBit
    simp only [hv, Bool.not_false, if_true, if_neg h17, if_pos hab]
  obtain ⟨u, hu, up, um, ub, ul⟩ := feedOOTX_idle N ws
    { s with syncBitCounter := 0, zeroCount := s.zeroCount + 1, payloadReadMask := 0,
             readInfoBlockMask := 0 } rfl rfl hws
  exact ⟨_, e, rfl, rfl, rfl, rfl, rfl, u, hu, ub, ul, up, um⟩

theorem missed_sync_bit_aborts_witness :
    ((sampleMidBlock.payloadReadMask ≠ 0 ∨ sampleMidBlock.readInfoBlockMask ≠ 0) ∧
      sampleMidBlock.syncBitCounter = 16 ∧ ootxBitValue 3000 = false ∧
      sampleMidBlock.zeroCount + 1 < 17 ∧
      noFrameStart (sampleMidBlock.zeroCount + 1)
        ([4000, 3000, 4100, 4200, 3100].map ootxBitValue) = true) ∧
    ∃ t, processOOTXBit 3 sampleMidBlock 3000 = some t ∧
      t.payloadReadMask = 0 ∧ t.readInfoBlockMask = 0 ∧ t.syncBitCounter = 0 ∧
      t.baseStationInfoBlock = sampleMidBlock.baseStationInfoBlock ∧
      t.payloadLength = sampleMidBlock.payloadLength ∧
      ∃ u, feedOOTX 3 t [4000, 3000, 4100, 4200, 3100] = some u ∧
        u.baseStationInfoBlock = sampleMidBlock.baseStationInfoBlock ∧
        u.payloadLength = sampleMidBlock.payloadLength ∧
        u.payloadReadMask = 0 ∧ u.readInfoBlockMask = 0 :=
  ⟨⟨by decide, rfl, by decide, by decide, by decide⟩,
    missed_sync_bit_aborts 3 sampleMidBlock 3000 [4000, 3000, 4100, 4200, 3100]
      (by decide) rfl (by decide) (by decide) (by decide)⟩


/-- The zero-run count after the sixteen bits of the length field. -/
theorem feedOOTX_length_zeroCount (N : Nat) (s t : LighthouseSensor) (lenBits : List Bool)
    (hl : lenBits.length = 16) (hsbc : s.syncBitCounter = 0) (hz : s.zeroCount = 0)
    (ht : feedOOTX N s (lenBits.map widthOfBit) = some t) :
    t.zeroCount = zeroRun 0 lenBits := by
  have hrun := feedOOTX_data_run N lenBits s (by rw [hsbc, hl]) (by rw [hsbc, hz])
  rw [hrun] at ht
  cases hf : feedData N s lenBits with
  | none => rw [hf] at ht; simp at ht
  | some u =>
    rw [hf, Option.map_some', Option.some.injEq] at ht
    rw [← ht, hz]

/-- The state after the frame start, its sync bit and the sixteen length bits,
when the decoded length is not the size of the info block. -/
theorem feedOOTX_foreign_length (N : Nat) (s : LighthouseSensor) (ws : List Nat)
    (hl : ws.length = 16) (hm : s.payloadReadMask = 0x80) (hi : s.readInfoBlockMask = 0)
    (hsbc : s.syncBitCounter = 0) (hz : s.zeroCount = 0)
    (hlen : (feedOOTX N s ws).map (·.payloadLength) ≠ some N) :
    ∃ t, feedOOTX N s ws = some t ∧ t.payloadReadMask = 0 ∧ t.readInfoBlockMask = 0 ∧
      t.baseStationInfoBlock = s.baseStationInfoBlock ∧
      t.zeroCount = zeroRun 0 (ws.map ootxBitValue) := by
  have hl2 : (ws.map ootxBitValue).length = 16 := by rw [List.length_map]; exact hl
  obtain ⟨t, ht, -, p2, -, -, p5, -, p7⟩ :=
    feedOOTX_length_field N s (ws.map ootxBitValue) hl2 hm hsbc hz
  have hz2 := feedOOTX_length_zeroCount N s t (ws.map ootxBitValue) hl2 hsbc hz ht
  rw [← feedOOTX_eq_bits] at ht
  have hne : t.payloadLength ≠ N := by
    intro h
    apply hlen
    rw [ht, Option.map_some', h]
  exact ⟨t, ht, p2, by rw [(p7 hne).2, hi], p5, hz2⟩

/-- C12: a frame (frame start, sync bit, sixteen length bits) whose decoded
payload length differs from BASE_STATION_INFO_BLOCK_SIZE leaves both
payloadReadMask and readInfoBlockMask 0 after the 16th length bit, and the bits
that follow do not modify baseStationInfoBlock as long as they do not complete
a run of 17 consecutive zeros. -/
theorem foreign_length_discarded (N : Nat) (s : LighthouseSensor) (w0 w1 : Nat)
    (ws rest : List Nat)
    (hz : s.zeroCount = 16) (h0 : ootxBitValue w0 = false) (h1 : ootxBitValue w1 = true)
    (hl : ws.length = 16)
    (hlen : (feedOOTX N s (w0 :: w1 :: ws)).map (·.payloadLength) ≠ some N)
    (hrest : noFrameStart (zeroRun 0 (ws.map ootxBitValue)) (rest.map ootxBitValue) = true) :
    ∃ t, feedOOTX N s (w0 :: w1 :: ws) = some t ∧
      t.payloadReadMask = 0 ∧ t.readInfoBlockMask = 0 ∧
      t.baseStationInfoBlock = s.baseStationInfoBlock ∧
      ∃ u, feedOOTX N t rest = some u ∧
        u.baseStationInfoBlock = s.baseStationInfoBlock ∧
        u.payloadReadMask = 0 ∧ u.readInfoBlockMask = 0 := by
  rw [feedOOTX, processOOTXBit_seventeenth_zero N s w0 h0 (by rw [hz]), Option.some_bind,
    feedOOTX, processOOTXBit_sync N _ w1 rfl h1, Option.some_bind] at hlen ⊢
  split at hlen
  · obtain ⟨t, ht, tp, tm, tb, tz⟩ := feedOOTX_foreign_length N _ ws hl rfl rfl rfl rfl hlen
    obtain ⟨u, hu, up, um, ub, -⟩ := feedOOTX_idle N rest t tp tm (by rw [tz]; exact hrest)
    rw [if_pos (by assumption)]
    exact ⟨t, ht, tp, tm, tb, u, hu, ub.trans tb, up, um⟩
  · obtain ⟨t, ht, tp, tm, tb, tz⟩ := feedOOTX_foreign_length N _ ws hl rfl rfl rfl rfl hlen
    obtain ⟨u, hu, up, um, ub, -⟩ := feedOOTX_idle N rest t tp tm (by rw [tz]; exact hrest)
    rw [if_neg (by assumption)]
    exact ⟨t, ht, tp, tm, tb, u, hu, ub.trans tb, up, um⟩

theorem foreign_length_discarded_witness :
    (sampleSixteenZeros.zeroCount = 16 ∧ ootxBitValue 3000 = false ∧ ootxBitValue 4000 = true ∧
      sampleForeignLength.length = 16 ∧
      (feedOOTX 2 sampleSixteenZeros (3000 :: 4000 :: sampleForeignLength)).map
        (·.payloadLength) ≠ some 2 ∧
      noFrameStart (zeroRun 0 (sampleForeignLength.map ootxBitValue))
        ([4000, 3000, 4000, 4000, 3000, 3000].map ootxBitValue) = true) ∧
    ∃ t, feedOOTX 2 sampleSixteenZeros (3000 :: 4000 :: sampleForeignLength) = some t ∧
      t.payloadReadMask = 0 ∧ t.readInfoBlockMask = 0 ∧
      t.baseStationInfoBlock = sampleSixteenZeros.baseStationInfoBlock ∧
      ∃ u, feedOOTX 2 t [4000, 3000, 4000, 4000, 3000, 3000] = some u ∧
        u.baseStationInfoBlock = sampleSixteenZeros.baseStationInfoBlock ∧
        u.payloadReadMask = 0 ∧ u.readInfoBlockMask = 0 :=
  ⟨⟨rfl, by decide, by decide, rfl, by decide, by decide⟩,
    foreign_length_discarded 2 sampleSixteenZeros 3000 4000 sampleForeignLength
      [4000, 3000, 4000, 4000, 3000, 3000] rfl (by decide) (by decide) rfl (by decide)
      (by decide)⟩


/-! ## The end of the info block -/

/-- The call that stores the last bit of the last info-block byte. -/
theorem processOOTXBit_final_bit (N : Nat) (s : LighthouseSensor) (w : Nat)
    (hp : s.payloadReadMask = 0) (hm : s.readInfoBlockMask = 1)
    (hidx : s.readInfoBlockIndex + 1 = N)
    (hb : s.readInfoBlockIndex < s.baseStationInfoBlock.length)
    (hk : s.syncBitCounter < 16) (hz : s.zeroCount ≤ s.syncBitCounter) :
    ∃ t, processOOTXBit N s w = some t ∧
      t.readInfoBlockIndex = N ∧ t.readInfoBlockMask = 0 ∧ t.payloadReadMask = 0 ∧
      t.receivedLighthousePosition = s.receivedLighthousePosition ∧
      t.poseSource = s.poseSource ∧
      t.baseStationInfoBlock = s.baseStationInfoBlock.set s.readInfoBlockIndex
        (storeBit (s.baseStationInfoBlock.getD s.readInfoBlockIndex 0) 1 (ootxBitValue w)) ∧
      t.syncBitCounter = s.syncBitCounter + 1 ∧ t.zeroCount ≤ t.syncBitCounter := by
  rw [processOOTXBit_data N s w hk (by omega)]
  unfold processOOTXData
  dsimp only
  have hx : s.baseStationInfoBlock[s.readInfoBlockIndex]? =
      some (s.baseStationInfoBlock.getD s.readInfoBlockIndex 0) := by
    rw [List.getD_eq_getElem?_getD, List.getElem?_eq_getElem hb]
    rfl
  have hlt : ¬ (s.readInfoBlockIndex + 1 < N) := by omega
  rw [if_neg (by rw [hp]; decide), if_pos (by rw [hm]; decide), hx]
  dsimp only
  rw [if_pos (by rw [hm]; decide), if_neg hlt]
  refine ⟨_, rfl, hidx, rfl, hp, rfl, rfl, ?_, rfl, ?_⟩
  · show _ = _
    rw [hm]
  · show (if ootxBitValue w = true then 0 else s.zeroCount + 1) ≤ s.syncBitCounter + 1
    split <;> omega

/-- Data bits received while both read masks are clear only move the counters. -/
theorem feedOOTX_idle_run (N : Nat) (ws : List Nat) :
    ∀ s : LighthouseSensor, s.payloadReadMask = 0 → s.readInfoBlockMask = 0 →
      s.syncBitCounter + ws.length ≤ 16 → s.zeroCount ≤ s.syncBitCounter →
      ∃ u, feedOOTX N s ws = some u ∧ u.syncBitCounter = s.syncBitCounter + ws.length ∧
        u.payloadReadMask = 0 ∧ u.readInfoBlockMask = 0 ∧
        u.readInfoBlockIndex = s.readInfoBlockIndex ∧
        u.baseStationInfoBlock = s.baseStationInfoBlock ∧
        u.receivedLighthousePosition = s.receivedLighthousePosition ∧
        u.poseSource = s.poseSource := by
  induction ws with
  | nil => intro s hp hm _ _; exact ⟨s, rfl, rfl, hp, hm, rfl, rfl, rfl, rfl⟩
  | cons w ws ih =>
    intro s hp hm hk hz
    simp only [List.length_cons] at hk
    have e : processOOTXBit N s w = some
        { s with syncBitCounter := s.syncBitCounter + 1,
                 zeroCount := if ootxBitValue w then 0 else s.zeroCount + 1 } := by
      rw [processOOTXBit_data N s w (by omega) (by omega)]
      unfold processOOTXData
      dsimp only
      rw [if_neg (by rw [hp]; decide), if_neg (by rw [hm]; decide)]
    obtain ⟨u, hu, u1, u2, u3, u4, u5, u6, u7⟩ := ih
      { s with syncBitCounter := s.syncBitCounter + 1,
               zeroCount := if ootxBitValue w then 0 else s.zeroCount + 1 } hp hm
      (by show s.syncBitCounter + 1 + ws.length ≤ 16; omega)
      (by show (if ootxBitValue w = true then 0 else s.zeroCount + 1) ≤ s.syncBitCounter + 1
          split <;> omega)
    refine ⟨u, ?_, ?_, u2, u3, u4, u5, u6, u7⟩
    · rw [feedOOTX, e, Option.some_bind]
      exact hu
    · rw [u1]
      show s.syncBitCounter + 1 + ws.length = s.syncBitCounter + (ws.length + 1)
      omega

/-- C13, as stated, fails: the call that stores the final bit of the final
info-block byte returns with receivedLighthousePosition still false and
readInfoBlockIndex equal to BASE_STATION_INFO_BLOCK_SIZE, not 0. -/
theorem final_bit_computes_pose_counterexample :
    ¬ (∀ (N : Nat) (s t : LighthouseSensor) (w : Nat),
        s.payloadReadMask = 0 → s.readInfoBlockMask = 1 → s.readInfoBlockIndex + 1 = N →
        s.readInfoBlockIndex < s.baseStationInfoBlock.length →
        processOOTXBit N s w = some t →
        t.receivedLighthousePosition = true ∧ t.readInfoBlockIndex = 0 ∧
          t.payloadReadMask = 0 ∧ t.readInfoBlockMask = 0) := by
  intro h
  have h1 := h 3 sampleFinalBit
    { sampleFinalBit with
      syncBitCounter := 8, zeroCount := 0, readInfoBlockIndex := 3, readInfoBlockMask := 0,
      baseStationInfoBlock := [0xA5, 0x3C, 0x7F] }
    4000 rfl rfl rfl (by decide) (by decide)
  revert h1
  decide

/-- C13, amended: the call of processOOTXBit that stores the final bit of the
final info-block byte leaves readInfoBlockIndex equal to
BASE_STATION_INFO_BLOCK_SIZE with both read masks 0 and does not invoke
calculateLighthousePosition (receivedLighthousePosition and the pose are as
before); the completed block is fed to calculateLighthousePosition by the later
call that receives a 1 at the next expected sync position, and on return from
that call receivedLighthousePosition is true, readInfoBlockIndex is 0 and both
read masks are 0. -/
theorem final_bit_then_sync_computes_pose (N : Nat) (s : LighthouseSensor) (w w1 : Nat)
    (mid : List Nat)
    (hp : s.payloadReadMask = 0) (hm : s.readInfoBlockMask = 1)
    (hidx : s.readInfoBlockIndex + 1 = N)
    (hb : s.readInfoBlockIndex < s.baseStationInfoBlock.length)
    (hz : s.zeroCount ≤ s.syncBitCounter) (hk : s.syncBitCounter + 1 + mid.length = 16)
    (h1 : ootxBitValue w1 = true) :
    ∃ t, processOOTXBit N s w = some t ∧
      t.readInfoBlockIndex = N ∧ t.readInfoBlockMask = 0 ∧ t.payloadReadMask = 0 ∧
      t.receivedLighthousePosition = s.receivedLighthousePosition ∧
      t.poseSource = s.poseSource ∧
      ∃ u, feedOOTX N t (mid ++ [w1]) = some u ∧
        u.receivedLighthousePosition = true ∧ u.poseSource = some t.baseStationInfoBlock ∧
        u.readInfoBlockIndex = 0 ∧ u.readInfoBlockMask = 0 ∧ u.payloadReadMask = 0 := by
  obtain ⟨t, ht, t1, t2, t3, t4, t5, -, t7, t8⟩ :=
    processOOTXBit_final_bit N s w hp hm hidx hb (by omega) hz
  obtain ⟨v, hv, v1, v2, v3, v4, v5, -, -⟩ :=
    feedOOTX_idle_run N mid t t3 t2 (by rw [t7]; omega) t8
  refine ⟨t, ht, t1, t2, t3, t4, t5, ?_⟩
  rw [feedOOTX_append, hv, Option.some_bind, feedOOTX,
    processOOTXBit_sync N v w1 (by rw [v1, t7]; omega) h1, Option.some_bind,
    if_pos (by rw [v4, t1]), feedOOTX]
  refine ⟨_, rfl, rfl, ?_, rfl, v3, v2⟩
  show some v.baseStationInfoBlock = _
  rw [v5]

theorem final_bit_then_sync_computes_pose_witness :
    (sampleFinalBit.payloadReadMask = 0 ∧ sampleFinalBit.readInfoBlockMask = 1 ∧
      sampleFinalBit.readInfoBlockIndex + 1 = 3 ∧
      sampleFinalBit.readInfoBlockIndex < sampleFinalBit.baseStationInfoBlock.length ∧
      sampleFinalBit.zeroCount ≤ sampleFinalBit.syncBitCounter ∧
      sampleFinalBit.syncBitCounter + 1 +
        [3000, 3000, 3000, 3000, 3000, 3000, 3000, 3000].length = 16 ∧
      ootxBitValue 4100 = true) ∧
    ∃ t, processOOTXBit 3 sampleFinalBit 4000 = some t ∧
      t.readInfoBlockIndex = 3 ∧ t.readInfoBlockMask = 0 ∧ t.payloadReadMask = 0 ∧
      t.receivedLighthousePosition = sampleFinalBit.receivedLighthousePosition ∧
      t.poseSource = sampleFinalBit.poseSource ∧
      ∃ u, feedOOTX 3 t ([3000, 3000, 3000, 3000, 3000, 3000, 3000, 3000] ++ [4100]) = some u ∧
        u.receivedLighthousePosition = true ∧ u.poseSource = some t.baseStationInfoBlock ∧
        u.readInfoBlockIndex = 0 ∧ u.readInfoBlockMask = 0 ∧ u.payloadReadMask = 0 :=
  ⟨⟨rfl, rfl, rfl, by decide, by decide, rfl, by decide⟩,
    final_bit_then_sync_computes_pose 3 sampleFinalBit 4000 4100
      [3000, 3000, 3000, 3000, 3000, 3000, 3000, 3000] rfl rfl rfl (by decide) (by decide) rfl
      (by decide)⟩


/-! ## The pose is computed once -/

theorem sameOOTX_refl (s : LighthouseSensor) : sameOOTX s s :=
  ⟨rfl, rfl, rfl, rfl, rfl, rfl, rfl, rfl, rfl⟩

theorem sameOOTX_trans (s t u : LighthouseSensor) (h1 : sameOOTX s t) (h2 : sameOOTX t u) :
    sameOOTX s u := by
  obtain ⟨a1, a2, a3, a4, a5, a6, a7, a8, a9⟩ := h1
  obtain ⟨b1, b2, b3, b4, b5, b6, b7, b8, b9⟩ := h2
  exact ⟨b1.trans a1, b2.trans a2, b3.trans a3, b4.trans a4, b5.trans a5, b6.trans a6,
    b7.trans a7, b8.trans a8, b9.trans a9⟩

theorem updCycle_sameOOTX (s t : LighthouseSensor) (i : Int)
    (f : SensorCycleData → SensorCycleData) (h : s.updCycle i f = some t) : sameOOTX s t := by
  unfold LighthouseSensor.updCycle at h
  split_ifs at h
  · cases h
    exact sameOOTX_refl s
  · cases h
    exact sameOOTX_refl s

theorem processSyncSignal_sameOOTX (N : Nat) (s t : LighthouseSensor) (p c : Nat)
    (hr : s.receivedLighthousePosition = true) (h : processSyncSignal N s p c = some t) :
    sameOOTX s t := by
  unfold processSyncSignal at h
  dsimp only at h
  by_cases hg : calculateDeltaTicks p c < SYNC_PULSE_J0_MIN ∨
      calculateDeltaTicks p c ≥ NONSYNC_PULSE_J2_MIN
  · rw [if_pos hg, Option.bind_eq_some] at h
    obtain ⟨s1, h1, h2⟩ := h
    cases h2
    have hs1 : sameOOTX s s1 := by
      split_ifs at h1
      · exact updCycle_sameOOTX _ _ _ _ h1
      · cases h1
        exact sameOOTX_refl s
    exact sameOOTX_trans _ _ _ hs1 (sameOOTX_refl s1)
  · rw [if_neg hg, hr, if_neg (by decide), Option.some_bind, Option.bind_eq_some] at h
    obtain ⟨s2, h2, h3⟩ := h
    rw [Option.bind_eq_some] at h3
    obtain ⟨s4, h4, h5⟩ := h3
    cases h5
    have hs2 : sameOOTX s s2 := by
      split_ifs at h2
      · rw [Option.bind_eq_some] at h2
        obtain ⟨s1a, ha, hb⟩ := h2
        exact sameOOTX_trans _ _ _ (updCycle_sameOOTX _ _ _ _ ha) (updCycle_sameOOTX _ _ _ _ hb)
      · cases h2
        exact sameOOTX_refl s
    have hs4 := updCycle_sameOOTX _ _ _ _ h4
    exact sameOOTX_trans _ _ _ hs2
      (sameOOTX_trans _ _ _ (sameOOTX_refl s2) (sameOOTX_trans _ _ _ hs4 (sameOOTX_refl s4)))

theorem processSweepHit_sameOOTX (s t : LighthouseSensor) (p c ms : Nat)
    (h : processSweepHit s p c ms = some t) : sameOOTX s t := by
  unfold processSweepHit at h
  dsimp only at h
  rw [Option.bind_eq_some] at h
  obtain ⟨cd, -, h2⟩ := h
  split_ifs at h2
  · rw [Option.bind_eq_some] at h2
    obtain ⟨s1, h3, h4⟩ := h2
    cases h4
    exact sameOOTX_trans _ _ _ (updCycle_sameOOTX _ _ _ _ h3) (sameOOTX_refl s1)
  · rw [Option.bind_eq_some] at h2
    obtain ⟨s1, h3, h4⟩ := h2
    cases h4
    exact sameOOTX_trans _ _ _ (updCycle_sameOOTX _ _ _ _ h3) (sameOOTX_refl s1)

theorem processEdge_sameOOTX (N : Nat) (s t : LighthouseSensor) (c ms : Nat)
    (hr : s.receivedLighthousePosition = true) (h : processEdge N s c ms = some t) :
    sameOOTX s t := by
  unfold processEdge at h
  rw [Option.bind_eq_some] at h
  obtain ⟨s1, h1, h2⟩ := h
  cases h2
  have hs1 : sameOOTX s s1 := by
    unfold dispatchEdge at h1
    split at h1
    · exact processSyncSignal_sameOOTX N s s1 _ _ hr h1
    · exact processSweepHit_sameOOTX s s1 _ _ _ h1
    · cases h1
      exact sameOOTX_refl s
    · cases h1
      exact sameOOTX_refl s
  exact sameOOTX_trans _ _ _ hs1 (sameOOTX_refl s1)

theorem loopFuel_sameOOTX (N : Nat) (millis : Nat → Nat) (wp : Nat) (fuel : Nat) :
    ∀ (k : Nat) (q : LighthouseSensorInput) (s : LighthouseSensor)
      (r : LighthouseSensorInput × LighthouseSensor),
      s.receivedLighthousePosition = true → loopFuel N millis wp fuel k q s = some r →
      sameOOTX s r.2 := by
  induction fuel with
  | zero => intro k q s r _ h; simp [loopFuel] at h
  | succ fuel ih =>
    intro k q s r hr h
    rw [loopFuel] at h
    split_ifs at h
    · cases h
      exact sameOOTX_refl s
    · rw [Option.bind_eq_some] at h
      obtain ⟨c, -, h2⟩ := h
      rw [Option.bind_eq_some] at h2
      obtain ⟨s1, h3, h4⟩ := h2
      have hs1 := processEdge_sameOOTX N s s1 c _ hr h3
      have hr1 : s1.receivedLighthousePosition = true := by
        rw [hs1.2.2.2.2.2.2.2.1, hr]
      exact sameOOTX_trans _ _ _ hs1 (ih _ _ s1 r hr1 h4)

/-- C14: once receivedLighthousePosition is true, whatever edges the following
calls of loop() consume, receivedLighthousePosition stays true and the OOTX
framing counters, payloadLength, the read masks and index, baseStationInfoBlock
and the records written by calculateLighthousePosition are unchanged. -/
theorem pose_computed_once (N : Nat) (millis : Nat → Nat) (fuel : Nat)
    (qs : List LighthouseSensorInput) (s t : LighthouseSensor)
    (hr : s.receivedLighthousePosition = true)
    (h : loopCalls N millis fuel s qs = some t) :
    t.receivedLighthousePosition = true ∧ sameOOTX s t := by
  have key : ∀ (qs : List LighthouseSensorInput) (s t : LighthouseSensor),
      s.receivedLighthousePosition = true → loopCalls N millis fuel s qs = some t →
      sameOOTX s t := by
    intro qs
    induction qs with
    | nil =>
      intro s t _ h
      rw [loopCalls] at h
      cases h
      exact sameOOTX_refl s
    | cons q qs ih =>
      intro s t hr h
      rw [loopCalls, Option.bind_eq_some] at h
      obtain ⟨r, h1, h2⟩ := h
      have hs1 := loopFuel_sameOOTX N millis _ fuel 0 q s r hr h1
      have hr1 : r.2.receivedLighthousePosition = true := by
        rw [hs1.2.2.2.2.2.2.2.1, hr]
      exact sameOOTX_trans _ _ _ hs1 (ih r.2 t hr1 h2)
  have hs := key qs s t hr h
  exact ⟨by rw [hs.2.2.2.2.2.2.2.1, hr], hs⟩


theorem pose_computed_once_witness :
    (samplePoseKnown.receivedLighthousePosition = true ∧
      loopCalls 33 (fun k => 10 + k) 5 samplePoseKnown [sampleInput, sampleInput] = some
        { samplePoseKnown with
          pendingCycleEdge := CycleEdge.SyncRising, previousTickCount := 104500,
          currentCycle := 0,
          cycleData1 := { pendingSyncTickCount := 0, syncTickCount := 3450,
                          sweepTickCount := 36783, sweepHitTimeStamp := 12 } }) ∧
    (({ samplePoseKnown with
          pendingCycleEdge := CycleEdge.SyncRising, previousTickCount := 104500,
          currentCycle := 0,
          cycleData1 := { pendingSyncTickCount := 0, syncTickCount := 3450,
                          sweepTickCount := 36783, sweepHitTimeStamp := 12 } } :
        LighthouseSensor).receivedLighthousePosition = true ∧
      sameOOTX samplePoseKnown
        { samplePoseKnown with
          pendingCycleEdge := CycleEdge.SyncRising, previousTickCount := 104500,
          currentCycle := 0,
          cycleData1 := { pendingSyncTickCount := 0, syncTickCount := 3450,
                          sweepTickCount := 36783, sweepHitTimeStamp := 12 } }) :=
  ⟨⟨rfl, by decide⟩,
    pose_computed_once 33 (fun k => 10 + k) 5 [sampleInput, sampleInput] samplePoseKnown _
      rfl (by decide)⟩


/-! ## The decoder invariant -/

theorem processOOTXData_inv (N : Nat) (s t : LighthouseSensor) (v : Bool)
    (hN : 0 < N) (hlen : s.baseStationInfoBlock.length = N)
    (hidx : s.readInfoBlockMask ≠ 0 → s.readInfoBlockIndex < N)
    (h : processOOTXData N s v = some t) :
    t.baseStationInfoBlock.length = N ∧ (t.readInfoBlockMask ≠ 0 → t.readInfoBlockIndex < N) := by
  unfold processOOTXData at h
  dsimp only at h
  by_cases hp : s.payloadReadMask ≠ 0
  · rw [if_pos hp] at h
    split_ifs at h <;> cases h
    · exact ⟨hlen, hidx⟩
    · exact ⟨hlen, fun _ => hN⟩
    · exact ⟨hlen, hidx⟩
    · exact ⟨hlen, hidx⟩
  · rw [if_neg hp] at h
    by_cases hm : s.readInfoBlockMask ≠ 0
    · rw [if_pos hm] at h
      cases hx : s.baseStationInfoBlock[s.readInfoBlockIndex]? with
      | none => rw [hx] at h; cases h
      | some b =>
        rw [hx] at h
        dsimp only at h
        have hl : (s.baseStationInfoBlock.set s.readInfoBlockIndex
            (storeBit b s.readInfoBlockMask v)).length = N := by
          rw [List.length_set]
          exact hlen
        split_ifs at h with h1 h2 <;> cases h
        · exact ⟨hl, fun _ => h2⟩
        · exact ⟨hl, fun hne => absurd rfl hne⟩
        · exact ⟨hl, fun _ => hidx hm⟩
    · rw [if_neg hm] at h
      cases h
      exact ⟨hlen, hidx⟩

theorem processOOTXBit_inv (N : Nat) (s t : LighthouseSensor) (w : Nat)
    (hN : 0 < N) (hlen : s.baseStationInfoBlock.length = N)
    (hidx : s.readInfoBlockMask ≠ 0 → s.readInfoBlockIndex < N)
    (h : processOOTXBit N s w = some t) :
    t.baseStationInfoBlock.length = N ∧ (t.readInfoBlockMask ≠ 0 → t.readInfoBlockIndex < N) := by
  unfold processOOTXBit at h
  dsimp only at h
  split_ifs at h
  · cases h
    exact ⟨hlen, fun hne => absurd rfl hne⟩
  · cases h
    exact ⟨hlen, fun hne => absurd rfl hne⟩
  · exact processOOTXData_inv N _ t _ hN (by exact hlen) (by exact hidx) h
  · cases h
    exact ⟨hlen, fun _ => hN⟩
  · cases h
    exact ⟨hlen, hidx⟩
  · exact processOOTXData_inv N _ t _ hN (by exact hlen) (by exact hidx) h

/-- Under the invariant `processEdge` returns, and the invariant holds again. -/
theorem processEdge_sensorInv (N : Nat) (s : LighthouseSensor) (cur ms : Nat)
    (hinv : sensorInv N s) : ∃ t, processEdge N s cur ms = some t ∧ sensorInv N t := by
  obtain ⟨hc, hsw, hN, hlen, hidx⟩ := hinv
  have ho : ootxInBounds s := by
    intro _ hm
    rw [hlen]
    exact hidx hm
  cases he : s.pendingCycleEdge
  · rw [processEdge_syncRising N s cur ms he]
    refine ⟨_, rfl, hc, ?_, hN, hlen, hidx⟩
    intro h
    cases h
  · rw [processEdge_syncFalling N s cur ms he]
    by_cases hv : calculateDeltaTicks s.previousTickCount cur < SYNC_PULSE_J0_MIN ∨
        calculateDeltaTicks s.previousTickCount cur ≥ NONSYNC_PULSE_J2_MIN
    · rw [processSyncSignal_invalid N s _ _ hc hv, Option.some_bind]
      refine ⟨_, rfl, Or.inl rfl, ?_, hN, hlen, hidx⟩
      intro h
      rw [show ({ s with currentCycle := -1 } : LighthouseSensor).pendingCycleEdge
        = s.pendingCycleEdge from rfl, he] at h
      cases h
    · have h1 : SYNC_PULSE_J0_MIN ≤ calculateDeltaTicks s.previousTickCount cur := by omega
      have h2 : calculateDeltaTicks s.previousTickCount cur < NONSYNC_PULSE_J2_MIN := by omega
      obtain ⟨s1, hs1, -, hres⟩ := processSyncSignal_valid N s _ _ hc ho h1 h2
      rw [hres, Option.some_bind]
      have hfc := foundCycle_lt_two (calculateDeltaTicks s.previousTickCount cur)
      have hcyc : ((foundCycle (calculateDeltaTicks s.previousTickCount cur) : Nat) : Int) = 0 ∨
          ((foundCycle (calculateDeltaTicks s.previousTickCount cur) : Nat) : Int) = 1 := by
        omega
      have hs1inv : s1.baseStationInfoBlock.length = N ∧
          (s1.readInfoBlockMask ≠ 0 → s1.readInfoBlockIndex < N) := by
        cases hr : s.receivedLighthousePosition
        · rw [hr] at hs1
          exact processOOTXBit_inv N s s1 _ hN hlen hidx hs1
        · rw [hr] at hs1
          simp only [if_true] at hs1
          rw [hs1]
          exact ⟨hlen, hidx⟩
      exact ⟨_, rfl, Or.inr hcyc, fun _ => hcyc, hN, hs1inv.1, hs1inv.2⟩
  · rw [processEdge_sweepRising N s cur ms he]
    have hcd : ∃ cd, s.getCycle s.currentCycle = some cd := by
      unfold LighthouseSensor.getCycle
      rcases hsw he with h0 | h1
      · rw [if_pos h0]
        exact ⟨_, rfl⟩
      · rw [if_neg (by omega), if_pos h1]
        exact ⟨_, rfl⟩
    obtain ⟨cd, hcd⟩ := hcd
    by_cases hg : ((cd.pendingSyncTickCount + calculateDeltaTicks s.previousTickCount cur)
        % UINT_MOD + UINT_MOD - SWEEP_START_TICKS) % UINT_MOD < SWEEP_DURATION_TICKS
    · obtain ⟨t, ht, -, -, t3, t4, -, t6⟩ := processSweepHit_commit_post s s.previousTickCount cur ms cd hcd hg
      rw [ht, Option.some_bind]
      obtain ⟨-, -, -, -, o5, o6, o7, -, -⟩ := t6
      refine ⟨_, rfl, ?_, ?_, hN, (congrArg List.length o7).trans hlen, ?_⟩
      · show t.currentCycle = -1 ∨ t.currentCycle = 0 ∨ t.currentCycle = 1
        rw [t3]
        exact hc
      · intro h
        rw [show ({ t with previousTickCount := cur } : LighthouseSensor).pendingCycleEdge
          = t.pendingCycleEdge from rfl, t4] at h
        cases h
      · show t.readInfoBlockMask ≠ 0 → t.readInfoBlockIndex < N
        rw [o5, o6]
        exact hidx
    · obtain ⟨t, ht, -, -, t3, t4, -, t6⟩ :=
        processSweepHit_missed_post s s.previousTickCount cur ms cd hcd (Nat.le_of_not_lt hg)
      rw [ht, Option.some_bind]
      obtain ⟨-, -, -, -, o5, o6, o7, -, -⟩ := t6
      refine ⟨_, rfl, Or.inl t3, ?_, hN, (congrArg List.length o7).trans hlen, ?_⟩
      · intro h
        rw [show ({ t with previousTickCount := cur } : LighthouseSensor).pendingCycleEdge
          = t.pendingCycleEdge from rfl, t4] at h
        cases h
      · show t.readInfoBlockMask ≠ 0 → t.readInfoBlockIndex < N
        rw [o5, o6]
        exact hidx
  · rw [processEdge_sweepFalling N s cur ms he]
    refine ⟨_, rfl, ?_, ?_, hN, hlen, hidx⟩
    · show (s.currentCycle + 1) % 2 = -1 ∨ (s.currentCycle + 1) % 2 = 0 ∨
        (s.currentCycle + 1) % 2 = 1
      rcases hc with h | h | h <;> rw [h] <;> decide
    · intro h
      cases h

theorem feedEdges_sensorInv (N : Nat) (millis : Nat → Nat) (cs : List Nat) :
    ∀ (k : Nat) (s : LighthouseSensor), sensorInv N s →
      ∃ t, feedEdges N millis k s cs = some t ∧ sensorInv N t := by
  induction cs with
  | nil => intro k s h; exact ⟨s, rfl, h⟩
  | cons c cs ih =>
    intro k s h
    obtain ⟨s1, h1, hi1⟩ := processEdge_sensorInv N s c (millis k) h
    obtain ⟨t, ht, hit⟩ := ih (k + 1) s1 hi1
    refine ⟨t, ?_, hit⟩
    rw [feedEdges, h1, Option.some_bind]
    exact ht


/-! ## The ring of edge timestamps -/

theorem unread_length (q : LighthouseSensorInput) : (unread q).length = unreadCount q := by
  unfold unread
  rw [List.length_map, List.length_range]

theorem unread_getElem? (q : LighthouseSensorInput) (i : Nat) :
    (unread q)[i]? =
      if i < unreadCount q then some (q.hitTickBuffer.getD (unreadSlot q i) 0) else none := by
  unfold unread
  rw [List.getElem?_map]
  by_cases h : i < unreadCount q
  · rw [if_pos h, List.getElem?_range h]
    rfl
  · rw [if_neg h, List.getElem?_eq_none (by rw [List.length_range]; omega)]
    rfl

theorem unreadCount_le (q : LighthouseSensorInput) (hv : ringValid q) :
    unreadCount q ≤ q.hitTickEndPtr := by
  obtain ⟨-, hr, hw⟩ := hv
  unfold unreadCount
  split_ifs <;> omega

theorem unreadCount_eq_zero_iff (q : LighthouseSensorInput) (hv : ringValid q) :
    unreadCount q = 0 ↔ nextReadPtr q = q.hitTickWritePtr := by
  obtain ⟨-, hr, hw⟩ := hv
  unfold unreadCount nextReadPtr
  split_ifs <;> omega

theorem unreadCount_full_iff (q : LighthouseSensorInput) (hv : ringValid q) :
    unreadCount q = q.hitTickEndPtr ↔ q.hitTickWritePtr = q.hitTickReadPtr := by
  obtain ⟨-, hr, hw⟩ := hv
  unfold unreadCount
  split_ifs <;> omega

theorem unreadSlot_ne_write (q : LighthouseSensorInput) (hv : ringValid q) (i : Nat)
    (hi : i < unreadCount q) : unreadSlot q i ≠ q.hitTickWritePtr := by
  obtain ⟨-, hr, hw⟩ := hv
  unfold unreadCount at hi
  unfold unreadSlot
  split_ifs at hi ⊢ <;> omega

theorem unreadSlot_count (q : LighthouseSensorInput) (hv : ringValid q) :
    unreadSlot q (unreadCount q) = q.hitTickWritePtr := by
  obtain ⟨-, hr, hw⟩ := hv
  unfold unreadCount unreadSlot
  split_ifs <;> omega

theorem ringValid_advanceRead (q : LighthouseSensorInput) (hv : ringValid q) :
    ringValid (advanceRead q) := by
  obtain ⟨hl, hr, hw⟩ := hv
  refine ⟨hl, ?_, hw⟩
  show nextReadPtr q ≤ q.hitTickEndPtr
  unfold nextReadPtr
  split_ifs <;> omega

theorem unreadCount_advanceRead (q : LighthouseSensorInput) (hv : ringValid q)
    (hne : nextReadPtr q ≠ q.hitTickWritePtr) :
    unreadCount (advanceRead q) + 1 = unreadCount q := by
  obtain ⟨-, hr, hw⟩ := hv
  unfold unreadCount advanceRead
  unfold nextReadPtr at hne ⊢
  dsimp only
  split_ifs at hne ⊢ <;> omega

theorem unreadSlot_advanceRead (q : LighthouseSensorInput) (hv : ringValid q) (i : Nat)
    (hi : i + 1 < unreadCount q) :
    unreadSlot (advanceRead q) i = unreadSlot q (i + 1) := by
  have hle := unreadCount_le q hv
  obtain ⟨-, hr, hw⟩ := hv
  unfold unreadSlot advanceRead nextReadPtr
  dsimp only
  split_ifs <;> omega

theorem unreadSlot_zero (q : LighthouseSensorInput) (hv : ringValid q) :
    unreadSlot q 0 = nextReadPtr q := by
  obtain ⟨-, hr, hw⟩ := hv
  unfold unreadSlot nextReadPtr
  split_ifs <;> omega

theorem nextReadPtr_lt_length (q : LighthouseSensorInput) (hv : ringValid q) :
    nextReadPtr q < q.hitTickBuffer.length := by
  obtain ⟨hl, hr, hw⟩ := hv
  unfold nextReadPtr
  split_ifs <;> omega

/-- The unread entries are the entry after the read cursor followed by the
unread entries once the read cursor has moved over it. -/
theorem unread_cons (q : LighthouseSensorInput) (hv : ringValid q)
    (hne : nextReadPtr q ≠ q.hitTickWritePtr) :
    unread q = q.hitTickBuffer.getD (nextReadPtr q) 0 :: unread (advanceRead q) := by
  have hc := unreadCount_advanceRead q hv hne
  apply List.ext_getElem?
  intro i
  rw [unread_getElem?]
  cases i with
  | zero =>
    rw [if_pos (by omega), unreadSlot_zero q hv, List.getElem?_cons_zero]
  | succ i =>
    rw [List.getElem?_cons_succ, unread_getElem?]
    by_cases hi : i + 1 < unreadCount q
    · rw [if_pos hi, if_pos (by omega), unreadSlot_advanceRead q hv i hi]
      rfl
    · rw [if_neg hi, if_neg (by omega)]

theorem drained_advanceRead (q : LighthouseSensorInput) :
    drained (advanceRead q) = drained q := rfl

theorem drained_of_empty (q : LighthouseSensorInput) (hv : ringValid q)
    (he : nextReadPtr q = q.hitTickWritePtr) : drained q = q := by
  obtain ⟨-, hr, hw⟩ := hv
  have : (if q.hitTickWritePtr = 0 then q.hitTickEndPtr else q.hitTickWritePtr - 1)
      = q.hitTickReadPtr := by
    unfold nextReadPtr at he
    split_ifs at he ⊢ <;> omega
  unfold drained
  rw [this]

/-- The consumer loop hands the unread entries to the decoder, oldest first,
each once, and stops with the ring drained. -/
theorem loopFuel_eq_feedEdges (N : Nat) (millis : Nat → Nat) (n : Nat) :
    ∀ (fuel k : Nat) (q : LighthouseSensorInput) (s : LighthouseSensor),
      ringValid q → unreadCount q = n → n < fuel →
      loopFuel N millis q.hitTickWritePtr fuel k q s =
        (feedEdges N millis k s (unread q)).map fun t => (drained q, t) := by
  induction n with
  | zero =>
    intro fuel k q s hv hn hf
    have he := (unreadCount_eq_zero_iff q hv).mp hn
    obtain ⟨f, rfl⟩ : ∃ f, fuel = f + 1 := ⟨fuel - 1, by omega⟩
    have hu : unread q = [] := by
      apply List.eq_nil_of_length_eq_zero
      rw [unread_length, hn]
    rw [loopFuel_done N millis _ f k q s he, hu, feedEdges, Option.map_some',
      drained_of_empty q hv he]
  | succ n ih =>
    intro fuel k q s hv hn hf
    have hne : nextReadPtr q ≠ q.hitTickWritePtr := by
      intro he
      have := (unreadCount_eq_zero_iff q hv).mpr he
      omega
    obtain ⟨f, rfl⟩ : ∃ f, fuel = f + 1 := ⟨fuel - 1, by omega⟩
    have hx : q.hitTickBuffer[nextReadPtr q]? = some (q.hitTickBuffer.getD (nextReadPtr q) 0) := by
      rw [List.getD_eq_getElem?_getD, List.getElem?_eq_getElem (nextReadPtr_lt_length q hv)]
      rfl
    have hc := unreadCount_advanceRead q hv hne
    rw [unread_cons q hv hne, feedEdges, loopFuel, if_neg hne, hx, Option.some_bind]
    cases hp : processEdge N s (q.hitTickBuffer.getD (nextReadPtr q) 0) (millis k) with
    | none => rfl
    | some s1 =>
      rw [Option.some_bind, Option.some_bind]
      have := ih f (k + 1) (advanceRead q) s1 (ringValid_advanceRead q hv) (by omega) (by omega)
      rw [drained_advanceRead] at this
      exact this


theorem TCC1_Handler_eq (q : LighthouseSensorInput) (cc0 : Nat) :
    TCC1_Handler q cc0 = TCC0_Handler q cc0 := rfl

theorem TCC0_Handler_full (q : LighthouseSensorInput) (cc0 : Nat)
    (h : q.hitTickWritePtr = q.hitTickReadPtr) : TCC0_Handler q cc0 = some q := by
  unfold TCC0_Handler
  rw [if_neg (by rw [h]; exact fun hne => hne rfl)]

theorem TCC0_Handler_push (q : LighthouseSensorInput) (cc0 : Nat) (hv : ringValid q)
    (h : q.hitTickWritePtr ≠ q.hitTickReadPtr) :
    TCC0_Handler q cc0 = some
      { q with hitTickBuffer := q.hitTickBuffer.set q.hitTickWritePtr cc0
               hitTickWritePtr :=
                 if q.hitTickWritePtr = q.hitTickEndPtr then 0 else q.hitTickWritePtr + 1 } := by
  obtain ⟨hl, hr, hw⟩ := hv
  unfold TCC0_Handler
  rw [if_pos h, if_pos (by omega)]
  dsimp only
  split_ifs <;> rfl

/-- An accepted push appends its timestamp to the unread entries and leaves
the ring well formed. -/
theorem unread_push (q : LighthouseSensorInput) (cc0 : Nat) (hv : ringValid q)
    (h : q.hitTickWritePtr ≠ q.hitTickReadPtr) :
    ringValid
      { q with hitTickBuffer := q.hitTickBuffer.set q.hitTickWritePtr cc0
               hitTickWritePtr :=
                 if q.hitTickWritePtr = q.hitTickEndPtr then 0 else q.hitTickWritePtr + 1 } ∧
    unread
      { q with hitTickBuffer := q.hitTickBuffer.set q.hitTickWritePtr cc0
               hitTickWritePtr :=
                 if q.hitTickWritePtr = q.hitTickEndPtr then 0 else q.hitTickWritePtr + 1 }
      = unread q ++ [cc0] ∧
    ({ q with hitTickBuffer := q.hitTickBuffer.set q.hitTickWritePtr cc0
              hitTickWritePtr :=
                if q.hitTickWritePtr = q.hitTickEndPtr then 0 else q.hitTickWritePtr + 1 } :
      LighthouseSensorInput) ≠ q := by
  have hv0 := hv
  obtain ⟨hl, hr, hw⟩ := hv
  have hcount : unreadCount
      { q with hitTickBuffer := q.hitTickBuffer.set q.hitTickWritePtr cc0
               hitTickWritePtr :=
                 if q.hitTickWritePtr = q.hitTickEndPtr then 0 else q.hitTickWritePtr + 1 }
      = unreadCount q + 1 := by
    unfold unreadCount
    dsimp only
    split_ifs <;> omega
  refine ⟨⟨?_, hr, ?_⟩, ?_, ?_⟩
  · show q.hitTickEndPtr + 1 = (q.hitTickBuffer.set q.hitTickWritePtr cc0).length
    rw [List.length_set]
    exact hl
  · show (if q.hitTickWritePtr = q.hitTickEndPtr then 0 else q.hitTickWritePtr + 1)
      ≤ q.hitTickEndPtr
    split_ifs <;> omega
  · apply List.ext_getElem?
    intro i
    rw [unread_getElem?, hcount]
    by_cases h1 : i < unreadCount q
    · rw [if_pos (by omega), List.getElem?_append_left (by rw [unread_length]; exact h1),
        unread_getElem?, if_pos h1]
      have hs : unreadSlot q i ≠ q.hitTickWritePtr := unreadSlot_ne_write q hv0 i h1
      show some ((q.hitTickBuffer.set q.hitTickWritePtr cc0).getD (unreadSlot q i) 0) = _
      rw [List.getD_eq_getElem?_getD, List.getD_eq_getElem?_getD,
        List.getElem?_set_ne (fun e => hs e.symm)]
    · by_cases h2 : i = unreadCount q
      · subst h2
        rw [if_pos (by omega), List.getElem?_append_right (by rw [unread_length]),
          unread_length, Nat.sub_self, List.getElem?_cons_zero]
        show some ((q.hitTickBuffer.set q.hitTickWritePtr cc0).getD
          (unreadSlot q (unreadCount q)) 0) = _
        rw [unreadSlot_count q hv0, List.getD_eq_getElem?_getD,
          List.getElem?_set_self (by omega)]
        rfl
      · rw [if_neg (by omega), List.getElem?_append_right (by rw [unread_length]; omega),
          unread_length]
        obtain ⟨j, hj⟩ : ∃ j, i - unreadCount q = j + 1 := ⟨i - unreadCount q - 1, by omega⟩
        rw [hj]
        rfl
  · intro e
    have e2 := congrArg LighthouseSensorInput.hitTickWritePtr e
    dsimp only at e2
    split_ifs at e2 <;> omega


/-- C15: when the ring is full (write cursor equal to read cursor) a push by
either capture handler changes neither the buffer nor a cursor, so the edge is
dropped and every unread entry stays; when it is not full the push writes only
the slot at the write cursor, which is the slot of no unread entry, advances
only the write cursor (wrapping after hitTickEndPtr), and the unread entries
are the old ones followed by the new timestamp. -/
theorem capture_handler_push (q : LighthouseSensorInput) (cc0 : Nat) (hv : ringValid q) :
    (q.hitTickWritePtr = q.hitTickReadPtr →
      TCC0_Handler q cc0 = some q ∧ TCC1_Handler q cc0 = some q) ∧
    (q.hitTickWritePtr ≠ q.hitTickReadPtr →
      ∃ q1, TCC0_Handler q cc0 = some q1 ∧ TCC1_Handler q cc0 = some q1 ∧
        q1.hitTickBuffer = q.hitTickBuffer.set q.hitTickWritePtr cc0 ∧
        (∀ i, i < unreadCount q → unreadSlot q i ≠ q.hitTickWritePtr) ∧
        q1.hitTickReadPtr = q.hitTickReadPtr ∧ q1.hitTickEndPtr = q.hitTickEndPtr ∧
        q1.hitTickWritePtr =
          (if q.hitTickWritePtr = q.hitTickEndPtr then 0 else q.hitTickWritePtr + 1) ∧
        unread q1 = unread q ++ [cc0]) := by
  constructor
  · intro h
    rw [TCC1_Handler_eq]
    exact ⟨TCC0_Handler_full q cc0 h, TCC0_Handler_full q cc0 h⟩
  · intro h
    rw [TCC1_Handler_eq, TCC0_Handler_push q cc0 hv h]
    exact ⟨_, rfl, rfl, rfl, fun i hi => unreadSlot_ne_write q hv i hi, rfl, rfl, rfl,
      (unread_push q cc0 hv h).2.1⟩

theorem capture_handler_push_witness :
    (ringValid sampleInput ∧ sampleInput.hitTickWritePtr ≠ sampleInput.hitTickReadPtr) ∧
    ((sampleInput.hitTickWritePtr = sampleInput.hitTickReadPtr →
      TCC0_Handler sampleInput 204500 = some sampleInput ∧
        TCC1_Handler sampleInput 204500 = some sampleInput) ∧
    (sampleInput.hitTickWritePtr ≠ sampleInput.hitTickReadPtr →
      ∃ q1, TCC0_Handler sampleInput 204500 = some q1 ∧
        TCC1_Handler sampleInput 204500 = some q1 ∧
        q1.hitTickBuffer = sampleInput.hitTickBuffer.set sampleInput.hitTickWritePtr 204500 ∧
        (∀ i, i < unreadCount sampleInput →
          unreadSlot sampleInput i ≠ sampleInput.hitTickWritePtr) ∧
        q1.hitTickReadPtr = sampleInput.hitTickReadPtr ∧
        q1.hitTickEndPtr = sampleInput.hitTickEndPtr ∧
        q1.hitTickWritePtr =
          (if sampleInput.hitTickWritePtr = sampleInput.hitTickEndPtr then 0
            else sampleInput.hitTickWritePtr + 1) ∧
        unread q1 = unread sampleInput ++ [204500])) :=
  ⟨⟨by decide, by decide⟩, capture_handler_push sampleInput 204500 (by decide)⟩

theorem ringValid_drained (q : LighthouseSensorInput) (hv : ringValid q) :
    ringValid (drained q) := by
  obtain ⟨hl, hr, hw⟩ := hv
  refine ⟨hl, ?_, hw⟩
  show (if q.hitTickWritePtr = 0 then q.hitTickEndPtr else q.hitTickWritePtr - 1)
    ≤ q.hitTickEndPtr
  split_ifs <;> omega

theorem unread_drained (q : LighthouseSensorInput) (hv : ringValid q) :
    unread (drained q) = [] := by
  obtain ⟨hl, hr, hw⟩ := hv
  apply List.eq_nil_of_length_eq_zero
  rw [unread_length]
  unfold unreadCount drained
  dsimp only
  split_ifs <;> omega

theorem nextReadPtr_drained (q : LighthouseSensorInput) (hv : ringValid q) :
    nextReadPtr (drained q) = (drained q).hitTickWritePtr := by
  have h := unread_drained q hv
  have h2 : unreadCount (drained q) = 0 := by
    rw [← unread_length, h]
    rfl
  exact (unreadCount_eq_zero_iff (drained q) (ringValid_drained q hv)).mp h2

/-- The simulation behind the FIFO refinement: from any well-formed ring, the
ring with the decoder behaves as the FIFO holding the unread entries. -/
theorem runRing_simulates (N : Nat) (millis : Nat → Nat) (fuel : Nat) (ops : List RingOp) :
    ∀ (q : LighthouseSensorInput) (s : LighthouseSensor),
      ringValid q → q.hitTickEndPtr < fuel →
      (runRing N millis fuel q s ops).map (fun r => (unread r.1, r.2.1, r.2.2)) =
        runFifo q.hitTickEndPtr N millis (unread q) s ops := by
  induction ops with
  | nil => intro q s _ _; rfl
  | cons op ops ih =>
    intro q s hv hf
    cases op with
    | push cc0 =>
      rw [runRing, runFifo, unread_length]
      by_cases hfull : q.hitTickWritePtr = q.hitTickReadPtr
      · have hc := (unreadCount_full_iff q hv).mpr hfull
        rw [TCC0_Handler_full q cc0 hfull, Option.some_bind, if_neg (by omega), ← ih q s hv hf,
          Option.map_map, Option.map_map]
        congr 1
        funext r
        simp
      · have hc : unreadCount q ≠ q.hitTickEndPtr :=
          fun e => hfull ((unreadCount_full_iff q hv).mp e)
        have hle := unreadCount_le q hv
        obtain ⟨q1, hq1, hv1, hu1, hne1, hend⟩ : ∃ q1, TCC0_Handler q cc0 = some q1 ∧
            ringValid q1 ∧ unread q1 = unread q ++ [cc0] ∧ q1 ≠ q ∧
            q1.hitTickEndPtr = q.hitTickEndPtr := by
          obtain ⟨a, b, c⟩ := unread_push q cc0 hv hfull
          exact ⟨_, TCC0_Handler_push q cc0 hv hfull, a, b, c, rfl⟩
        have hlt : unreadCount q < q.hitTickEndPtr := by omega
        rw [hq1, Option.some_bind, if_pos hlt, ← hu1, ← hend, ← ih q1 s hv1 (by rw [hend]; exact hf),
          Option.map_map, Option.map_map]
        congr 1
        funext r
        simp [hne1]
    | drain =>
      rw [runRing, runFifo, loop,
        loopFuel_eq_feedEdges N millis (unreadCount q) fuel 0 q s hv rfl
          (lt_of_le_of_lt (unreadCount_le q hv) hf)]
      cases feedEdges N millis 0 s (unread q) with
      | none => rfl
      | some t =>
        rw [Option.map_some', Option.some_bind, Option.some_bind,
          ih (drained q) t (ringValid_drained q hv) hf, unread_drained q hv]
        rfl

theorem runFifo_sensorInv (cap N : Nat) (millis : Nat → Nat) (ops : List RingOp) :
    ∀ (p : List Nat) (s : LighthouseSensor), sensorInv N s →
      ∃ r, runFifo cap N millis p s ops = some r := by
  induction ops with
  | nil => intro p s _; exact ⟨_, rfl⟩
  | cons op ops ih =>
    intro p s hs
    cases op with
    | push cc0 =>
      rw [runFifo]
      split_ifs
      · obtain ⟨r, hr⟩ := ih (p ++ [cc0]) s hs
        rw [hr]
        exact ⟨_, rfl⟩
      · obtain ⟨r, hr⟩ := ih p s hs
        rw [hr]
        exact ⟨_, rfl⟩
    | drain =>
      obtain ⟨t, ht, hit⟩ := feedEdges_sensorInv N millis p 0 s hs
      rw [runFifo, ht, Option.some_bind]
      exact ih [] t hit

/-- C16: on a ring that starts empty (the write cursor is the slot after the
read cursor), every sequential interleaving of capture-handler pushes and
loop() calls runs to completion and behaves as a bounded FIFO whose capacity is
the number of slots minus one: the same pushes are accepted (a push is accepted
exactly when fewer than that many entries are unread), the decoder is handed
the accepted timestamps in push order, each once, and the entries left unread
are the FIFO's pending entries. -/
theorem ring_refines_fifo (N : Nat) (millis : Nat → Nat) (fuel : Nat)
    (q : LighthouseSensorInput) (s : LighthouseSensor) (ops : List RingOp)
    (hv : ringValid q) (hempty : nextReadPtr q = q.hitTickWritePtr)
    (hs : sensorInv N s) (hfuel : q.hitTickEndPtr < fuel) :
    ∃ r, runRing N millis fuel q s ops = some r ∧
      runFifo q.hitTickEndPtr N millis [] s ops = some (unread r.1, r.2.1, r.2.2) := by
  have hu : unread q = [] := by
    apply List.eq_nil_of_length_eq_zero
    rw [unread_length]
    exact (unreadCount_eq_zero_iff q hv).mpr hempty
  have hsim := runRing_simulates N millis fuel ops q s hv hfuel
  rw [hu] at hsim
  obtain ⟨r0, hr0⟩ := runFifo_sensorInv q.hitTickEndPtr N millis ops [] s hs
  rw [hr0] at hsim
  cases hr : runRing N millis fuel q s ops with
  | none => rw [hr] at hsim; cases hsim
  | some r =>
    rw [hr, Option.map_some'] at hsim
    exact ⟨r, rfl, by rw [hr0, ← hsim]⟩

theorem ring_refines_fifo_witness :
    (ringValid sampleEmptyInput ∧
      nextReadPtr sampleEmptyInput = sampleEmptyInput.hitTickWritePtr ∧
      sensorInv 2 (LighthouseSensor.init [0, 0] SensorCycleData.zero SensorCycleData.zero) ∧
      sampleEmptyInput.hitTickEndPtr < 4) ∧
    ∃ r, runRing 2 (fun k => 10 + k) 4 sampleEmptyInput
          (LighthouseSensor.init [0, 0] SensorCycleData.zero SensorCycleData.zero)
          [RingOp.push 1000, RingOp.push 4450, RingOp.push 104450, RingOp.push 104500,
           RingOp.drain, RingOp.push 204500, RingOp.drain] = some r ∧
      runFifo sampleEmptyInput.hitTickEndPtr 2 (fun k => 10 + k) []
          (LighthouseSensor.init [0, 0] SensorCycleData.zero SensorCycleData.zero)
          [RingOp.push 1000, RingOp.push 4450, RingOp.push 104450, RingOp.push 104500,
           RingOp.drain, RingOp.push 204500, RingOp.drain]
        = some (unread r.1, r.2.1, r.2.2) :=
  ⟨⟨by decide, by decide,
      ⟨Or.inl rfl, by decide, by decide, rfl, by decide⟩, by decide⟩,
    ring_refines_fifo 2 (fun k => 10 + k) 4 sampleEmptyInput
      (LighthouseSensor.init [0, 0] SensorCycleData.zero SensorCycleData.zero)
      [RingOp.push 1000, RingOp.push 4450, RingOp.push 104450, RingOp.push 104500,
       RingOp.drain, RingOp.push 204500, RingOp.drain]
      (by decide) (by decide) ⟨Or.inl rfl, by decide, by decide, rfl, by decide⟩ (by decide)⟩

/-- C17: for every well-formed ring and decoder state, with no push during the
call, loop() returns after handing the decoder exactly the unread entries,
oldest first (one iteration each, at most hitTickEndPtr of them, that is the
number of slots minus one), and leaves the ring empty (the slot after the read
cursor is the write cursor); when the ring is already empty it changes neither
the read cursor nor the decoder state. -/
theorem loop_drains_ring (N : Nat) (millis : Nat → Nat) (fuel : Nat)
    (q : LighthouseSensorInput) (s : LighthouseSensor)
    (hv : ringValid q) (hs : sensorInv N s) (hfuel : unreadCount q < fuel) :
    (unread q).length = unreadCount q ∧ unreadCount q ≤ q.hitTickEndPtr ∧
    ∃ q1 t, loop N millis fuel q s = some (q1, t) ∧
      feedEdges N millis 0 s (unread q) = some t ∧
      q1.hitTickBuffer = q.hitTickBuffer ∧ q1.hitTickWritePtr = q.hitTickWritePtr ∧
      q1.hitTickEndPtr = q.hitTickEndPtr ∧
      nextReadPtr q1 = q1.hitTickWritePtr ∧
      (nextReadPtr q = q.hitTickWritePtr → q1 = q ∧ t = s) := by
  refine ⟨unread_length q, unreadCount_le q hv, ?_⟩
  obtain ⟨t, ht, -⟩ := feedEdges_sensorInv N millis (unread q) 0 s hs
  refine ⟨drained q, t, ?_, ht, rfl, rfl, rfl, nextReadPtr_drained q hv, ?_⟩
  · rw [loop, loopFuel_eq_feedEdges N millis (unreadCount q) fuel 0 q s hv rfl hfuel, ht]
    rfl
  · intro he
    refine ⟨drained_of_empty q hv he, ?_⟩
    have hu : unread q = [] := by
      apply List.eq_nil_of_length_eq_zero
      rw [unread_length]
      exact (unreadCount_eq_zero_iff q hv).mpr he
    rw [hu, feedEdges] at ht
    cases ht
    rfl

theorem loop_drains_ring_witness :
    (ringValid sampleInput ∧
      sensorInv 2 (LighthouseSensor.init [0, 0] SensorCycleData.zero SensorCycleData.zero) ∧
      unreadCount sampleInput < 5) ∧
    ((unread sampleInput).length = unreadCount sampleInput ∧
      unreadCount sampleInput ≤ sampleInput.hitTickEndPtr ∧
      ∃ q1 t, loop 2 (fun k => 10 + k) 5 sampleInput
          (LighthouseSensor.init [0, 0] SensorCycleData.zero SensorCycleData.zero)
          = some (q1, t) ∧
        feedEdges 2 (fun k => 10 + k) 0
          (LighthouseSensor.init [0, 0] SensorCycleData.zero SensorCycleData.zero)
          (unread sampleInput) = some t ∧
        q1.hitTickBuffer = sampleInput.hitTickBuffer ∧
        q1.hitTickWritePtr = sampleInput.hitTickWritePtr ∧
        q1.hitTickEndPtr = sampleInput.hitTickEndPtr ∧
        nextReadPtr q1 = q1.hitTickWritePtr ∧
        (nextReadPtr sampleInput = sampleInput.hitTickWritePtr →
          q1 = sampleInput ∧
            t = LighthouseSensor.init [0, 0] SensorCycleData.zero SensorCycleData.zero)) :=
  ⟨⟨by decide, ⟨Or.inl rfl, by decide, by decide, rfl, by decide⟩, by decide⟩,
    loop_drains_ring 2 (fun k => 10 + k) 5 sampleInput
      (LighthouseSensor.init [0, 0] SensorCycleData.zero SensorCycleData.zero)
      (by decide) ⟨Or.inl rfl, by decide, by decide, rfl, by decide⟩ (by decide)⟩


/-! ## Exactness of the rounding on representable numbers -/

theorem roundHalfEven_intCast (z : ℤ) : roundHalfEven (z : ℚ) = z := by
  unfold roundHalfEven
  rw [Int.floor_intCast, sub_self, if_pos (by norm_num)]

theorem log_two_mul_lt (n : ℕ) (k : ℤ) (p : ℕ) (hn0 : 0 < n) (hn : n < 2 ^ p) :
    Int.log 2 ((n : ℚ) * 2 ^ k) < k + p := by
  have hx : (0 : ℚ) < (n : ℚ) * 2 ^ k := by positivity
  rw [← Int.lt_zpow_iff_log_lt (by norm_num) hx]
  have h1 : ((2 : ℕ) : ℚ) ^ (k + (p : ℤ)) = 2 ^ p * 2 ^ k := by
    rw [zpow_add₀ (by norm_num), zpow_natCast, mul_comm]
    norm_num
  rw [h1]
  have h2 : (n : ℚ) < 2 ^ p := by exact_mod_cast hn
  have h3 : (0 : ℚ) < 2 ^ k := by positivity
  exact mul_lt_mul_of_pos_right h2 h3

/-- Dividing `n * 2 ^ k` by a power of two not above `2 ^ k` gives an integer. -/
theorem div_two_zpow_eq_intCast (n : ℕ) (k e : ℤ) (h : e ≤ k) :
    (n : ℚ) * 2 ^ k / 2 ^ e = (((n : ℤ) * 2 ^ (k - e).toNat : ℤ) : ℚ) := by
  have hj : ((k - e).toNat : ℤ) = k - e := Int.toNat_of_nonneg (by omega)
  have h2 : (2 : ℚ) ^ k = 2 ^ (k - e).toNat * 2 ^ e := by
    rw [← zpow_natCast, hj, ← zpow_add₀ (by norm_num)]
    congr 1
    omega
  rw [h2]
  have h3 : (2 : ℚ) ^ e ≠ 0 := by positivity
  field_simp
  ring

/-- A magnitude that the format represents is its own rounding. -/
theorem roundBinary_exact (p : Nat) (emin : Int) (n : ℕ) (k : ℤ)
    (hn0 : 0 < n) (hn : n < 2 ^ p) (hk : emin - ((p : ℤ) - 1) ≤ k) :
    roundBinary p emin ((n : ℚ) * 2 ^ k) = (n : ℚ) * 2 ^ k := by
  have hx : (0 : ℚ) < (n : ℚ) * 2 ^ k := by positivity
  have hlog := log_two_mul_lt n k p hn0 hn
  have he : max (Int.log 2 ((n : ℚ) * 2 ^ k)) emin - ((p : ℤ) - 1) ≤ k := by
    rcases max_cases (Int.log 2 ((n : ℚ) * 2 ^ k)) emin with ⟨h1, -⟩ | ⟨h1, -⟩ <;> rw [h1] <;> omega
  unfold roundBinary
  rw [if_neg (ne_of_gt hx), div_two_zpow_eq_intCast n k _ he, roundHalfEven_intCast,
    ← div_two_zpow_eq_intCast n k _ he]
  have h3 : (2 : ℚ) ^ (max (Int.log 2 ((n : ℚ) * 2 ^ k)) emin - ((p : ℤ) - 1)) ≠ 0 := by
    positivity
  field_simp

/-- Decoding of a pattern assembled from a sign, an exponent field and a
significand below `2 ^ 24` (the hidden bit carries into the exponent field). -/
theorem float32_fields (S B M : ℕ) (hS : S = 0 ∨ S = 2 ^ 31) (hB : B ≤ 253) (hM : M < 2 ^ 24)
    (hsub : M < 2 ^ 23 → B = 0) :
    min (B * 2 ^ 23 + M) 0x7F800000 = B * 2 ^ 23 + M ∧
    (S + (B * 2 ^ 23 + M)) / 2 ^ 31 % 2 = S / 2 ^ 31 ∧
    (S + (B * 2 ^ 23 + M)) / 2 ^ 23 % 256 ≠ 255 ∧
    (M < 2 ^ 23 → (S + (B * 2 ^ 23 + M)) / 2 ^ 23 % 256 = 0 ∧
      (S + (B * 2 ^ 23 + M)) % 2 ^ 23 = M) ∧
    (2 ^ 23 ≤ M → (S + (B * 2 ^ 23 + M)) / 2 ^ 23 % 256 = B + 1 ∧
      2 ^ 23 + (S + (B * 2 ^ 23 + M)) % 2 ^ 23 = M) := by
  norm_num at *
  rcases hS with h | h <;> subst h <;> refine ⟨?_, ?_, ?_, ?_, ?_⟩ <;> omega

/-- A magnitude that binary32 represents converts to the pattern that denotes
it, with the sign asked for and an exponent field below 255. -/
theorem doubleToFloat_exact (neg : Bool) (n : ℕ) (k : ℤ)
    (hn0 : 0 < n) (hn : n < 2 ^ 24) (hk : -149 ≤ k) (hx128 : (n : ℚ) * 2 ^ k < 2 ^ (128 : ℤ)) :
    float32Magnitude (doubleToFloat neg ((n : ℚ) * 2 ^ k)) = (n : ℚ) * 2 ^ k ∧
    float32Sign (doubleToFloat neg ((n : ℚ) * 2 ^ k)) = neg ∧
    doubleToFloat neg ((n : ℚ) * 2 ^ k) / 2 ^ 23 % 256 ≠ 255 := by
  have hx : (0 : ℚ) < (n : ℚ) * 2 ^ k := by positivity
  have hlog := log_two_mul_lt n k 24 hn0 hn
  have two : (1 : ℕ) < 2 := by norm_num
  have hL128 : Int.log 2 ((n : ℚ) * 2 ^ k) < 128 := by
    rw [← Int.lt_zpow_iff_log_lt two hx]
    exact_mod_cast hx128
  have hlo : ((2 : ℕ) : ℚ) ^ Int.log 2 ((n : ℚ) * 2 ^ k) ≤ (n : ℚ) * 2 ^ k :=
    Int.zpow_log_le_self two hx
  have hhi : (n : ℚ) * 2 ^ k < ((2 : ℕ) : ℚ) ^ (Int.log 2 ((n : ℚ) * 2 ^ k) + 1) :=
    Int.lt_zpow_succ_log_self two _
  generalize hLdef : Int.log 2 ((n : ℚ) * 2 ^ k) = L at hlog hL128 hlo hhi
  have he : max L (-126) - 23 ≤ k := by
    rcases max_cases L (-126) with ⟨h1, -⟩ | ⟨h1, -⟩ <;> rw [h1] <;> omega
  -- the significand as a natural number
  have hdiv := div_two_zpow_eq_intCast n k (max L (-126) - 23) he
  have hM : (roundHalfEven ((n : ℚ) * 2 ^ k / 2 ^ (max L (-126) - 23))).toNat
      = n * 2 ^ (k - (max L (-126) - 23)).toNat := by
    rw [hdiv, roundHalfEven_intCast]
    have : ((n : ℤ) * 2 ^ (k - (max L (-126) - 23)).toNat) =
        ((n * 2 ^ (k - (max L (-126) - 23)).toNat : ℕ) : ℤ) := by push_cast; rfl
    rw [this, Int.toNat_natCast]
  generalize hMdef : n * 2 ^ (k - (max L (-126) - 23)).toNat = M at hM
  have hxM : (n : ℚ) * 2 ^ k = (M : ℚ) * 2 ^ (max L (-126) - 23) := by
    have h3 : (2 : ℚ) ^ (max L (-126) - 23) ≠ 0 := by positivity
    rw [← hMdef, ← div_eq_iff h3, hdiv]
    push_cast
    rfl
  have hE : max L (-126) = L ∧ -126 ≤ L ∨ max L (-126) = -126 ∧ L < -126 := by
    rcases max_cases L (-126) with ⟨h1, h2⟩ | ⟨h1, h2⟩
    · exact Or.inl ⟨h1, h2⟩
    · exact Or.inr ⟨h1, h2⟩
  have hunf : doubleToFloat neg ((n : ℚ) * 2 ^ k) =
      (if neg then 2 ^ 31 else 0) +
        min ((max L (-126) + 126).toNat * 2 ^ 23 + M) 0x7F800000 := by
    unfold doubleToFloat
    rw [if_neg (ne_of_gt hx), hLdef, hM]
    rfl
  have hS : (if neg then 2 ^ 31 else 0 : ℕ) = 0 ∨ (if neg then 2 ^ 31 else 0 : ℕ) = 2 ^ 31 := by
    cases neg
    · exact Or.inl rfl
    · exact Or.inr rfl
  rcases hE with ⟨hEq, hge⟩ | ⟨hEq, hlt⟩
  · -- normal range
    rw [hEq] at hxM hunf
    have hMlo : 2 ^ 23 ≤ M := by
      have h1 : ((2 : ℕ) : ℚ) ^ L = 2 ^ (23 : ℕ) * 2 ^ (L - 23) := by
        rw [← zpow_natCast, Nat.cast_ofNat, ← zpow_add₀ (by norm_num)]
        congr 1
        omega
      rw [h1, hxM] at hlo
      have h3 : (0 : ℚ) < 2 ^ (L - 23) := by positivity
      have := le_of_mul_le_mul_right hlo h3
      exact_mod_cast this
    have hMhi : M < 2 ^ 24 := by
      have h1 : ((2 : ℕ) : ℚ) ^ (L + 1) = 2 ^ (24 : ℕ) * 2 ^ (L - 23) := by
        rw [← zpow_natCast, Nat.cast_ofNat, ← zpow_add₀ (by norm_num)]
        congr 1
        omega
      rw [h1, hxM] at hhi
      have h3 : (0 : ℚ) < 2 ^ (L - 23) := by positivity
      have := lt_of_mul_lt_mul_right hhi (le_of_lt h3)
      exact_mod_cast this
    obtain ⟨B, hB⟩ : ∃ B : ℕ, (L + 126).toNat = B ∧ (B : ℤ) = L + 126 :=
      ⟨_, rfl, Int.toNat_of_nonneg (by omega)⟩
    rw [hB.1] at hunf
    obtain ⟨f1, f2, f3, -, f5⟩ := float32_fields _ B M hS (by omega) hMhi (by omega)
    obtain ⟨f5a, f5b⟩ := f5 hMlo
    rw [f1] at hunf
    refine ⟨?_, ?_, ?_⟩
    · unfold float32Magnitude
      rw [hunf, f5a, if_neg (by omega), f5b, hxM]
      congr 2
      push_cast
      omega
    · unfold float32Sign
      rw [hunf, f2]
      cases neg <;> simp
    · rw [hunf]
      exact f3
  · -- subnormal range
    rw [hEq] at hxM hunf
    have hMhi : M < 2 ^ 23 := by
      have h0 : (n : ℚ) * 2 ^ k < ((2 : ℕ) : ℚ) ^ (-126 : ℤ) := by
        rw [Int.lt_zpow_iff_log_lt two hx, hLdef]
        exact hlt
      have h1 : ((2 : ℕ) : ℚ) ^ (-126 : ℤ) = 2 ^ (23 : ℕ) * 2 ^ ((-126 : ℤ) - 23) := by
        rw [← zpow_natCast, Nat.cast_ofNat, ← zpow_add₀ (by norm_num)]
        congr 1
      rw [h1, hxM] at h0
      have h3 : (0 : ℚ) < 2 ^ ((-126 : ℤ) - 23) := by positivity
      have := lt_of_mul_lt_mul_right h0 (le_of_lt h3)
      exact_mod_cast this
    have hB0 : ((-126 : ℤ) + 126).toNat = 0 := by decide
    rw [hB0] at hunf
    obtain ⟨f1, f2, f3, f4, -⟩ := float32_fields _ 0 M hS (by omega) (by omega) (fun _ => rfl)
    obtain ⟨f4a, f4b⟩ := f4 hMhi
    rw [f1] at hunf
    refine ⟨?_, ?_, ?_⟩
    · unfold float32Magnitude
      rw [hunf, f4a, if_pos rfl, f4b, hxM]
      congr 1
    · unfold float32Sign
      rw [hunf, f2]
      cases neg <;> simp
    · rw [hunf]
      exact f3

/-! ## The bit fields of a half-precision pattern -/

theorem and_shiftLeft_eq (h c i : ℕ) : h &&& (c <<< i) = ((h >>> i) &&& c) <<< i := by
  apply Nat.eq_of_testBit_eq
  intro j
  simp only [Nat.testBit_and, Nat.testBit_shiftLeft, Nat.testBit_shiftRight]
  by_cases hj : j ≥ i
  · simp [hj, Nat.add_sub_cancel' hj]
  · simp [hj]

theorem half_exponent_mask (h : ℕ) : h &&& 0x7c00 = (h / 2 ^ 10 % 32) * 2 ^ 10 := by
  have e1 : (0x7c00 : ℕ) = 31 <<< 10 := by decide
  have e2 : (31 : ℕ) = 2 ^ 5 - 1 := by decide
  rw [e1, and_shiftLeft_eq, Nat.shiftRight_eq_div_pow, Nat.shiftLeft_eq, e2,
    Nat.and_pow_two_sub_one_eq_mod]

theorem half_sign_mask (h : ℕ) : h &&& 0x8000 = (h / 2 ^ 15 % 2) * 2 ^ 15 := by
  have e1 : (0x8000 : ℕ) = 2 ^ 15 := by decide
  rw [e1, Nat.and_two_pow, Nat.toNat_testBit]

/-- The pattern built at line 79, by fields: the sign in bit 31, the five
exponent bits from bit 23 up, the ten significand bits from bit 13 up. -/
theorem half_widened (h : ℕ) (hh : h < 2 ^ 16) :
    (((h &&& 0x7fff) <<< 13) ||| ((h &&& 0x8000) <<< 16)) % 2 ^ 32 =
      (h / 2 ^ 15) * 2 ^ 31 + (h / 2 ^ 10 % 32) * 2 ^ 23 + (h % 2 ^ 10) * 2 ^ 13 := by
  have e1 : (0x7fff : ℕ) = 2 ^ 15 - 1 := by decide
  rw [half_sign_mask, e1, Nat.and_pow_two_sub_one_eq_mod, Nat.shiftLeft_eq, Nat.shiftLeft_eq,
    Nat.or_comm]
  have e2 : h / 2 ^ 15 % 2 * 2 ^ 15 * 2 ^ 16 = 2 ^ 31 * (h / 2 ^ 15 % 2) := by ring
  have hb : h % 2 ^ 15 * 2 ^ 13 < 2 ^ 31 := by
    have : h % 2 ^ 15 < 2 ^ 15 := Nat.mod_lt _ (by norm_num)
    norm_num at this ⊢
    omega
  rw [e2, ← Nat.mul_add_lt_is_or hb]
  norm_num at hh ⊢
  omega

/-- The pattern returned for an infinity or a NaN. -/
theorem half_widened_special (s m : ℕ) (hs : s < 2) (hm : m < 2 ^ 10) :
    (s * 2 ^ 31 + 31 * 2 ^ 23 + m * 2 ^ 13) ||| 0x7f800000 =
      (s <<< 31) ||| 0x7F800000 ||| (m <<< 13) := by
  have hb : m * 2 ^ 13 < 2 ^ 23 := by
    norm_num at hm ⊢
    omega
  have l1 : s * 2 ^ 31 + 31 * 2 ^ 23 + m * 2 ^ 13 = 2 ^ 23 * (s * 256 + 31) ||| m * 2 ^ 13 := by
    rw [← Nat.mul_add_lt_is_or hb]
    ring
  rw [l1, Nat.shiftLeft_eq, Nat.shiftLeft_eq, Nat.or_assoc, Nat.or_comm (m * 2 ^ 13),
    ← Nat.or_assoc]
  congr 1
  interval_cases s <;> decide

/-! ## The value `float16ToFloat32` returns -/

theorem zpow_two_le_of_le (a b : ℤ) (h : a ≤ b) : (2 : ℚ) ^ a ≤ 2 ^ b :=
  zpow_le_zpow_right₀ (by norm_num) h

/-- Finite half-precision patterns: the result is a finite binary32 pattern
whose value is the value of the half-precision number. -/
theorem float16ToFloat32_finite (h : ℕ) (hh : h < 2 ^ 16) (he : h / 2 ^ 10 % 32 ≠ 31) :
    float16ToFloat32 h / 2 ^ 23 % 256 ≠ 255 ∧
    float32Value (float16ToFloat32 h) =
      (-1 : ℚ) ^ (h / 2 ^ 15) *
        (if h / 2 ^ 10 % 32 = 0 then ((h % 2 ^ 10 : ℕ) : ℚ) * 2 ^ (-24 : ℤ)
          else ((2 ^ 10 + h % 2 ^ 10 : ℕ) : ℚ) * 2 ^ (((h / 2 ^ 10 % 32 : ℕ) : ℤ) - 25)) := by
  have hs : h / 2 ^ 15 < 2 := by
    norm_num at hh ⊢
    omega
  have he32 : h / 2 ^ 10 % 32 < 32 := Nat.mod_lt _ (by norm_num)
  have hm : h % 2 ^ 10 < 2 ^ 10 := Nat.mod_lt _ (by norm_num)
  unfold float16ToFloat32
  dsimp only
  rw [half_widened h hh, half_exponent_mask]
  generalize h / 2 ^ 15 = s at hs
  generalize h / 2 ^ 10 % 32 = e at he he32
  generalize h % 2 ^ 10 = m at hm
  rw [if_pos (by norm_num; omega)]
  have hsign : float32Sign (s * 2 ^ 31 + e * 2 ^ 23 + m * 2 ^ 13) = decide (s = 1) := by
    unfold float32Sign
    have : (s * 2 ^ 31 + e * 2 ^ 23 + m * 2 ^ 13) / 2 ^ 31 % 2 = s := by
      norm_num at hm ⊢
      omega
    rw [this]
  have hfield : (s * 2 ^ 31 + e * 2 ^ 23 + m * 2 ^ 13) / 2 ^ 23 % 256 = e := by
    norm_num at hm ⊢
    omega
  have hmant : (s * 2 ^ 31 + e * 2 ^ 23 + m * 2 ^ 13) % 2 ^ 23 = m * 2 ^ 13 := by
    norm_num at hm ⊢
    omega
  have hval : ∀ (n : ℕ) (k : ℤ), 0 < n → n < 2 ^ 24 → -149 ≤ k →
      (n : ℚ) * 2 ^ k < 2 ^ (128 : ℤ) →
      float32Magnitude (s * 2 ^ 31 + e * 2 ^ 23 + m * 2 ^ 13) * 2 ^ 112 = (n : ℚ) * 2 ^ k →
      doubleToFloat (decide (s = 1)) (doubleMul
          (float32Magnitude (s * 2 ^ 31 + e * 2 ^ 23 + m * 2 ^ 13)) (2 ^ 112)) / 2 ^ 23 % 256
        ≠ 255 ∧
      float32Value (doubleToFloat (decide (s = 1)) (doubleMul
          (float32Magnitude (s * 2 ^ 31 + e * 2 ^ 23 + m * 2 ^ 13)) (2 ^ 112)))
        = (-1 : ℚ) ^ s * ((n : ℚ) * 2 ^ k) := by
    intro n k hn0 hn hk hx hprod
    unfold doubleMul
    rw [hprod, roundBinary_exact 53 (-1022) n k hn0
      (lt_of_lt_of_le hn (Nat.pow_le_pow_right (by norm_num) (by norm_num))) (by norm_num; omega)]
    obtain ⟨d1, d2, d3⟩ := doubleToFloat_exact (decide (s = 1)) n k hn0 hn hk hx
    refine ⟨d3, ?_⟩
    unfold float32Value
    rw [d1, d2]
    interval_cases s <;> simp
  rw [hsign]
  by_cases he0 : e = 0
  · rw [if_pos he0]
    have hmag : float32Magnitude (s * 2 ^ 31 + e * 2 ^ 23 + m * 2 ^ 13) * 2 ^ 112
        = (m : ℚ) * 2 ^ (-24 : ℤ) := by
      unfold float32Magnitude
      rw [hfield, if_pos he0, hmant]
      push_cast
      have : (2 : ℚ) ^ (-149 : ℤ) * 2 ^ (112 : ℕ) * 2 ^ (13 : ℕ) = 2 ^ (-24 : ℤ) := by
        rw [← zpow_natCast, ← zpow_natCast, ← zpow_add₀ (by norm_num), ← zpow_add₀ (by norm_num)]
        norm_num
      rw [← this]
      ring
    by_cases hm0 : m = 0
    · subst hm0
      subst he0
      have hz : float32Magnitude (s * 2 ^ 31 + 0 * 2 ^ 23 + 0 * 2 ^ 13) = 0 := by
        unfold float32Magnitude
        rw [hfield, if_pos rfl, hmant]
        simp
      unfold doubleMul roundBinary
      rw [hz, zero_mul, if_pos rfl]
      unfold doubleToFloat
      rw [if_pos rfl]
      interval_cases s <;>
        simp [float32Value, float32Sign, float32Magnitude]
    · exact hval m (-24) (by omega) (by norm_num at hm ⊢; omega) (by norm_num)
        (by
          have h1 : (m : ℚ) < 2 ^ (10 : ℕ) := by exact_mod_cast hm
          have h2 : (2 : ℚ) ^ (-24 : ℤ) ≤ 2 ^ (0 : ℤ) := zpow_two_le_of_le _ _ (by norm_num)
          have h3 : (0 : ℚ) < 2 ^ (-24 : ℤ) := by positivity
          calc (m : ℚ) * 2 ^ (-24 : ℤ) < 2 ^ (10 : ℕ) * 2 ^ (-24 : ℤ) :=
                mul_lt_mul_of_pos_right h1 h3
            _ ≤ 2 ^ (10 : ℕ) * 2 ^ (0 : ℤ) := by gcongr
            _ ≤ 2 ^ (128 : ℤ) := by norm_num)
        hmag
  · rw [if_neg he0]
    have hmag : float32Magnitude (s * 2 ^ 31 + e * 2 ^ 23 + m * 2 ^ 13) * 2 ^ 112
        = ((2 ^ 10 + m : ℕ) : ℚ) * 2 ^ ((e : ℤ) - 25) := by
      unfold float32Magnitude
      rw [hfield, if_neg he0, hmant]
      push_cast
      have : (2 : ℚ) ^ ((e : ℤ) - 150) * 2 ^ (112 : ℕ) * 2 ^ (13 : ℕ) = 2 ^ ((e : ℤ) - 25) := by
        rw [← zpow_natCast, ← zpow_natCast, ← zpow_add₀ (by norm_num), ← zpow_add₀ (by norm_num)]
        congr 1
        push_cast
        ring
      rw [← this]
      ring
    exact hval (2 ^ 10 + m) ((e : ℤ) - 25) (by positivity) (by norm_num at hm ⊢; omega)
      (by omega)
      (by
        have h1 : ((2 ^ 10 + m : ℕ) : ℚ) < 2 ^ (11 : ℕ) := by
          have : 2 ^ 10 + m < 2 ^ 11 := by norm_num at hm ⊢; omega
          exact_mod_cast this
        have h2 : (2 : ℚ) ^ ((e : ℤ) - 25) ≤ 2 ^ (6 : ℤ) := zpow_two_le_of_le _ _ (by omega)
        have h3 : (0 : ℚ) < 2 ^ ((e : ℤ) - 25) := by positivity
        calc ((2 ^ 10 + m : ℕ) : ℚ) * 2 ^ ((e : ℤ) - 25)
            < 2 ^ (11 : ℕ) * 2 ^ ((e : ℤ) - 25) := mul_lt_mul_of_pos_right h1 h3
          _ ≤ 2 ^ (11 : ℕ) * 2 ^ (6 : ℤ) := by gcongr
          _ ≤ 2 ^ (128 : ℤ) := by norm_num)
      hmag

/-- C18: for every 16-bit pattern h with sign s = h / 2^15, exponent field
e = (h / 2^10) mod 32 and mantissa m = h mod 2^10, float16ToFloat32(h) denotes
the value of h read as an IEEE binary16 number: for e other than 31 the result
is a finite binary32 pattern whose value is exactly
(-1)^s * 2^(e - 15) * (1 + m / 1024) when e is at least 1 and
(-1)^s * m * 2^(-24) when e = 0; for e = 31 the pattern returned is
(s << 31) | 0x7F800000 | (m << 13), an infinity or a NaN. -/
theorem float16ToFloat32_denotes_binary16 (h : ℕ) (hh : h < 2 ^ 16) :
    (h / 2 ^ 10 % 32 ≠ 31 → float16ToFloat32 h / 2 ^ 23 % 256 ≠ 255) ∧
    (1 ≤ h / 2 ^ 10 % 32 → h / 2 ^ 10 % 32 ≠ 31 →
      float32Value (float16ToFloat32 h) =
        (-1 : ℚ) ^ (h / 2 ^ 15) * 2 ^ (((h / 2 ^ 10 % 32 : ℕ) : ℤ) - 15) *
          (1 + ((h % 2 ^ 10 : ℕ) : ℚ) / 1024)) ∧
    (h / 2 ^ 10 % 32 = 0 →
      float32Value (float16ToFloat32 h) =
        (-1 : ℚ) ^ (h / 2 ^ 15) * ((h % 2 ^ 10 : ℕ) : ℚ) * 2 ^ (-24 : ℤ)) ∧
    (h / 2 ^ 10 % 32 = 31 →
      float16ToFloat32 h = ((h / 2 ^ 15) <<< 31) ||| 0x7F800000 ||| ((h % 2 ^ 10) <<< 13)) := by
  refine ⟨fun he => (float16ToFloat32_finite h hh he).1, ?_, ?_, ?_⟩
  · intro h1 he
    rw [(float16ToFloat32_finite h hh he).2, if_neg (by omega)]
    have e1 : (2 : ℚ) ^ (((h / 2 ^ 10 % 32 : ℕ) : ℤ) - 15)
        = 2 ^ (((h / 2 ^ 10 % 32 : ℕ) : ℤ) - 25) * 1024 := by
      have : (1024 : ℚ) = 2 ^ (10 : ℤ) := by norm_num
      rw [this, ← zpow_add₀ (by norm_num)]
      congr 1
      ring
    rw [e1]
    push_cast
    ring
  · intro he0
    rw [(float16ToFloat32_finite h hh (by omega)).2, if_pos he0]
    ring
  · intro he
    have hs : h / 2 ^ 15 < 2 := by
      norm_num at hh ⊢
      omega
    have hm : h % 2 ^ 10 < 2 ^ 10 := Nat.mod_lt _ (by norm_num)
    unfold float16ToFloat32
    dsimp only
    rw [half_widened h hh, half_exponent_mask, he, if_neg (by decide)]
    exact half_widened_special _ _ hs hm

theorem float16ToFloat32_denotes_binary16_witness :
    (0x7BFF < 2 ^ 16 ∧ 0x0000 < 2 ^ 16 ∧ 0x8000 < 2 ^ 16 ∧ 0xFC01 < 2 ^ 16) ∧
    float32Value (float16ToFloat32 0x7BFF) = 65504 ∧
    float32Value (float16ToFloat32 0x0000) = 0 ∧
    float32Value (float16ToFloat32 0x8000) = 0 ∧
    float16ToFloat32 0xFC01 = 0xFF802000 :=
  ⟨⟨by decide, by decide, by decide, by decide⟩,
    by
      have h1 := (float16ToFloat32_denotes_binary16 0x7BFF (by decide)).2.1 (by decide)
        (by decide)
      rw [h1]
      norm_num,
    by
      have h1 := (float16ToFloat32_denotes_binary16 0x0000 (by decide)).2.2.1 (by decide)
      rw [h1]
      norm_num,
    by
      have h1 := (float16ToFloat32_denotes_binary16 0x8000 (by decide)).2.2.1 (by decide)
      rw [h1]
      norm_num,
    by
      have h1 := (float16ToFloat32_denotes_binary16 0xFC01 (by decide)).2.2.2 (by decide)
      rw [h1]
      decide⟩


/-! ## The position fix -/

/-- C19: with both sweep-hit timestamps nonzero and T the larger of the two,
recalculatePosition changes nothing when T equals positionTimeStamp; otherwise
it sets positionTimeStamp to T, stores the new fix, and moves the old position
and its timestamp to previousPositionVector and previousPositionTimeStamp;
hence a second call on unchanged cycle data returns the state of the first. -/
theorem recalculatePosition_new_fix {V : Type} (fix : LighthouseSensor → V)
    (s : LighthouseSensor) (p : SensorPosition V)
    (h0 : s.cycleData0.sweepHitTimeStamp ≠ 0) (h1 : s.cycleData1.sweepHitTimeStamp ≠ 0) :
    (max s.cycleData0.sweepHitTimeStamp s.cycleData1.sweepHitTimeStamp ≠ p.positionTimeStamp →
      (recalculatePosition fix s p).positionTimeStamp =
          max s.cycleData0.sweepHitTimeStamp s.cycleData1.sweepHitTimeStamp ∧
        (recalculatePosition fix s p).positionVector = fix s ∧
        (recalculatePosition fix s p).previousPositionVector = p.positionVector ∧
        (recalculatePosition fix s p).previousPositionTimeStamp = p.positionTimeStamp) ∧
    (max s.cycleData0.sweepHitTimeStamp s.cycleData1.sweepHitTimeStamp = p.positionTimeStamp →
      recalculatePosition fix s p = p) ∧
    recalculatePosition fix s (recalculatePosition fix s p) = recalculatePosition fix s p := by
  have hg : ¬ (s.cycleData0.sweepHitTimeStamp = 0 ∨ s.cycleData1.sweepHitTimeStamp = 0) := by
    rintro (h | h)
    · exact h0 h
    · exact h1 h
  have hmax : (if s.cycleData0.sweepHitTimeStamp > s.cycleData1.sweepHitTimeStamp then
        s.cycleData0.sweepHitTimeStamp else s.cycleData1.sweepHitTimeStamp)
      = max s.cycleData0.sweepHitTimeStamp s.cycleData1.sweepHitTimeStamp := by
    split_ifs <;> omega
  have hrec : ∀ q : SensorPosition V, recalculatePosition fix s q =
      if q.positionTimeStamp = max s.cycleData0.sweepHitTimeStamp s.cycleData1.sweepHitTimeStamp
      then q
      else
        { previousPositionVector := q.positionVector
          previousPositionTimeStamp := q.positionTimeStamp
          positionVector := fix s
          positionTimeStamp :=
            max s.cycleData0.sweepHitTimeStamp s.cycleData1.sweepHitTimeStamp } := by
    intro q
    unfold recalculatePosition
    rw [if_neg hg]
    dsimp only
    rw [hmax]
  refine ⟨?_, ?_, ?_⟩
  · intro hne
    rw [hrec p, if_neg (fun e => hne e.symm)]
    exact ⟨rfl, rfl, rfl, rfl⟩
  · intro he
    rw [hrec p, if_pos he.symm]
  · by_cases he : p.positionTimeStamp =
        max s.cycleData0.sweepHitTimeStamp s.cycleData1.sweepHitTimeStamp
    · rw [hrec p, if_pos he, hrec p, if_pos he]
    · rw [hrec p, if_neg he, hrec _, if_pos rfl]

theorem recalculatePosition_new_fix_witness :
    (sampleBothAxes.cycleData0.sweepHitTimeStamp ≠ 0 ∧
      sampleBothAxes.cycleData1.sweepHitTimeStamp ≠ 0) ∧
    ((max sampleBothAxes.cycleData0.sweepHitTimeStamp sampleBothAxes.cycleData1.sweepHitTimeStamp
        ≠ samplePosition.positionTimeStamp →
      (recalculatePosition (fun _ => ((7, 8) : Int × Int)) sampleBothAxes
          samplePosition).positionTimeStamp =
          max sampleBothAxes.cycleData0.sweepHitTimeStamp
            sampleBothAxes.cycleData1.sweepHitTimeStamp ∧
        (recalculatePosition (fun _ => ((7, 8) : Int × Int)) sampleBothAxes
          samplePosition).positionVector = (7, 8) ∧
        (recalculatePosition (fun _ => ((7, 8) : Int × Int)) sampleBothAxes
          samplePosition).previousPositionVector = samplePosition.positionVector ∧
        (recalculatePosition (fun _ => ((7, 8) : Int × Int)) sampleBothAxes
          samplePosition).previousPositionTimeStamp = samplePosition.positionTimeStamp) ∧
    (max sampleBothAxes.cycleData0.sweepHitTimeStamp sampleBothAxes.cycleData1.sweepHitTimeStamp
        = samplePosition.positionTimeStamp →
      recalculatePosition (fun _ => ((7, 8) : Int × Int)) sampleBothAxes samplePosition
        = samplePosition) ∧
    recalculatePosition (fun _ => ((7, 8) : Int × Int)) sampleBothAxes
        (recalculatePosition (fun _ => ((7, 8) : Int × Int)) sampleBothAxes samplePosition)
      = recalculatePosition (fun _ => ((7, 8) : Int × Int)) sampleBothAxes samplePosition) :=
  ⟨⟨by decide, by decide⟩,
    recalculatePosition_new_fix (fun _ => ((7, 8) : Int × Int)) sampleBothAxes samplePosition
      (by decide) (by decide)⟩

/-- C20: when cycleData[0].sweepHitTimeStamp or cycleData[1].sweepHitTimeStamp
is 0, recalculatePosition changes nothing: the position, the previous position
and both timestamps are as before. -/
theorem recalculatePosition_no_signal {V : Type} (fix : LighthouseSensor → V)
    (s : LighthouseSensor) (p : SensorPosition V)
    (h : s.cycleData0.sweepHitTimeStamp = 0 ∨ s.cycleData1.sweepHitTimeStamp = 0) :
    recalculatePosition fix s p = p ∧
      (recalculatePosition fix s p).positionVector = p.positionVector ∧
      (recalculatePosition fix s p).positionTimeStamp = p.positionTimeStamp ∧
      (recalculatePosition fix s p).previousPositionVector = p.previousPositionVector ∧
      (recalculatePosition fix s p).previousPositionTimeStamp = p.previousPositionTimeStamp := by
  have e : recalculatePosition fix s p = p := by
    unfold recalculatePosition
    rw [if_pos h]
  rw [e]
  exact ⟨rfl, rfl, rfl, rfl, rfl⟩

theorem recalculatePosition_no_signal_witness :
    (sampleSyncFallingX.cycleData0.sweepHitTimeStamp = 0 ∨
      sampleSyncFallingX.cycleData1.sweepHitTimeStamp = 0) ∧
    (recalculatePosition (fun _ => ((7, 8) : Int × Int)) sampleSyncFallingX samplePosition
        = samplePosition ∧
      (recalculatePosition (fun _ => ((7, 8) : Int × Int)) sampleSyncFallingX
        samplePosition).positionVector = samplePosition.positionVector ∧
      (recalculatePosition (fun _ => ((7, 8) : Int × Int)) sampleSyncFallingX
        samplePosition).positionTimeStamp = samplePosition.positionTimeStamp ∧
      (recalculatePosition (fun _ => ((7, 8) : Int × Int)) sampleSyncFallingX
        samplePosition).previousPositionVector = samplePosition.previousPositionVector ∧
      (recalculatePosition (fun _ => ((7, 8) : Int × Int)) sampleSyncFallingX
        samplePosition).previousPositionTimeStamp = samplePosition.previousPositionTimeStamp) :=
  ⟨Or.inr rfl,
    recalculatePosition_no_signal (fun _ => ((7, 8) : Int × Int)) sampleSyncFallingX
      samplePosition (Or.inr rfl)⟩


/-! ## Geometry of the position fix and of the lighthouse offset -/

/-- The state `recalculatePosition` returns when it takes a new fix. -/
theorem recalculatePosition_stores {V : Type} (fix : LighthouseSensor → V)
    (s : LighthouseSensor) (p : SensorPosition V)
    (h0 : s.cycleData0.sweepHitTimeStamp ≠ 0) (h1 : s.cycleData1.sweepHitTimeStamp ≠ 0)
    (hT : max s.cycleData0.sweepHitTimeStamp s.cycleData1.sweepHitTimeStamp
      ≠ p.positionTimeStamp) :
    recalculatePosition fix s p =
      { previousPositionVector := p.positionVector
        previousPositionTimeStamp := p.positionTimeStamp
        positionVector := fix s
        positionTimeStamp :=
          max s.cycleData0.sweepHitTimeStamp s.cycleData1.sweepHitTimeStamp } := by
  have hg : ¬ (s.cycleData0.sweepHitTimeStamp = 0 ∨ s.cycleData1.sweepHitTimeStamp = 0) := by
    rintro (h | h)
    · exact h0 h
    · exact h1 h
  have hmax : (if s.cycleData0.sweepHitTimeStamp > s.cycleData1.sweepHitTimeStamp then
        s.cycleData0.sweepHitTimeStamp else s.cycleData1.sweepHitTimeStamp)
      = max s.cycleData0.sweepHitTimeStamp s.cycleData1.sweepHitTimeStamp := by
    split_ifs <;> omega
  unfold recalculatePosition
  rw [if_neg hg]
  dsimp only
  rw [hmax, if_neg (fun e => hT e.symm)]

/-- C21: for every lighthouse offset L and direction d with d.z nonzero, in
exact arithmetic, the position (px, py) that recalculatePosition stores when it
takes a fix satisfies (px, py, 0) = L + t d with t = -L.z / d.z, the
intersection of the line through L along d with the plane z = 0; and the
stored position is the same when d is scaled by a nonzero factor c. -/
theorem recalculatePosition_plane_intersection {K : Type} [Field K] (L d : KVector3 K) (c : K)
    (s : LighthouseSensor) (p : SensorPosition (KVector2 K))
    (hd : d.z ≠ 0) (hc : c ≠ 0)
    (h0 : s.cycleData0.sweepHitTimeStamp ≠ 0) (h1 : s.cycleData1.sweepHitTimeStamp ≠ 0)
    (hT : max s.cycleData0.sweepHitTimeStamp s.cycleData1.sweepHitTimeStamp
      ≠ p.positionTimeStamp) :
    (recalculatePosition (fun _ => groundPlanePosition L d) s p).positionVector.x
        = L.x + (-L.z / d.z) * d.x ∧
    (recalculatePosition (fun _ => groundPlanePosition L d) s p).positionVector.y
        = L.y + (-L.z / d.z) * d.y ∧
    (0 : K) = L.z + (-L.z / d.z) * d.z ∧
    (recalculatePosition
        (fun _ => groundPlanePosition L { x := c * d.x, y := c * d.y, z := c * d.z }) s
        p).positionVector
      = (recalculatePosition (fun _ => groundPlanePosition L d) s p).positionVector := by
  rw [recalculatePosition_stores _ s p h0 h1 hT, recalculatePosition_stores _ s p h0 h1 hT]
  refine ⟨?_, ?_, ?_, ?_⟩
  · show L.x + d.x * (-L.z / d.z) = _
    ring
  · show L.y + d.y * (-L.z / d.z) = _
    ring
  · field_simp
  · show groundPlanePosition L { x := c * d.x, y := c * d.y, z := c * d.z }
      = groundPlanePosition L d
    unfold groundPlanePosition
    dsimp only
    have e : -L.z / (c * d.z) * c = -L.z / d.z := by
      field_simp
      ring
    congr 1
    · rw [mul_comm c d.x, mul_assoc, mul_comm c, e]
    · rw [mul_comm c d.y, mul_assoc, mul_comm c, e]


theorem recalculatePosition_plane_intersection_witness :
    (((-2 : ℚ) ≠ 0 ∧ (3 : ℚ) ≠ 0) ∧
      sampleBothAxes.cycleData0.sweepHitTimeStamp ≠ 0 ∧
      sampleBothAxes.cycleData1.sweepHitTimeStamp ≠ 0 ∧
      max sampleBothAxes.cycleData0.sweepHitTimeStamp
          sampleBothAxes.cycleData1.sweepHitTimeStamp
        ≠ samplePositionQ.positionTimeStamp) ∧
    ((recalculatePosition
          (fun _ => groundPlanePosition ({ x := 1, y := 2, z := 4 } : KVector3 ℚ)
            { x := 1, y := 1, z := -2 }) sampleBothAxes samplePositionQ).positionVector.x
        = 1 + (-4 / -2) * 1 ∧
      (recalculatePosition
          (fun _ => groundPlanePosition ({ x := 1, y := 2, z := 4 } : KVector3 ℚ)
            { x := 1, y := 1, z := -2 }) sampleBothAxes samplePositionQ).positionVector.y
        = 2 + (-4 / -2) * 1 ∧
      (0 : ℚ) = 4 + (-4 / -2) * -2 ∧
      (recalculatePosition
          (fun _ => groundPlanePosition ({ x := 1, y := 2, z := 4 } : KVector3 ℚ)
            { x := 3 * 1, y := 3 * 1, z := 3 * -2 }) sampleBothAxes
          samplePositionQ).positionVector
        = (recalculatePosition
          (fun _ => groundPlanePosition ({ x := 1, y := 2, z := 4 } : KVector3 ℚ)
            { x := 1, y := 1, z := -2 }) sampleBothAxes samplePositionQ).positionVector) :=
  ⟨⟨⟨by decide, by decide⟩, by decide, by decide, by decide⟩,
    recalculatePosition_plane_intersection ({ x := 1, y := 2, z := 4 } : KVector3 ℚ)
      { x := 1, y := 1, z := -2 } 3 sampleBothAxes samplePositionQ
      (by decide) (by decide) (by decide) (by decide) (by decide)⟩


theorem lighthouse_height_eq {K : Type} [Field K] :
    (LIGHTHOUSE_CENTER_HEIGHT_FROM_FLOOR_MM - ROBOT_DIODE_HEIGHT_MM : K) = 902 := by
  unfold LIGHTHOUSE_CENTER_HEIGHT_FROM_FLOOR_MM ROBOT_DIODE_HEIGHT_MM
  norm_num

/-- C22: for every forward vector f with f.z nonzero, in exact arithmetic,
calculateLighthousePosition stores lighthousePosition =
(-f.x t, -f.y t, h) with h = 940 - 38 = 902 and t = -h / f.z; the stored height
is h whatever f is, and the line from the stored offset along f meets the plane
z = 0 at the origin: lighthousePosition + t f = (0, 0, 0). -/
theorem lighthousePositionOf_meets_origin {K : Type} [Field K] (f : KVector3 K)
    (hf : f.z ≠ 0) :
    lighthousePositionOf f =
      { x := -f.x * (-902 / f.z), y := -f.y * (-902 / f.z), z := 902 } ∧
    (lighthousePositionOf f).z = 940 - 38 ∧
    (lighthousePositionOf f).x + (-902 / f.z) * f.x = 0 ∧
    (lighthousePositionOf f).y + (-902 / f.z) * f.y = 0 ∧
    (lighthousePositionOf f).z + (-902 / f.z) * f.z = 0 := by
  have e : lighthousePositionOf f =
      { x := -f.x * (-902 / f.z), y := -f.y * (-902 / f.z), z := 902 } := by
    unfold lighthousePositionOf
    dsimp only
    rw [lighthouse_height_eq]
  rw [e]
  refine ⟨rfl, ?_, ?_, ?_, ?_⟩
  · show (902 : K) = 940 - 38
    norm_num
  · show -f.x * (-902 / f.z) + (-902 / f.z) * f.x = 0
    ring
  · show -f.y * (-902 / f.z) + (-902 / f.z) * f.y = 0
    ring
  · show (902 : K) + (-902 / f.z) * f.z = 0
    field_simp

theorem lighthousePositionOf_meets_origin_witness :
    ((-4 : ℚ) ≠ 0) ∧
    (lighthousePositionOf ({ x := 1, y := 2, z := -4 } : KVector3 ℚ) =
        { x := -1 * (-902 / -4), y := -2 * (-902 / -4), z := 902 } ∧
      (lighthousePositionOf ({ x := 1, y := 2, z := -4 } : KVector3 ℚ)).z = 940 - 38 ∧
      (lighthousePositionOf ({ x := 1, y := 2, z := -4 } : KVector3 ℚ)).x
        + (-902 / -4) * 1 = 0 ∧
      (lighthousePositionOf ({ x := 1, y := 2, z := -4 } : KVector3 ℚ)).y
        + (-902 / -4) * 2 = 0 ∧
      (lighthousePositionOf ({ x := 1, y := 2, z := -4 } : KVector3 ℚ)).z
        + (-902 / -4) * -4 = 0) :=
  ⟨by decide,
    lighthousePositionOf_meets_origin ({ x := 1, y := 2, z := -4 } : KVector3 ℚ) (by decide)⟩


/-! ## The pose combiner -/

theorem recalculateVelocity_position {K : Type} [LinearOrderedField K] (ops : KVector2Ops K)
    (s : SensorState K) (o : KVector2 K) :
    (recalculateVelocity ops s o).position = s.position := by
  unfold recalculateVelocity
  split_ifs <;> rfl

/-- C23: after Lighthouse::recalculate, with T the larger of the two sensors'
positionTimeStamp after their updates: if T differs from the robot's
positionTimeStamp on entry, the robot position is the midpoint of the two
sensor positions, positionTimeStamp is T and the previous position and
timestamp hold the values on entry; if T equals it, the robot position, its
timestamp, the previous position and its timestamp are unchanged. -/
theorem recalculate_combines_position {K : Type} [LinearOrderedField K] (ops : KVector2Ops K)
    (hasLighthouseSignal : LighthouseSensor → Bool) (fix : LighthouseSensor → KVector2 K)
    (millis : Nat) (l : Lighthouse K) :
    (max (l.recalculate ops hasLighthouseSignal fix millis).leftSensor.position.positionTimeStamp
        (l.recalculate ops hasLighthouseSignal fix millis).rightSensor.position.positionTimeStamp
        ≠ l.positionTimeStamp →
      (l.recalculate ops hasLighthouseSignal fix millis).positionVector =
        { x := ((l.recalculate ops hasLighthouseSignal fix
                  millis).leftSensor.position.positionVector.x
                + (l.recalculate ops hasLighthouseSignal fix
                  millis).rightSensor.position.positionVector.x) / 2
          y := ((l.recalculate ops hasLighthouseSignal fix
                  millis).leftSensor.position.positionVector.y
                + (l.recalculate ops hasLighthouseSignal fix
                  millis).rightSensor.position.positionVector.y) / 2 } ∧
      (l.recalculate ops hasLighthouseSignal fix millis).positionTimeStamp =
        max (l.recalculate ops hasLighthouseSignal fix
              millis).leftSensor.position.positionTimeStamp
          (l.recalculate ops hasLighthouseSignal fix
              millis).rightSensor.position.positionTimeStamp ∧
      (l.recalculate ops hasLighthouseSignal fix millis).previousPositionVector
        = l.positionVector ∧
      (l.recalculate ops hasLighthouseSignal fix millis).previousPositionTimeStamp
        = l.positionTimeStamp) ∧
    (max (l.recalculate ops hasLighthouseSignal fix millis).leftSensor.position.positionTimeStamp
        (l.recalculate ops hasLighthouseSignal fix millis).rightSensor.position.positionTimeStamp
        = l.positionTimeStamp →
      (l.recalculate ops hasLighthouseSignal fix millis).positionVector = l.positionVector ∧
      (l.recalculate ops hasLighthouseSignal fix millis).positionTimeStamp
        = l.positionTimeStamp ∧
      (l.recalculate ops hasLighthouseSignal fix millis).previousPositionVector
        = l.previousPositionVector ∧
      (l.recalculate ops hasLighthouseSignal fix millis).previousPositionTimeStamp
        = l.previousPositionTimeStamp) := by
  unfold Lighthouse.recalculate
  dsimp only
  generalize updateSensorPosition ops hasLighthouseSignal fix l.leftSensor
    l.previousOrientationVector l.orientationVector millis = ls
  generalize updateSensorPosition ops hasLighthouseSignal fix l.rightSensor
    l.previousOrientationVector l.orientationVector millis = rs
  simp only [recalculateVelocity_position]
  have hmax : (if ls.position.positionTimeStamp > rs.position.positionTimeStamp then
        ls.position.positionTimeStamp else rs.position.positionTimeStamp)
      = max ls.position.positionTimeStamp rs.position.positionTimeStamp := by
    split_ifs <;> omega
  rw [hmax]
  generalize max ls.position.positionTimeStamp rs.position.positionTimeStamp = T
  constructor
  · intro hT
    have hne : l.positionTimeStamp ≠ T := fun e => hT e.symm
    simp only [if_pos hne]
    split_ifs <;> exact ⟨rfl, rfl, rfl, rfl⟩
  · intro hT
    have hne : ¬ (l.positionTimeStamp ≠ T) := fun e => e hT.symm
    simp only [if_neg hne]
    split_ifs <;> exact ⟨rfl, rfl, rfl, rfl⟩


/-- The components handed to `orientationVector.set` at lines 419-420 are the x
and y components of the cross product of (0, 0, -1) with the sensor-to-sensor
vector extended by a zero, whose z component is 0, and their dot product with
the sensor-to-sensor vector is 0. -/
theorem headingComponents_cross_product {K : Type} [Field K] (left right : KVector2 K) :
    crossProduct ({ x := 0, y := 0, z := -1 } : KVector3 K)
        { x := left.x - right.x, y := left.y - right.y, z := 0 }
      = { x := (headingComponents left right).x, y := (headingComponents left right).y,
          z := 0 } ∧
    headingComponents left right = { x := left.y - right.y, y := -(left.x - right.x) } ∧
    (headingComponents left right).dotVector
        { x := left.x - right.x, y := left.y - right.y } = 0 := by
  refine ⟨?_, rfl, ?_⟩
  · unfold crossProduct headingComponents
    dsimp only
    congr 1 <;> ring
  · unfold KVector2.dotVector headingComponents
    dsimp only
    ring

/-- The left sensor of `sampleLighthouseHeaded` holds the fix (100, 90). -/
theorem sampleLighthouseHeaded_left :
    sampleLighthouseHeaded.leftSensor.position.positionVector = sampleLeftFix := by
  norm_num [sampleLighthouseHeaded, sampleLeftFix, Lighthouse.recalculate, updateSensorPosition,
    recalculatePosition, recalculateVelocity, sampleLighthouseApart, sampleLighthouseStart,
    sampleSensorStart, sampleBothAxes, sampleBothAxesRight, sampleFix, hasLighthouseSignal,
    sampleHeadingOps]

/-- The right sensor of `sampleLighthouseHeaded` holds the fix (96, 93). -/
theorem sampleLighthouseHeaded_right :
    sampleLighthouseHeaded.rightSensor.position.positionVector = sampleRightFix := by
  norm_num [sampleLighthouseHeaded, sampleRightFix, Lighthouse.recalculate, updateSensorPosition,
    recalculatePosition, recalculateVelocity, sampleLighthouseApart, sampleLighthouseStart,
    sampleSensorStart, sampleBothAxes, sampleBothAxesRight, sampleFix, hasLighthouseSignal,
    sampleHeadingOps]

/-- The heading stored in `sampleLighthouseHeaded` is (-3/5, -4/5): the
components (90 - 93, -(100 - 96)) scaled to length 1. -/
theorem sampleLighthouseHeaded_heading :
    sampleLighthouseHeaded.orientationVector = { x := -3 / 5, y := -4 / 5 } := by
  norm_num [sampleLighthouseHeaded, Lighthouse.recalculate, updateSensorPosition,
    recalculatePosition, recalculateVelocity, sampleLighthouseApart, sampleLighthouseStart,
    sampleSensorStart, sampleBothAxes, sampleBothAxesRight, sampleFix, hasLighthouseSignal,
    sampleHeadingOps, headingComponents]

/-- C24: in Lighthouse::recalculate, with left and right the positions of the
two sensors after their updates and T the larger of their timestamps: the
components (leftY - rightY, -(leftX - rightX)) are the x and y components of the
cross product of (0, 0, -1) with (leftX - rightX, leftY - rightY, 0), whose z
component is 0, and their dot product with the sensor-to-sensor vector is 0.
When T differs from orientationTimeStamp on entry, the heading stored is
set(leftY - rightY, -(leftX - rightX), 1.0), the previous heading and timestamp
hold the values on entry and orientationTimeStamp is T; provided
set(x, y, ofLength), which KVector.h declares without code, returns a multiple
of (x, y), the stored heading is perpendicular to the sensor-to-sensor vector.
When T equals orientationTimeStamp the heading members are unchanged. -/
theorem recalculate_heading_is_down_cross_baseline {K : Type} [LinearOrderedField K]
    (ops : KVector2Ops K) (hasLighthouseSignal : LighthouseSensor → Bool)
    (fix : LighthouseSensor → KVector2 K) (millis : Nat) (l : Lighthouse K)
    (left right : KVector2 K) (T : Nat)
    (hleft : (l.recalculate ops hasLighthouseSignal fix millis).leftSensor.position.positionVector
      = left)
    (hright : (l.recalculate ops hasLighthouseSignal fix millis).rightSensor.position.positionVector
      = right)
    (hT :
      max (l.recalculate ops hasLighthouseSignal fix millis).leftSensor.position.positionTimeStamp
        (l.recalculate ops hasLighthouseSignal fix millis).rightSensor.position.positionTimeStamp
      = T)
    (hset : ∀ x y ofLength : K, ∃ c : K,
      ops.setOfLength x y ofLength = { x := c * x, y := c * y }) :
    crossProduct ({ x := 0, y := 0, z := -1 } : KVector3 K)
        { x := left.x - right.x, y := left.y - right.y, z := 0 }
      = { x := left.y - right.y, y := -(left.x - right.x), z := 0 } ∧
    KVector2.dotVector { x := left.y - right.y, y := -(left.x - right.x) }
        { x := left.x - right.x, y := left.y - right.y } = 0 ∧
    (l.orientationTimeStamp ≠ T →
      (l.recalculate ops hasLighthouseSignal fix millis).orientationVector =
        ops.setOfLength (left.y - right.y) (-(left.x - right.x)) 1 ∧
      (l.recalculate ops hasLighthouseSignal fix millis).orientationVector.dotVector
        { x := left.x - right.x, y := left.y - right.y } = 0 ∧
      (l.recalculate ops hasLighthouseSignal fix millis).orientationTimeStamp = T ∧
      (l.recalculate ops hasLighthouseSignal fix millis).previousOrientationVector
        = l.orientationVector ∧
      (l.recalculate ops hasLighthouseSignal fix millis).previousOrientationTimeStamp
        = l.orientationTimeStamp) ∧
    (l.orientationTimeStamp = T →
      (l.recalculate ops hasLighthouseSignal fix millis).orientationVector
        = l.orientationVector ∧
      (l.recalculate ops hasLighthouseSignal fix millis).orientationTimeStamp
        = l.orientationTimeStamp ∧
      (l.recalculate ops hasLighthouseSignal fix millis).previousOrientationVector
        = l.previousOrientationVector ∧
      (l.recalculate ops hasLighthouseSignal fix millis).previousOrientationTimeStamp
        = l.previousOrientationTimeStamp) := by
  have hcross := (headingComponents_cross_product left right).1
  have hdot := (headingComponents_cross_product left right).2.2
  unfold headingComponents at hcross hdot
  dsimp only at hcross hdot
  refine ⟨hcross, hdot, ?_⟩
  unfold Lighthouse.recalculate at hleft hright hT ⊢
  dsimp only at hleft hright hT ⊢
  generalize updateSensorPosition ops hasLighthouseSignal fix l.leftSensor
    l.previousOrientationVector l.orientationVector millis = ls at hleft hright hT ⊢
  generalize updateSensorPosition ops hasLighthouseSignal fix l.rightSensor
    l.previousOrientationVector l.orientationVector millis = rs at hleft hright hT ⊢
  simp only [recalculateVelocity_position] at hleft hright hT
  have hmax : (if ls.position.positionTimeStamp > rs.position.positionTimeStamp then
        ls.position.positionTimeStamp else rs.position.positionTimeStamp) = T := by
    rw [← hT]
    split_ifs <;> omega
  rw [hmax, hleft, hright]
  unfold headingComponents
  dsimp only
  constructor
  · intro hne
    obtain ⟨c, hc⟩ := hset (left.y - right.y) (-(left.x - right.x)) 1
    have hperp : (ops.setOfLength (left.y - right.y) (-(left.x - right.x)) 1).dotVector
        { x := left.x - right.x, y := left.y - right.y } = 0 := by
      rw [hc]
      unfold KVector2.dotVector
      dsimp only
      ring
    split_ifs <;> exact ⟨rfl, hperp, rfl, rfl, rfl⟩
  · intro heq
    split_ifs <;> first | exact ⟨rfl, rfl, rfl, rfl⟩ | exact absurd heq (by assumption)

theorem recalculate_heading_is_down_cross_baseline_witness :
    (sampleLighthouseHeaded.leftSensor.position.positionVector = sampleLeftFix ∧
      sampleLighthouseHeaded.rightSensor.position.positionVector = sampleRightFix ∧
      max sampleLighthouseHeaded.leftSensor.position.positionTimeStamp
        sampleLighthouseHeaded.rightSensor.position.positionTimeStamp = 20 ∧
      (∀ x y ofLength : ℚ, ∃ c : ℚ,
        sampleHeadingOps.setOfLength x y ofLength = { x := c * x, y := c * y }) ∧
      sampleLighthouseApart.orientationTimeStamp ≠ 20 ∧
      sampleLighthouseHeaded.orientationVector = { x := -3 / 5, y := -4 / 5 }) ∧
    (crossProduct ({ x := 0, y := 0, z := -1 } : KVector3 ℚ)
        { x := sampleLeftFix.x - sampleRightFix.x, y := sampleLeftFix.y - sampleRightFix.y,
          z := 0 }
      = { x := sampleLeftFix.y - sampleRightFix.y, y := -(sampleLeftFix.x - sampleRightFix.x),
          z := 0 } ∧
    KVector2.dotVector
        { x := sampleLeftFix.y - sampleRightFix.y, y := -(sampleLeftFix.x - sampleRightFix.x) }
        { x := sampleLeftFix.x - sampleRightFix.x, y := sampleLeftFix.y - sampleRightFix.y } = 0 ∧
    (sampleLighthouseApart.orientationTimeStamp ≠ 20 →
      sampleLighthouseHeaded.orientationVector =
        sampleHeadingOps.setOfLength (sampleLeftFix.y - sampleRightFix.y)
          (-(sampleLeftFix.x - sampleRightFix.x)) 1 ∧
      sampleLighthouseHeaded.orientationVector.dotVector
        { x := sampleLeftFix.x - sampleRightFix.x, y := sampleLeftFix.y - sampleRightFix.y } = 0 ∧
      sampleLighthouseHeaded.orientationTimeStamp = 20 ∧
      sampleLighthouseHeaded.previousOrientationVector = sampleLighthouseApart.orientationVector ∧
      sampleLighthouseHeaded.previousOrientationTimeStamp
        = sampleLighthouseApart.orientationTimeStamp) ∧
    (sampleLighthouseApart.orientationTimeStamp = 20 →
      sampleLighthouseHeaded.orientationVector = sampleLighthouseApart.orientationVector ∧
      sampleLighthouseHeaded.orientationTimeStamp = sampleLighthouseApart.orientationTimeStamp ∧
      sampleLighthouseHeaded.previousOrientationVector
        = sampleLighthouseApart.previousOrientationVector ∧
      sampleLighthouseHeaded.previousOrientationTimeStamp
        = sampleLighthouseApart.previousOrientationTimeStamp)) :=
  ⟨⟨sampleLighthouseHeaded_left, sampleLighthouseHeaded_right, by decide,
      fun _ _ ofLength => ⟨ofLength / 5, rfl⟩, by decide, sampleLighthouseHeaded_heading⟩,
    recalculate_heading_is_down_cross_baseline sampleHeadingOps hasLighthouseSignal sampleFix 25
      sampleLighthouseApart sampleLeftFix sampleRightFix 20
      sampleLighthouseHeaded_left sampleLighthouseHeaded_right (by decide)
      (fun _ _ ofLength => ⟨ofLength / 5, rfl⟩)⟩

/-! ## The velocity -/

/-- The velocity `recalculateVelocity` stores when its guard lets it compute
and the position timestamp is after the previous one. -/
theorem recalculateVelocity_computes {K : Type} [LinearOrderedField K] (ops : KVector2Ops K)
    (s : SensorState K) (h : KVector2 K)
    (hPP : s.position.previousPositionTimeStamp ≠ 0)
    (hlt : s.position.previousPositionTimeStamp < s.position.positionTimeStamp)
    (hP : s.position.positionTimeStamp < 2 ^ 32)
    (hV : s.velocityTimeStamp ≠ s.position.positionTimeStamp) :
    (recalculateVelocity ops s h).velocity =
      if (KVector2.dotVector (deltaPositionOf s.position) h) < 0
      then
        -(ops.getD (deltaPositionOf s.position)
          / (((s.position.positionTimeStamp - s.position.previousPositionTimeStamp : ℕ) : K)
              / 1000))
      else
        ops.getD (deltaPositionOf s.position)
          / (((s.position.positionTimeStamp - s.position.previousPositionTimeStamp : ℕ) : K)
              / 1000) := by
  have hg : ¬ (s.position.previousPositionTimeStamp = 0 ∨ s.position.positionTimeStamp = 0 ∨
      s.velocityTimeStamp = s.position.positionTimeStamp) := by
    rintro (h1 | h1 | h1)
    · exact hPP h1
    · omega
    · exact hV h1
  have he : elapsedMillis s =
      s.position.positionTimeStamp - s.position.previousPositionTimeStamp := by
    unfold elapsedMillis UINT_MOD
    omega
  unfold recalculateVelocity
  rw [if_neg hg]
  dsimp only
  rw [he]

/-- A length is positive when the vector has a nonzero dot product with some
vector. -/
theorem getD_pos_of_dot_ne_zero {K : Type} [LinearOrderedField K] (D : K) (v h : KVector2 K)
    (hD0 : 0 ≤ D) (hD2 : D * D = v.x * v.x + v.y * v.y) (hdot : v.dotVector h ≠ 0) :
    0 < D := by
  rcases lt_or_eq_of_le hD0 with hpos | hzero
  · exact hpos
  · exfalso
    rw [← hzero, zero_mul] at hD2
    have hx : v.x * v.x = 0 := by
      nlinarith [mul_self_nonneg v.x, mul_self_nonneg v.y]
    have hy : v.y * v.y = 0 := by
      nlinarith [mul_self_nonneg v.x, mul_self_nonneg v.y]
    have hx0 : v.x = 0 := mul_self_eq_zero.mp hx
    have hy0 : v.y = 0 := mul_self_eq_zero.mp hy
    apply hdot
    unfold KVector2.dotVector
    rw [hx0, hy0]
    ring

/-- C25: when recalculateVelocity computes, for the displacement D = position -
previousPosition of Euclidean length |D| (getD), the heading h and
dt = positionTimeStamp - previousPositionTimeStamp > 0 ms, in exact arithmetic:
|velocity| = |D| / (dt / 1000); velocity is negative exactly when D.h < 0; a
displacement with D.h > 0 gives a positive velocity, and the opposite
displacement over the same dt gives the same magnitude with negative sign. -/
theorem recalculateVelocity_signed_speed {K : Type} [LinearOrderedField K]
    (ops : KVector2Ops K) (s : SensorState K) (h : KVector2 K)
    (hPP : s.position.previousPositionTimeStamp ≠ 0)
    (hlt : s.position.previousPositionTimeStamp < s.position.positionTimeStamp)
    (hP : s.position.positionTimeStamp < 2 ^ 32)
    (hV : s.velocityTimeStamp ≠ s.position.positionTimeStamp)
    (hD0 : 0 ≤ ops.getD (deltaPositionOf s.position))
    (hD2 : ops.getD (deltaPositionOf s.position) * ops.getD (deltaPositionOf s.position)
      = (deltaPositionOf s.position).x * (deltaPositionOf s.position).x
        + (deltaPositionOf s.position).y * (deltaPositionOf s.position).y)
    (hN0 : 0 ≤ ops.getD
        { x := -(deltaPositionOf s.position).x, y := -(deltaPositionOf s.position).y })
    (hN2 : ops.getD
          { x := -(deltaPositionOf s.position).x, y := -(deltaPositionOf s.position).y }
        * ops.getD
          { x := -(deltaPositionOf s.position).x, y := -(deltaPositionOf s.position).y }
      = (deltaPositionOf s.position).x * (deltaPositionOf s.position).x
        + (deltaPositionOf s.position).y * (deltaPositionOf s.position).y) :
    |(recalculateVelocity ops s h).velocity| =
      ops.getD (deltaPositionOf s.position) /
        (((s.position.positionTimeStamp - s.position.previousPositionTimeStamp : ℕ) : K)
          / 1000) ∧
    ((recalculateVelocity ops s h).velocity < 0 ↔ (deltaPositionOf s.position).dotVector h < 0) ∧
    (0 < (deltaPositionOf s.position).dotVector h →
      0 < (recalculateVelocity ops s h).velocity ∧
      (recalculateVelocity ops
          { s with position :=
              { s.position with
                positionVector := s.position.previousPositionVector
                previousPositionVector := s.position.positionVector } } h).velocity
        = -(recalculateVelocity ops s h).velocity) := by
  have hN : ops.getD
        { x := -(deltaPositionOf s.position).x, y := -(deltaPositionOf s.position).y }
      = ops.getD (deltaPositionOf s.position) :=
    (mul_self_inj hN0 hD0).mp (hN2.trans hD2.symm)
  have hdt : (0 : K) <
      ((s.position.positionTimeStamp - s.position.previousPositionTimeStamp : ℕ) : K)
        / 1000 := by
    have : 0 < s.position.positionTimeStamp - s.position.previousPositionTimeStamp := by omega
    have h2 : (0 : K) <
        ((s.position.positionTimeStamp - s.position.previousPositionTimeStamp : ℕ) : K) := by
      exact_mod_cast this
    positivity
  have hq0 : 0 ≤ ops.getD (deltaPositionOf s.position) /
      (((s.position.positionTimeStamp - s.position.previousPositionTimeStamp : ℕ) : K)
        / 1000) := div_nonneg hD0 (le_of_lt hdt)
  have hv := recalculateVelocity_computes ops s h hPP hlt hP hV
  refine ⟨?_, ?_, ?_⟩
  · rw [hv]
    split_ifs
    · rw [abs_neg, abs_of_nonneg hq0]
    · rw [abs_of_nonneg hq0]
  · rw [hv]
    constructor
    · intro hneg
      by_contra hdot
      rw [if_neg hdot] at hneg
      exact absurd hneg (not_lt.mpr hq0)
    · intro hdot
      rw [if_pos hdot]
      have hDpos := getD_pos_of_dot_ne_zero _ (deltaPositionOf s.position) h hD0 hD2
        (ne_of_lt hdot)
      have : 0 < ops.getD (deltaPositionOf s.position) /
          (((s.position.positionTimeStamp - s.position.previousPositionTimeStamp : ℕ) : K)
            / 1000) := div_pos hDpos hdt
      linarith
  · intro hdot
    have hDpos := getD_pos_of_dot_ne_zero _ (deltaPositionOf s.position) h hD0 hD2
      (ne_of_gt hdot)
    have hnot : ¬ ((deltaPositionOf s.position).dotVector h < 0) := not_lt.mpr (le_of_lt hdot)
    have hdelta : deltaPositionOf
        ({ s.position with
            positionVector := s.position.previousPositionVector
            previousPositionVector := s.position.positionVector } :
          SensorPosition (KVector2 K))
        = { x := -(deltaPositionOf s.position).x, y := -(deltaPositionOf s.position).y } := by
      unfold deltaPositionOf
      dsimp only
      congr 1 <;> ring
    have hv2 := recalculateVelocity_computes ops
      { s with position :=
          { s.position with
            positionVector := s.position.previousPositionVector
            previousPositionVector := s.position.positionVector } } h hPP hlt hP hV
    have hdot2 : KVector2.dotVector
        ({ x := -(deltaPositionOf s.position).x, y := -(deltaPositionOf s.position).y } :
          KVector2 K) h < 0 := by
      have : KVector2.dotVector
          ({ x := -(deltaPositionOf s.position).x, y := -(deltaPositionOf s.position).y } :
            KVector2 K) h = -((deltaPositionOf s.position).dotVector h) := by
        unfold KVector2.dotVector
        dsimp only
        ring
      rw [this]
      linarith
    dsimp only at hv2
    rw [hdelta, if_pos hdot2, hN] at hv2
    rw [hv2, hv, if_neg hnot]
    exact ⟨div_pos hDpos hdt, rfl⟩

theorem recalculateVelocity_signed_speed_witness :
    (sampleMoved.position.previousPositionTimeStamp ≠ 0 ∧
      sampleMoved.position.previousPositionTimeStamp < sampleMoved.position.positionTimeStamp ∧
      sampleMoved.position.positionTimeStamp < 2 ^ 32 ∧
      sampleMoved.velocityTimeStamp ≠ sampleMoved.position.positionTimeStamp ∧
      0 ≤ sampleOps.getD (deltaPositionOf sampleMoved.position) ∧
      sampleOps.getD (deltaPositionOf sampleMoved.position)
          * sampleOps.getD (deltaPositionOf sampleMoved.position)
        = (deltaPositionOf sampleMoved.position).x * (deltaPositionOf sampleMoved.position).x
          + (deltaPositionOf sampleMoved.position).y
            * (deltaPositionOf sampleMoved.position).y ∧
      0 ≤ sampleOps.getD
        { x := -(deltaPositionOf sampleMoved.position).x,
          y := -(deltaPositionOf sampleMoved.position).y } ∧
      sampleOps.getD
            { x := -(deltaPositionOf sampleMoved.position).x,
              y := -(deltaPositionOf sampleMoved.position).y }
          * sampleOps.getD
            { x := -(deltaPositionOf sampleMoved.position).x,
              y := -(deltaPositionOf sampleMoved.position).y }
        = (deltaPositionOf sampleMoved.position).x * (deltaPositionOf sampleMoved.position).x
          + (deltaPositionOf sampleMoved.position).y
            * (deltaPositionOf sampleMoved.position).y ∧
      0 < (deltaPositionOf sampleMoved.position).dotVector { x := 1, y := 0 }) ∧
    (|(recalculateVelocity sampleOps sampleMoved { x := 1, y := 0 }).velocity| =
        sampleOps.getD (deltaPositionOf sampleMoved.position) /
          (((sampleMoved.position.positionTimeStamp
              - sampleMoved.position.previousPositionTimeStamp : ℕ) : ℚ) / 1000) ∧
      ((recalculateVelocity sampleOps sampleMoved { x := 1, y := 0 }).velocity < 0 ↔
        (deltaPositionOf sampleMoved.position).dotVector { x := 1, y := 0 } < 0) ∧
      (0 < (deltaPositionOf sampleMoved.position).dotVector { x := 1, y := 0 } →
        0 < (recalculateVelocity sampleOps sampleMoved { x := 1, y := 0 }).velocity ∧
        (recalculateVelocity sampleOps
            { sampleMoved with position :=
                { sampleMoved.position with
                  positionVector := sampleMoved.position.previousPositionVector
                  previousPositionVector := sampleMoved.position.positionVector } }
            { x := 1, y := 0 }).velocity
          = -(recalculateVelocity sampleOps sampleMoved { x := 1, y := 0 }).velocity)) :=
  ⟨⟨by decide, by decide, by decide, by decide,
      by simp [sampleOps],
      by norm_num [sampleOps, sampleMoved, deltaPositionOf],
      by simp [sampleOps],
      by norm_num [sampleOps, sampleMoved, deltaPositionOf],
      by norm_num [sampleMoved, deltaPositionOf, KVector2.dotVector]⟩,
    recalculateVelocity_signed_speed sampleOps sampleMoved { x := 1, y := 0 }
      (by decide) (by decide) (by decide) (by decide)
      (by simp [sampleOps])
      (by norm_num [sampleOps, sampleMoved, deltaPositionOf])
      (by simp [sampleOps])
      (by norm_num [sampleOps, sampleMoved, deltaPositionOf])⟩


/-! ## A missing sync bit after the info block -/

/-- C26 fails on the code: a frame of 33 bytes whose sync position after the
info block carries a 0 is not aborted (both read masks are 0 there, so the
test of lines 758-770 does not fire and readInfoBlockIndex stays 33); the pose
is not computed at once, but the sync bit of the next frame start computes it
from the block of the broken frame. -/
theorem missing_final_sync_still_computes_pose :
    (∃ t, feedOOTX 33
        (LighthouseSensor.init (List.replicate 33 0) SensorCycleData.zero SensorCycleData.zero)
        sampleBrokenFrame = some t ∧
      t.receivedLighthousePosition = false ∧ t.readInfoBlockIndex = 33 ∧
      t.baseStationInfoBlock = sampleBlock33) ∧
    (∃ u, feedOOTX 33
        (LighthouseSensor.init (List.replicate 33 0) SensorCycleData.zero SensorCycleData.zero)
        (sampleBrokenFrame ++ sampleNextFrameStart) = some u ∧
      u.receivedLighthousePosition = true ∧ u.poseSource = some sampleBlock33) := by
  set_option maxRecDepth 100000 in decide


/-! ## The axis bands of the sync pulse -/

/-- C27, as stated, fails: a sync pulse of 3450 ticks lies in the claim's X band
3000-3499, yet processSyncSignal tracks the Y axis after it. -/
theorem sync_axis_nominal_bands_counterexample :
    ¬ (∀ (N : Nat) (s t : LighthouseSensor) (p c : Nat),
        cycleInBounds s → ootxInBounds s →
        2950 ≤ calculateDeltaTicks p c → calculateDeltaTicks p c < 4950 →
        processSyncSignal N s p c = some t →
        ((3000 ≤ calculateDeltaTicks p c ∧ calculateDeltaTicks p c ≤ 3499 ∨
            4000 ≤ calculateDeltaTicks p c ∧ calculateDeltaTicks p c ≤ 4499) →
          t.currentCycle = 0) ∧
        ((3500 ≤ calculateDeltaTicks p c ∧ calculateDeltaTicks p c ≤ 3999 ∨
            4500 ≤ calculateDeltaTicks p c ∧ calculateDeltaTicks p c ≤ 4999) →
          t.currentCycle = 1)) := by
  intro h
  have h1 := h 33 sampleSyncFalling
    { sampleSyncFalling with
      syncBitCounter := 1, zeroCount := 1, currentCycle := 1,
      pendingCycleEdge := CycleEdge.SweepRising,
      cycleData1 := { SensorCycleData.zero with pendingSyncTickCount := 3450 } }
    0 3450 (by unfold cycleInBounds; decide) (by unfold ootxInBounds; decide) (by decide)
    (by decide) (by decide)
  have h2 := h1.1 (Or.inl (by decide))
  revert h2
  decide

/-- C27, amended: for every valid sync pulse width d (2950 <= d < 4950),
processSyncSignal classifies it as the X axis when d is 2950-3449 or 3950-4449
ticks and as the Y axis when d is 3450-3949 or 4450-4949 ticks. -/
theorem sync_axis_threshold_bands (N : Nat) (s : LighthouseSensor) (p c : Nat)
    (hc : cycleInBounds s) (ho : ootxInBounds s)
    (h1 : 2950 ≤ calculateDeltaTicks p c) (h2 : calculateDeltaTicks p c < 4950) :
    ∃ t, processSyncSignal N s p c = some t ∧
      ((2950 ≤ calculateDeltaTicks p c ∧ calculateDeltaTicks p c ≤ 3449 ∨
          3950 ≤ calculateDeltaTicks p c ∧ calculateDeltaTicks p c ≤ 4449) →
        t.currentCycle = 0) ∧
      ((3450 ≤ calculateDeltaTicks p c ∧ calculateDeltaTicks p c ≤ 3949 ∨
          4450 ≤ calculateDeltaTicks p c ∧ calculateDeltaTicks p c ≤ 4949) →
        t.currentCycle = 1) := by
  have hf := foundCycle_eq_mod _ h1 h2
  obtain ⟨s1, -, -, hres⟩ := processSyncSignal_valid N s p c hc ho h1 h2
  generalize calculateDeltaTicks p c = d at *
  refine ⟨_, hres, ?_, ?_⟩
  · intro hb
    show ((foundCycle d : Nat) : Int) = 0
    rw [hf]
    omega
  · intro hb
    show ((foundCycle d : Nat) : Int) = 1
    rw [hf]
    omega

theorem sync_axis_threshold_bands_witness :
    (cycleInBounds sampleSyncFalling ∧ ootxInBounds sampleSyncFalling ∧
      2950 ≤ calculateDeltaTicks 0 3450 ∧ calculateDeltaTicks 0 3450 < 4950) ∧
    ∃ t, processSyncSignal 33 sampleSyncFalling 0 3450 = some t ∧
      ((2950 ≤ calculateDeltaTicks 0 3450 ∧ calculateDeltaTicks 0 3450 ≤ 3449 ∨
          3950 ≤ calculateDeltaTicks 0 3450 ∧ calculateDeltaTicks 0 3450 ≤ 4449) →
        t.currentCycle = 0) ∧
      ((3450 ≤ calculateDeltaTicks 0 3450 ∧ calculateDeltaTicks 0 3450 ≤ 3949 ∨
          4450 ≤ calculateDeltaTicks 0 3450 ∧ calculateDeltaTicks 0 3450 ≤ 4949) →
        t.currentCycle = 1) :=
  ⟨⟨by unfold cycleInBounds; decide, by unfold ootxInBounds; decide, by decide, by decide⟩,
    sync_axis_threshold_bands 33 sampleSyncFalling 0 3450 (by unfold cycleInBounds; decide)
      (by unfold ootxInBounds; decide) (by decide) (by decide)⟩


/-! ## Reachable states of the signal decoder -/

/-- After an edge, the decoder awaits the falling edge of a sweep only with the
axis it tracked while awaiting the sweep. -/
theorem processEdge_sweepFalling_cycle (N : Nat) (s t : LighthouseSensor) (cur ms : Nat)
    (hinv : sensorInv N s) (ht : processEdge N s cur ms = some t)
    (he : t.pendingCycleEdge = CycleEdge.SweepFalling) :
    t.currentCycle = 0 ∨ t.currentCycle = 1 := by
  obtain ⟨hc, hsw, hN, hlen, hidx⟩ := hinv
  have ho : ootxInBounds s := by
    intro _ hm
    rw [hlen]
    exact hidx hm
  cases hs : s.pendingCycleEdge
  · rw [processEdge_syncRising N s cur ms hs] at ht
    cases ht
    cases he
  · rw [processEdge_syncFalling N s cur ms hs] at ht
    by_cases hv : calculateDeltaTicks s.previousTickCount cur < SYNC_PULSE_J0_MIN ∨
        calculateDeltaTicks s.previousTickCount cur ≥ NONSYNC_PULSE_J2_MIN
    · rw [processSyncSignal_invalid N s _ _ hc hv, Option.some_bind] at ht
      cases ht
      rw [show ({ s with currentCycle := -1 } : LighthouseSensor).pendingCycleEdge
        = s.pendingCycleEdge from rfl, hs] at he
      cases he
    · have h1 : SYNC_PULSE_J0_MIN ≤ calculateDeltaTicks s.previousTickCount cur := by omega
      have h2 : calculateDeltaTicks s.previousTickCount cur < NONSYNC_PULSE_J2_MIN := by omega
      obtain ⟨s1, -, -, hres⟩ := processSyncSignal_valid N s _ _ hc ho h1 h2
      rw [hres, Option.some_bind] at ht
      cases ht
      cases he
  · rw [processEdge_sweepRising N s cur ms hs] at ht
    have hcd : ∃ cd, s.getCycle s.currentCycle = some cd := by
      unfold LighthouseSensor.getCycle
      rcases hsw hs with h0 | h1
      · rw [if_pos h0]
        exact ⟨_, rfl⟩
      · rw [if_neg (by omega), if_pos h1]
        exact ⟨_, rfl⟩
    obtain ⟨cd, hcd⟩ := hcd
    by_cases hg : ((cd.pendingSyncTickCount + calculateDeltaTicks s.previousTickCount cur)
        % UINT_MOD + UINT_MOD - SWEEP_START_TICKS) % UINT_MOD < SWEEP_DURATION_TICKS
    · obtain ⟨u, hu, -, -, u3, -, -, -⟩ :=
        processSweepHit_commit_post s s.previousTickCount cur ms cd hcd hg
      rw [hu, Option.some_bind] at ht
      cases ht
      show u.currentCycle = 0 ∨ u.currentCycle = 1
      rw [u3]
      exact hsw hs
    · obtain ⟨u, hu, -, -, -, u4, -, -⟩ :=
        processSweepHit_missed_post s s.previousTickCount cur ms cd hcd (Nat.le_of_not_lt hg)
      rw [hu, Option.some_bind] at ht
      cases ht
      rw [show ({ u with previousTickCount := cur } : LighthouseSensor).pendingCycleEdge
        = u.pendingCycleEdge from rfl, u4] at he
      cases he
  · rw [processEdge_sweepFalling N s cur ms hs] at ht
    cases ht
    cases he

/-- Every state reached from a state that satisfies the decoder invariant
satisfies it, and awaits a sweep edge only while tracking an axis. -/
theorem feedEdges_tracking (N : Nat) (millis : Nat → Nat) (cs : List Nat) :
    ∀ (k : Nat) (s : LighthouseSensor), sensorInv N s →
      (s.pendingCycleEdge = CycleEdge.SweepFalling → s.currentCycle = 0 ∨ s.currentCycle = 1) →
      ∃ t, feedEdges N millis k s cs = some t ∧ sensorInv N t ∧
        (t.pendingCycleEdge = CycleEdge.SweepFalling →
          t.currentCycle = 0 ∨ t.currentCycle = 1) := by
  induction cs with
  | nil => intro k s h hf; exact ⟨s, rfl, h, hf⟩
  | cons c cs ih =>
    intro k s h _
    obtain ⟨s1, h1, hi1⟩ := processEdge_sensorInv N s c (millis k) h
    have hf1 := processEdge_sweepFalling_cycle N s s1 c (millis k) h h1
    obtain ⟨t, ht, hit, hft⟩ := ih (k + 1) s1 hi1 hf1
    refine ⟨t, ?_, hit, hft⟩
    rw [feedEdges, h1, Option.some_bind]
    exact ht

/-- C28: every state reached from the constructor's initial state
(SyncRising, no axis tracked) by a sequence of edges has currentCycle in
{-1, 0, 1}, and currentCycle in {0, 1} whenever pendingCycleEdge is SweepRising
or SweepFalling; every edge of the sequence is processed without an access
outside cycleData, and so is any next edge. -/
theorem reachable_cycle_in_bounds (N : Nat) (blk : List Nat) (c0 c1 : SensorCycleData)
    (millis : Nat → Nat) (k : Nat) (cs : List Nat)
    (hN : 0 < N) (hblk : blk.length = N) :
    ∃ t, feedEdges N millis k (LighthouseSensor.init blk c0 c1) cs = some t ∧
      (t.currentCycle = -1 ∨ t.currentCycle = 0 ∨ t.currentCycle = 1) ∧
      (t.pendingCycleEdge = CycleEdge.SweepRising ∨
          t.pendingCycleEdge = CycleEdge.SweepFalling →
        t.currentCycle = 0 ∨ t.currentCycle = 1) ∧
      (∀ cur ms, ∃ u, processEdge N t cur ms = some u) := by
  have hinit : sensorInv N (LighthouseSensor.init blk c0 c1) := by
    refine ⟨Or.inl rfl, ?_, hN, hblk, ?_⟩
    · intro h
      cases h
    · intro h
      exact absurd rfl h
  obtain ⟨t, ht, hit, hft⟩ := feedEdges_tracking N millis cs k _ hinit (by intro h; cases h)
  refine ⟨t, ht, hit.1, ?_, ?_⟩
  · rintro (h | h)
    · exact hit.2.1 h
    · exact hft h
  · intro cur ms
    obtain ⟨u, hu, -⟩ := processEdge_sensorInv N t cur ms hit
    exact ⟨u, hu⟩

theorem reachable_cycle_in_bounds_witness :
    (0 < 2 ∧ [0xFF, 0x00].length = 2) ∧
    ∃ t, feedEdges 2 (fun k => 10 + k) 0
        (LighthouseSensor.init [0xFF, 0x00] SensorCycleData.zero SensorCycleData.zero)
        [1000, 4450, 104450, 104500, 200000, 203500] = some t ∧
      (t.currentCycle = -1 ∨ t.currentCycle = 0 ∨ t.currentCycle = 1) ∧
      (t.pendingCycleEdge = CycleEdge.SweepRising ∨
          t.pendingCycleEdge = CycleEdge.SweepFalling →
        t.currentCycle = 0 ∨ t.currentCycle = 1) ∧
      (∀ cur ms, ∃ u, processEdge 2 t cur ms = some u) :=
  ⟨⟨by decide, rfl⟩,
    reachable_cycle_in_bounds 2 [0xFF, 0x00] SensorCycleData.zero SensorCycleData.zero
      (fun k => 10 + k) 0 [1000, 4450, 104450, 104500, 200000, 203500] (by decide) rfl⟩


/-! ## Reachable states of the OOTX decoder -/

theorem singleBitOrZero_shiftRight (m : Nat) (h : singleBitOrZero m) :
    singleBitOrZero (m >>> 1) := by
  rcases h with rfl | ⟨k, rfl⟩
  · exact Or.inl rfl
  · cases k with
    | zero => exact Or.inl rfl
    | succ k =>
      refine Or.inr ⟨k, ?_⟩
      rw [Nat.shiftRight_eq_div_pow, pow_succ, pow_one, Nat.mul_div_cancel _ (by decide)]

theorem processOOTXData_framingInv (N : Nat) (s t : LighthouseSensor) (v : Bool)
    (hN : 0 < N) (hinv : ootxFramingInv N s) (h : processOOTXData N s v = some t) :
    ootxFramingInv N t := by
  obtain ⟨h1, h2, h3, h4, h5⟩ := hinv
  have hs4 := singleBitOrZero_shiftRight _ h4
  have hs5 := singleBitOrZero_shiftRight _ h5
  have c80 : singleBitOrZero 0x80 := Or.inr ⟨7, rfl⟩
  have c8000 : singleBitOrZero 0x8000 := Or.inr ⟨15, rfl⟩
  have c0 : singleBitOrZero 0 := Or.inl rfl
  unfold processOOTXData at h
  dsimp only at h
  by_cases hp : s.payloadReadMask ≠ 0
  · have hm0 : s.readInfoBlockMask = 0 := by
      by_contra hm
      exact h3 ⟨hp, hm⟩
    rw [if_pos hp] at h
    split_ifs at h with a1 a2 a3 <;> cases h
    · exact ⟨h1, h2, fun hb => hb.2 hm0, c8000, h5⟩
    · exact ⟨Nat.zero_le _, fun _ => hN, fun hb => hb.1 rfl, c0, c80⟩
    · exact ⟨h1, h2, fun hb => hb.1 rfl, c0, h5⟩
    · exact ⟨h1, h2, fun hb => hb.2 hm0, hs4, h5⟩
  · rw [if_neg hp] at h
    have hp0 : s.payloadReadMask = 0 := not_not.mp hp
    by_cases hm : s.readInfoBlockMask ≠ 0
    · rw [if_pos hm] at h
      have hlt := h2 hm
      cases hx : s.baseStationInfoBlock[s.readInfoBlockIndex]? with
      | none => rw [hx] at h; cases h
      | some b =>
        rw [hx] at h
        dsimp only at h
        split_ifs at h with a1 a2 <;> cases h
        · exact ⟨Nat.le_of_lt a2, fun _ => a2, fun hb => hb.1 hp0, h4, c80⟩
        · exact ⟨hlt, fun hb => absurd rfl hb, fun hb => hb.1 hp0, h4, c0⟩
        · exact ⟨h1, fun _ => hlt, fun hb => hb.1 hp0, h4, hs5⟩
    · rw [if_neg hm] at h
      cases h
      exact ⟨h1, h2, h3, h4, h5⟩

theorem processOOTXBit_framingInv (N : Nat) (s t : LighthouseSensor) (w : Nat)
    (hN : 0 < N) (hinv : ootxFramingInv N s) (h : processOOTXBit N s w = some t) :
    ootxFramingInv N t := by
  have c80 : singleBitOrZero 0x80 := Or.inr ⟨7, rfl⟩
  have c0 : singleBitOrZero 0 := Or.inl rfl
  unfold processOOTXBit at h
  dsimp only at h
  split_ifs at h
  · cases h
    exact ⟨hinv.1, fun hb => absurd rfl hb, fun hb => hb.2 rfl, c80, c0⟩
  · cases h
    exact ⟨hinv.1, fun hb => absurd rfl hb, fun hb => hb.2 rfl, c0, c0⟩
  · exact processOOTXData_framingInv N _ t _ hN (by exact hinv) h
  · cases h
    exact ⟨Nat.zero_le _, fun _ => hN, hinv.2.2.1, hinv.2.2.2.1, hinv.2.2.2.2⟩
  · cases h
    exact hinv
  · exact processOOTXData_framingInv N _ t _ hN (by exact hinv) h

theorem feedOOTX_framingInv (N : Nat) (hN : 0 < N) (ws : List Nat) :
    ∀ s : LighthouseSensor, ootxFramingInv N s → s.baseStationInfoBlock.length = N →
      ∃ t, feedOOTX N s ws = some t ∧ ootxFramingInv N t ∧
        t.baseStationInfoBlock.length = N := by
  induction ws with
  | nil => intro s h hl; exact ⟨s, rfl, h, hl⟩
  | cons w ws ih =>
    intro s h hl
    have ho : ootxInBounds s := by
      intro _ hm
      rw [hl]
      exact h.2.1 hm
    obtain ⟨s1, h1, -⟩ := processOOTXBit_sameTracking N s w ho
    have hi1 := processOOTXBit_framingInv N s s1 w hN h h1
    have hl1 := (processOOTXBit_inv N s s1 w hN hl h.2.1 h1).1
    obtain ⟨t, ht, hit, hlt⟩ := ih s1 hi1 hl1
    refine ⟨t, ?_, hit, hlt⟩
    rw [feedOOTX, h1, Option.some_bind]
    exact ht

/-- C29: every state reached from the constructor's initial state by a
sequence of OOTX bits has readInfoBlockIndex at most
BASE_STATION_INFO_BLOCK_SIZE, has readInfoBlockIndex below it (inside the
buffer) whenever readInfoBlockMask is nonzero, never has payloadReadMask and
readInfoBlockMask both nonzero, and has each of the two masks 0 or a single
set bit; no bit of the sequence makes the decoder write outside the buffer. -/
theorem reachable_ootx_framing (N : Nat) (blk : List Nat) (c0 c1 : SensorCycleData)
    (ws : List Nat) (hN : 0 < N) (hblk : blk.length = N) :
    ∃ t, feedOOTX N (LighthouseSensor.init blk c0 c1) ws = some t ∧
      t.readInfoBlockIndex ≤ N ∧
      (t.readInfoBlockMask ≠ 0 →
        t.readInfoBlockIndex < N ∧ t.readInfoBlockIndex < t.baseStationInfoBlock.length) ∧
      ¬ (t.payloadReadMask ≠ 0 ∧ t.readInfoBlockMask ≠ 0) ∧
      (t.payloadReadMask = 0 ∨ ∃ k, t.payloadReadMask = 2 ^ k) ∧
      (t.readInfoBlockMask = 0 ∨ ∃ k, t.readInfoBlockMask = 2 ^ k) := by
  have hinit : ootxFramingInv N (LighthouseSensor.init blk c0 c1) :=
    ⟨Nat.zero_le _, fun h => absurd rfl h, fun h => h.1 rfl, Or.inl rfl, Or.inl rfl⟩
  obtain ⟨t, ht, ⟨i1, i2, i3, i4, i5⟩, hl⟩ := feedOOTX_framingInv N hN ws _ hinit hblk
  exact ⟨t, ht, i1, fun hm => ⟨i2 hm, by rw [hl]; exact i2 hm⟩, i3, i4, i5⟩

theorem reachable_ootx_framing_witness :
    (0 < 2 ∧ [0xFF, 0x00].length = 2) ∧
    ∃ t, feedOOTX 2
        (LighthouseSensor.init [0xFF, 0x00] SensorCycleData.zero SensorCycleData.zero)
        (sampleFrameWidths.take 40) = some t ∧
      t.readInfoBlockIndex ≤ 2 ∧
      (t.readInfoBlockMask ≠ 0 →
        t.readInfoBlockIndex < 2 ∧ t.readInfoBlockIndex < t.baseStationInfoBlock.length) ∧
      ¬ (t.payloadReadMask ≠ 0 ∧ t.readInfoBlockMask ≠ 0) ∧
      (t.payloadReadMask = 0 ∨ ∃ k, t.payloadReadMask = 2 ^ k) ∧
      (t.readInfoBlockMask = 0 ∨ ∃ k, t.readInfoBlockMask = 2 ^ k) :=
  ⟨⟨by decide, rfl⟩,
    reachable_ootx_framing 2 [0xFF, 0x00] SensorCycleData.zero SensorCycleData.zero
      (sampleFrameWidths.take 40) (by decide) rfl⟩


/-! ## Two estimates within one millisecond -/

/-- C30 fails on the code: from all-zero timestamps, two calls of
Lighthouse::recalculate without a signal while millis() reads 5 both times
leave the left sensor, at the second call of recalculateVelocity, with
positionTimeStamp = previousPositionTimeStamp = 5 and velocityTimeStamp = 0, so
the guard of line 910 lets the velocity be computed, over a time difference of
0 ms; the second call returns with velocityTimeStamp = 5. -/
theorem same_millisecond_estimates_divide_by_zero :
    sampleLighthouseAfterFirst.leftSensor.position.positionTimeStamp = 5 ∧
    sampleLighthouseAfterFirst.leftSensor.position.previousPositionTimeStamp = 0 ∧
    sampleLighthouseAfterFirst.leftSensor.velocityTimeStamp = 0 ∧
    velocityIsComputed sampleLeftAtSecondVelocity = true ∧
    sampleLeftAtSecondVelocity.position.positionTimeStamp = 5 ∧
    sampleLeftAtSecondVelocity.position.previousPositionTimeStamp = 5 ∧
    elapsedMillis sampleLeftAtSecondVelocity = 0 ∧
    (sampleLighthouseAfterFirst.recalculate sampleOps hasLighthouseSignal
        (fun _ => { x := 0, y := 0 }) 5).leftSensor.velocityTimeStamp = 5 := by
  decide


/-! ## The helper `tickCountToAngle` against the tangents of `recalculatePosition` -/

/-- The phase of the sample calibration record is `1 / 256`. -/
theorem sampleRotor_phase : (sampleRotor ℝ).phase = 1 / 256 := by
  have h := (float16ToFloat32_finite 0x1C00 (by decide) (by decide)).2
  simp only [sampleRotor]
  rw [h]
  norm_num

/-- The helper subtracts the phase where `recalculatePosition` adds it: on the
tick count of either axis, `tickCountToAngle` is the inlined expression for the
record with the negated phase.  This holds for every tangent function. -/
theorem tickCountToAngle_eq_negated_phase {K : Type} [Field K] (tan : K → K)
    (s : LighthouseSensor) (r : RotorFactoryCalibrationData K) :
    tickCountToAngle tan (s.cycleData0.sweepTickCount : K) r =
      vectorFromLighthouseX tan s { r with phase := - r.phase } ∧
    tickCountToAngle tan (s.cycleData1.sweepTickCount : K) r =
      vectorFromLighthouseZ tan s { r with phase := - r.phase } := by
  constructor
  · simp only [tickCountToAngle, vectorFromLighthouseX, sub_eq_add_neg]
  · simp only [tickCountToAngle, vectorFromLighthouseZ, sub_eq_add_neg]

/-- With a zero phase the helper and the inlined expressions agree, for every
tangent function. -/
theorem tickCountToAngle_eq_of_phase_zero {K : Type} [Field K] (tan : K → K)
    (s : LighthouseSensor) (r : RotorFactoryCalibrationData K) (h : r.phase = 0) :
    tickCountToAngle tan (s.cycleData0.sweepTickCount : K) r = vectorFromLighthouseX tan s r ∧
    tickCountToAngle tan (s.cycleData1.sweepTickCount : K) r = vectorFromLighthouseZ tan s r := by
  constructor
  · simp only [tickCountToAngle, vectorFromLighthouseX, h, sub_zero, add_zero]
  · simp only [tickCountToAngle, vectorFromLighthouseZ, h, sub_zero, add_zero]

/-- The angles that the helper and the inlined expression hand to the tangent,
at tick count 133333 and phase `1 / 256`, in exact rational arithmetic (the
tangent replaced by the identity). -/
theorem sample_tangent_arguments :
    tickCountToAngle (fun a : ℚ => a) 133333 (sampleRotor ℚ) =
      - (2094395102393195 / 533334000000000000000) - 1 / 256 ∧
    vectorFromLighthouseX (fun a : ℚ => a) sampleNearCentre (sampleRotor ℚ) =
      - (2094395102393195 / 533334000000000000000) + 1 / 256 := by
  have h := (float16ToFloat32_finite 0x1C00 (by decide) (by decide)).2
  constructor
  · simp only [tickCountToAngle, sampleRotor, Rat.cast_id]
    rw [h]
    norm_num [SWEEP_DURATION_TICKS, M_2PI_3]
  · simp only [vectorFromLighthouseX, sampleRotor, Rat.cast_id]
    rw [h]
    norm_num [SWEEP_DURATION_TICKS, M_2PI_3, sampleNearCentre, sampleBothAxes]

/-- C31 (fails on the code): over real arithmetic, with `Real.tan`, the helper
`tickCountToAngle` and the expressions inlined in `recalculatePosition` differ
at tick count 133333 and calibration phase `2 ^ (-8)` (half-precision pattern
`0x1C00`).  The helper subtracts the phase and returns a negative coordinate;
the inlined expressions add it and return a positive coordinate, on both axes. -/
theorem tickCountToAngle_differs_from_inlined_tangent :
    tickCountToAngle Real.tan ((sampleNearCentre.cycleData0.sweepTickCount : ℕ) : ℝ)
        (sampleRotor ℝ) < 0 ∧
    0 < vectorFromLighthouseX Real.tan sampleNearCentre (sampleRotor ℝ) ∧
    tickCountToAngle Real.tan ((sampleNearCentre.cycleData1.sweepTickCount : ℕ) : ℝ)
        (sampleRotor ℝ) < 0 ∧
    0 < vectorFromLighthouseZ Real.tan sampleNearCentre (sampleRotor ℝ) ∧
    tickCountToAngle Real.tan ((sampleNearCentre.cycleData0.sweepTickCount : ℕ) : ℝ)
        (sampleRotor ℝ) ≠ vectorFromLighthouseX Real.tan sampleNearCentre (sampleRotor ℝ) ∧
    tickCountToAngle Real.tan ((sampleNearCentre.cycleData1.sweepTickCount : ℕ) : ℝ)
        (sampleRotor ℝ) ≠ vectorFromLighthouseZ Real.tan sampleNearCentre (sampleRotor ℝ) := by
  have hp : (sampleRotor ℝ).phase = 1 / 256 := sampleRotor_phase
  have hpi := Real.pi_gt_three
  have h0 : ((sampleNearCentre.cycleData0.sweepTickCount : ℕ) : ℝ) = 133333 := by
    norm_num [sampleNearCentre]
  have h1 : ((sampleNearCentre.cycleData1.sweepTickCount : ℕ) : ℝ) = 133333 := by
    norm_num [sampleNearCentre]
  have hneg : ∀ r : RotorFactoryCalibrationData ℝ, r.phase = 1 / 256 →
      tickCountToAngle Real.tan 133333 r < 0 := by
    intro r hr
    unfold tickCountToAngle
    dsimp only
    rw [hr]
    apply Real.tan_neg_of_neg_of_pi_div_two_lt
    · norm_num [SWEEP_DURATION_TICKS, M_2PI_3]
    · have e : ((133333 : ℝ) / (SWEEP_DURATION_TICKS : ℝ) - 1 / 2) * M_2PI_3 - 1 / 256 > -1 := by
        norm_num [SWEEP_DURATION_TICKS, M_2PI_3]
      linarith
  have hposX : 0 < vectorFromLighthouseX Real.tan sampleNearCentre (sampleRotor ℝ) := by
    unfold vectorFromLighthouseX
    dsimp only
    rw [hp, h0]
    apply Real.tan_pos_of_pos_of_lt_pi_div_two
    · norm_num [SWEEP_DURATION_TICKS, M_2PI_3]
    · have e : ((133333 : ℝ) / (SWEEP_DURATION_TICKS : ℝ) - 1 / 2) * M_2PI_3 + 1 / 256 < 1 := by
        norm_num [SWEEP_DURATION_TICKS, M_2PI_3]
      linarith
  have hposZ : 0 < vectorFromLighthouseZ Real.tan sampleNearCentre (sampleRotor ℝ) := by
    unfold vectorFromLighthouseZ
    dsimp only
    rw [hp, h1]
    apply Real.tan_pos_of_pos_of_lt_pi_div_two
    · norm_num [SWEEP_DURATION_TICKS, M_2PI_3]
    · have e : ((133333 : ℝ) / (SWEEP_DURATION_TICKS : ℝ) - 1 / 2) * M_2PI_3 + 1 / 256 < 1 := by
        norm_num [SWEEP_DURATION_TICKS, M_2PI_3]
      linarith
  rw [h0, h1]
  exact ⟨hneg _ hp, hposX, hneg _ hp, hposZ, ne_of_lt ((hneg _ hp).trans hposX),
    ne_of_lt ((hneg _ hp).trans hposZ)⟩

end Zippies
